import Mathlib

/-!
# OPC UA device support: data elements, record connectors, device-support routines

A shallow embedding of the device support layer (`devOpcua.cpp`), the data
element interface (`DataElement.h`, `DataElementUaSdk.h`), the subscription
class and its registry (`SubscriptionUaSdk.cpp`) and the opcuaItem record
(`opcuaItemRecord.cpp`), with theorems about the behaviour of the processing
routines, of the data element tree, of subscriptions and of the record support.
-/

set_option autoImplicit false

namespace DevOpcua

/-! ## Basic types -/

/-- Modelled from the spec: the declaration of `ProcessReason` (`devOpcua.h`) is
not among the sources. The four reasons of spec section 4.2, under the names the
routines of `devOpcua.cpp` use, and `none` for a record processed by the database
without any of them. -/
inductive ProcessReason where
  | none
  | incomingData
  | connectionLoss
  | readComplete
  | writeComplete
  deriving DecidableEq, Repr

/-- What a C++ call can throw: a `std::exception` (with its `what()` text) or
anything else. Only the first kind is caught by `CATCH()`. -/
inductive Thrown where
  | stdException (what : String)
  | other
  deriving DecidableEq, Repr

/-- EPICS time stamp (`epicsTime.h`). -/
structure epicsTimeStamp where
  secPastEpoch : Nat
  nsec : Nat
  deriving DecidableEq, Repr

/-- Time stamp event selecting the device time (`epicsTime.h`). -/
def epicsTimeEventDeviceTime : Int := -2

/-- A double (`epicsFloat64`) in exact arithmetic: a finite value is the rational
it denotes, rounding and overflow are left out; the values that are not finite
(the infinities and NaN) are one value, which is all the routines tell apart. -/
inductive epicsFloat64 where
  | finite (x : ℚ)
  | notFinite
  deriving DecidableEq, Repr

/-- Product of doubles: not finite as soon as one factor is not finite. -/
def epicsFloat64.mul : epicsFloat64 → epicsFloat64 → epicsFloat64
  | epicsFloat64.finite a, epicsFloat64.finite b => epicsFloat64.finite (a * b)
  | _, _ => epicsFloat64.notFinite

/-- Sum of doubles: not finite as soon as one term is not finite. -/
def epicsFloat64.add : epicsFloat64 → epicsFloat64 → epicsFloat64
  | epicsFloat64.finite a, epicsFloat64.finite b => epicsFloat64.finite (a + b)
  | _, _ => epicsFloat64.notFinite

/-- Difference of doubles: not finite as soon as one term is not finite. -/
def epicsFloat64.sub : epicsFloat64 → epicsFloat64 → epicsFloat64
  | epicsFloat64.finite a, epicsFloat64.finite b => epicsFloat64.finite (a - b)
  | _, _ => epicsFloat64.notFinite

instance : Mul epicsFloat64 := ⟨epicsFloat64.mul⟩
instance : Add epicsFloat64 := ⟨epicsFloat64.add⟩
instance : Sub epicsFloat64 := ⟨epicsFloat64.sub⟩

/-- The comparison `x == 0.0`: false for a value that is not finite. -/
def epicsFloat64.isZero : epicsFloat64 → Bool
  | epicsFloat64.finite a => decide (a = 0)
  | epicsFloat64.notFinite => false

/-- The function `std::isfinite`. -/
def epicsFloat64.isfinite : epicsFloat64 → Bool
  | epicsFloat64.finite _ => true
  | epicsFloat64.notFinite => false

/-- Alarm status `COMM_ALARM` (EPICS `alarm.h`). -/
def COMM_ALARM : Nat := 9

/-- Alarm severity `INVALID_ALARM` (EPICS `alarm.h`), the highest severity. -/
def INVALID_ALARM : Nat := 3

/-- The fields of `dbCommon` that device support touches. -/
structure dbCommon where
  name : String
  tse : Int
  tpro : Nat
  time : epicsTimeStamp
  pact : Bool
  udf : Bool
  nsta : Nat
  nsev : Nat
  deriving DecidableEq, Repr

/-- EPICS base `recGblSetSevr` on the common part: the new alarm is taken only
when its severity is higher than the pending one. -/
def dbCommon.recGblSetSevr (prec : dbCommon) (new_stat new_sevr : Nat) : dbCommon :=
  if prec.nsev < new_sevr then { prec with nsta := new_stat, nsev := new_sevr } else prec

/-- Record types: access to the `dbCommon` part of a record. -/
class DbRecord (R : Type) where
  common : R → dbCommon
  setCommon : R → dbCommon → R

/-- EPICS base `recGblSetSevr(prec, stat, sevr)` on any record type. -/
def recGblSetSevr {R : Type} [DbRecord R] (prec : R) (new_stat new_sevr : Nat) : R :=
  DbRecord.setCommon prec ((DbRecord.common prec).recGblSetSevr new_stat new_sevr)

/-- The longin record: `dbCommon` and VAL (epicsInt32). -/
structure longinRecord extends dbCommon where
  val : Int
  deriving DecidableEq, Repr

/-- The longout record: `dbCommon` and VAL (epicsInt32). -/
structure longoutRecord extends dbCommon where
  val : Int
  deriving DecidableEq, Repr

/-- The int64in record: `dbCommon` and VAL (epicsInt64). -/
structure int64inRecord extends dbCommon where
  val : Int
  deriving DecidableEq, Repr

/-- The int64out record: `dbCommon` and VAL (epicsInt64). -/
structure int64outRecord extends dbCommon where
  val : Int
  deriving DecidableEq, Repr

/-- The bi record (as `mbbi`, `mbbiDirect`): `dbCommon`, VAL and RVAL (epicsUInt32). -/
structure biRecord extends dbCommon where
  val : Nat
  rval : Nat
  deriving DecidableEq, Repr

/-- The bo record (as `mbboDirect`): `dbCommon`, VAL and RVAL (epicsUInt32). -/
structure boRecord extends dbCommon where
  val : Nat
  rval : Nat
  deriving DecidableEq, Repr

instance : DbRecord longinRecord := ⟨fun r => r.todbCommon, fun r c => { r with todbCommon := c }⟩
instance : DbRecord longoutRecord := ⟨fun r => r.todbCommon, fun r c => { r with todbCommon := c }⟩
instance : DbRecord int64inRecord := ⟨fun r => r.todbCommon, fun r c => { r with todbCommon := c }⟩
instance : DbRecord int64outRecord := ⟨fun r => r.todbCommon, fun r c => { r with todbCommon := c }⟩
instance : DbRecord biRecord := ⟨fun r => r.todbCommon, fun r c => { r with todbCommon := c }⟩
instance : DbRecord boRecord := ⟨fun r => r.todbCommon, fun r c => { r with todbCommon := c }⟩

/-! ## The record connector -/

/-- Modelled from the spec: the class `RecordConnector` (`RecordConnector.h`) is
not among the sources. The consumer adaptor of spec section 6 with the members
`devOpcua.cpp` uses: the reason, the lock (`lock` counts how often the mutex is
held), the I/O interrupt scan data, and `elem`, the state behind the connector
(data element and item). -/
structure RecordConnector (σ : Type) where
  reason : ProcessReason
  lock : Nat
  isIoIntrScanned : Bool
  ioscanpvt : Nat
  elem : σ

/-- The operations of the connector the routines call. `RecordConnector.h` is not
among the sources, so they are parameters: the read and write operations may
throw (`DataElement.h` documents `std::runtime_error`), as may the two status
checks; `readTimeStamp`, `clearIncomingData` and the two requests return. -/
structure ConnectorOps (σ : Type) where
  readInt32 : σ → Except Thrown Int
  readInt64 : σ → Except Thrown Int
  readUInt32 : σ → Except Thrown Nat
  readTimeStamp : σ → epicsTimeStamp
  checkReadStatus : σ → Except Thrown σ
  checkWriteStatus : σ → Except Thrown σ
  clearIncomingData : σ → σ
  writeInt32 : Int → σ → Except Thrown σ
  writeInt64 : Int → σ → Except Thrown σ
  writeUInt32 : Nat → σ → Except Thrown σ
  requestOpcuaRead : σ → σ
  requestOpcuaWrite : σ → σ

/-- The array reads of a data element that `opcua_read_array` calls, one for
each element type (`DataElementUaSdk.h`). -/
inductive ArrayRead where
  | readArrayOldString
  | readArrayInt8
  | readArrayUInt8
  | readArrayInt16
  | readArrayUInt16
  | readArrayInt32
  | readArrayUInt32
  | readArrayInt64
  | readArrayUInt64
  | readArrayFloat32
  | readArrayFloat64
  deriving DecidableEq, Repr

/-- The array writes of a data element that `opcua_write_array` calls, one for
each element type (`DataElementUaSdk.h`). -/
inductive ArrayWrite where
  | writeArrayOldString
  | writeArrayInt8
  | writeArrayUInt8
  | writeArrayInt16
  | writeArrayUInt16
  | writeArrayInt32
  | writeArrayUInt32
  | writeArrayInt64
  | writeArrayUInt64
  | writeArrayFloat32
  | writeArrayFloat64
  deriving DecidableEq, Repr

/-- A call on the connector (or on its lock), recorded in program order; for the
reads into a buffer with the capacity passed, and the posting of a monitor event
(EPICS `db_post_events`) with the field and the event mask. -/
inductive Call where
  | lock
  | unlock
  | readInt32
  | readInt64
  | readUInt32
  | readTimeStamp
  | checkReadStatus
  | checkWriteStatus
  | clearIncomingData
  | writeInt32 (value : Int)
  | writeInt64 (value : Int)
  | writeUInt32 (value : Nat)
  | requestOpcuaRead
  | requestOpcuaWrite
  | readCString (num : Nat)
  | readArray (method : ArrayRead) (num : Nat)
  | db_post_events (field : String) (mask : Nat)
  | readFloat64
  | writeCString (value : List Nat) (num : Nat)
  | writeArray (method : ArrayWrite) (num : Nat)
  | writeFloat64 (value : epicsFloat64)
  deriving DecidableEq, Repr

/-- A diagnostic line written by a routine (`errlogPrintf`, `std::cerr`). -/
inductive Diag where
  | readVal (name : String) (value : Int)
  | writeVal (name : String) (value : Int)
  | connectionLoss (name : String)
  | error (name : String) (what : String)
  | readString (name : String) (value : List Nat)
  | readArray (name : String) (count : Nat)
  | readFloat (name : String) (value : epicsFloat64)
  | readRval (name : String) (rval : Int)
  | readEnum (name : String) (val : Nat) (rval : Nat)
  | writeString (name : String) (value : List Nat)
  | writeArray (name : String) (count : Nat)
  | writeFloat (name : String) (value : epicsFloat64)
  deriving DecidableEq, Repr

/-- The world a routine runs in: the record, the connector `dpvt` points to
(`none` for a null `dpvt`), the calls made so far and the diagnostics written.
`reasonReads` is a log for the lock discipline: for the routine run on a record
with a connector that led to this world, how often the lock was held at each
read of `pvt->reason`; a run on a record without connector reads no reason and
leaves the log as it is. -/
structure World (R σ : Type) where
  prec : R
  dpvt : Option (RecordConnector σ)
  calls : List Call
  console : List Diag
  reasonReads : List Nat := []

/-- The state inside `TRY { ... }`: `pvt` is the connector behind `dpvt`;
`reasonReads` logs the reads of `pvt->reason` of this run, empty at its start. -/
structure Frame (R σ : Type) where
  prec : R
  pvt : RecordConnector σ
  calls : List Call
  console : List Diag
  reasonReads : List Nat := []

/-- Back from the frame to the world. -/
def Frame.toWorld {R σ : Type} (f : Frame R σ) : World R σ :=
  { prec := f.prec, dpvt := some f.pvt, calls := f.calls, console := f.console,
    reasonReads := f.reasonReads }

/-- A block of statements: runs on a state, ends normally or by a throw; the
state changes made before a throw stay. -/
def Body (S α : Type) : Type := S → Except Thrown α × S

/-- Sequencing of statements. -/
def Body.bind {S α β : Type} (x : Body S α) (f : α → Body S β) : Body S β :=
  fun s => match x s with
    | (Except.ok a, s1) => f a s1
    | (Except.error e, s1) => (Except.error e, s1)

instance {S : Type} : Monad (Body S) where
  pure a := fun s => (Except.ok a, s)
  bind := Body.bind

section Statements

variable {R σ : Type}

/-- The record as it is now. -/
def getRec : Body (Frame R σ) R := fun f => (Except.ok f.prec, f)

/-- Assignment to fields of the record. -/
def setRec (prec : R) : Body (Frame R σ) Unit := fun f => (Except.ok (), { f with prec := prec })

/-- Read `pvt->reason`. The read is logged with the number of times the lock is
held at that moment. The routines read `pvt->reason` in the conditions of one
if-else chain; the embedding reads it once, at the first condition. -/
def pvtReason : Body (Frame R σ) ProcessReason :=
  fun f => (Except.ok f.pvt.reason, { f with reasonReads := f.reasonReads ++ [f.pvt.lock] })

/-- A diagnostic line. -/
def errlogPrintf (d : Diag) : Body (Frame R σ) Unit :=
  fun f => (Except.ok (), { f with console := f.console ++ [d] })

/-- A call of a reading (const) operation of the connector. -/
def callRead {α : Type} (c : Call) (op : σ → Except Thrown α) : Body (Frame R σ) α :=
  fun f => (op f.pvt.elem, { f with calls := f.calls ++ [c] })

/-- A call of an operation of the connector that changes its state and may throw. -/
def callUpdate (c : Call) (op : σ → Except Thrown σ) : Body (Frame R σ) Unit :=
  fun f => match op f.pvt.elem with
    | Except.ok e => (Except.ok (), { f with calls := f.calls ++ [c], pvt := { f.pvt with elem := e } })
    | Except.error t => (Except.error t, { f with calls := f.calls ++ [c] })

/-- A call of an operation of the connector that changes its state and returns. -/
def callTotal (c : Call) (op : σ → σ) : Body (Frame R σ) Unit :=
  fun f => (Except.ok (), { f with calls := f.calls ++ [c], pvt := { f.pvt with elem := op f.pvt.elem } })

/-- The scope of `Guard G(pvt->lock)`: the lock is taken, the block runs, and the
lock is released when the scope is left, by a return or by a throw. -/
def Guard {α : Type} (body : Body (Frame R σ) α) : Body (Frame R σ) α :=
  fun f =>
    let f1 := { f with calls := f.calls ++ [Call.lock], pvt := { f.pvt with lock := f.pvt.lock + 1 } }
    match body f1 with
    | (r, f2) => (r, { f2 with calls := f2.calls ++ [Call.unlock], pvt := { f2.pvt with lock := f2.pvt.lock - 1 } })

/-- The macros `TRY { body } CATCH()` followed by `return ret`: a record with a
null `dpvt` returns 0 at once; a `std::exception` thrown in the body is reported,
raises COMM_ALARM/INVALID_ALARM and makes the routine return 1; anything else
thrown leaves the routine. -/
def TRY_CATCH [DbRecord R] (recName : R → String) (w : World R σ) (body : Body (Frame R σ) Int) :
    Except Thrown Int × World R σ :=
  match w.dpvt with
  | none => (Except.ok 0, w)
  | some pvt =>
    match body { prec := w.prec, pvt := pvt, calls := w.calls, console := w.console } with
    | (Except.ok ret, f) => (Except.ok ret, f.toWorld)
    | (Except.error (Thrown.stdException what), f) =>
      (Except.ok 1,
        { prec := recGblSetSevr f.prec COMM_ALARM INVALID_ALARM, dpvt := some f.pvt, calls := f.calls,
          console := f.console ++ [Diag.error (recName f.prec) what],
          reasonReads := f.reasonReads })
    | (Except.error Thrown.other, f) => (Except.error Thrown.other, f.toWorld)

end Statements

/-! ## Device support routines: integer to/from VAL, unsigned integer to/from RVAL -/

/-- The routine `opcua_read_int32_val` of `devOpcua.cpp` (template instance for `longinRecord`). -/
def opcua_read_int32_val {σ : Type} (ops : ConnectorOps σ) (now : epicsTimeStamp)
    (w : World longinRecord σ) : Except Thrown Int × World longinRecord σ :=
  TRY_CATCH (fun p => p.name) w (Guard do
    let reason ← pvtReason
    if reason = ProcessReason.incomingData ∨ reason = ProcessReason.readComplete then
      let v ← callRead Call.readInt32 ops.readInt32
      setRec { (← getRec) with val := v }
      if (← getRec).tse = epicsTimeEventDeviceTime then
        let t ← callRead Call.readTimeStamp (fun e => Except.ok (ops.readTimeStamp e))
        setRec { (← getRec) with time := t }
      if (← getRec).tpro > 1 then
        errlogPrintf (Diag.readVal (← getRec).name (← getRec).val)
      callUpdate Call.checkReadStatus ops.checkReadStatus
      callTotal Call.clearIncomingData ops.clearIncomingData
      return 0
    else if reason = ProcessReason.connectionLoss then
      setRec (recGblSetSevr (← getRec) COMM_ALARM INVALID_ALARM)
      if (← getRec).tse = epicsTimeEventDeviceTime then
        setRec { (← getRec) with time := now }
      if (← getRec).tpro > 1 then
        errlogPrintf (Diag.connectionLoss (← getRec).name)
      return 1
    else
      setRec { (← getRec) with pact := true }
      callTotal Call.requestOpcuaRead ops.requestOpcuaRead
      return 0)

/-- The routine `opcua_write_int32_val` of `devOpcua.cpp` (template instance for `longoutRecord`). -/
def opcua_write_int32_val {σ : Type} (ops : ConnectorOps σ) (now : epicsTimeStamp)
    (w : World longoutRecord σ) : Except Thrown Int × World longoutRecord σ :=
  TRY_CATCH (fun p => p.name) w (Guard do
    let reason ← pvtReason
    if reason = ProcessReason.incomingData ∨ reason = ProcessReason.readComplete then
      let v ← callRead Call.readInt32 ops.readInt32
      setRec { (← getRec) with val := v }
      if (← getRec).tse = epicsTimeEventDeviceTime then
        let t ← callRead Call.readTimeStamp (fun e => Except.ok (ops.readTimeStamp e))
        setRec { (← getRec) with time := t }
      if (← getRec).tpro > 1 then
        errlogPrintf (Diag.readVal (← getRec).name (← getRec).val)
      setRec { (← getRec) with udf := false }
      callUpdate Call.checkReadStatus ops.checkReadStatus
      callTotal Call.clearIncomingData ops.clearIncomingData
      return 0
    else if reason = ProcessReason.writeComplete then
      callUpdate Call.checkWriteStatus ops.checkWriteStatus
      return 0
    else if reason = ProcessReason.connectionLoss then
      setRec (recGblSetSevr (← getRec) COMM_ALARM INVALID_ALARM)
      if (← getRec).tse = epicsTimeEventDeviceTime then
        setRec { (← getRec) with time := now }
      if (← getRec).tpro > 1 then
        errlogPrintf (Diag.connectionLoss (← getRec).name)
      return 1
    else
      if (← getRec).tpro > 1 then
        errlogPrintf (Diag.writeVal (← getRec).name (← getRec).val)
      callUpdate (Call.writeInt32 (← getRec).val) (ops.writeInt32 (← getRec).val)
      setRec { (← getRec) with pact := true }
      callTotal Call.requestOpcuaWrite ops.requestOpcuaWrite
      return 0)

/-- The routine `opcua_read_int64_val` of `devOpcua.cpp` (template instance for `int64inRecord`). -/
def opcua_read_int64_val {σ : Type} (ops : ConnectorOps σ) (now : epicsTimeStamp)
    (w : World int64inRecord σ) : Except Thrown Int × World int64inRecord σ :=
  TRY_CATCH (fun p => p.name) w (Guard do
    let reason ← pvtReason
    if reason = ProcessReason.incomingData ∨ reason = ProcessReason.readComplete then
      let v ← callRead Call.readInt64 ops.readInt64
      setRec { (← getRec) with val := v }
      if (← getRec).tse = epicsTimeEventDeviceTime then
        let t ← callRead Call.readTimeStamp (fun e => Except.ok (ops.readTimeStamp e))
        setRec { (← getRec) with time := t }
      if (← getRec).tpro > 1 then
        errlogPrintf (Diag.readVal (← getRec).name (← getRec).val)
      callUpdate Call.checkReadStatus ops.checkReadStatus
      callTotal Call.clearIncomingData ops.clearIncomingData
      return 0
    else if reason = ProcessReason.connectionLoss then
      setRec (recGblSetSevr (← getRec) COMM_ALARM INVALID_ALARM)
      if (← getRec).tse = epicsTimeEventDeviceTime then
        setRec { (← getRec) with time := now }
      if (← getRec).tpro > 1 then
        errlogPrintf (Diag.connectionLoss (← getRec).name)
      return 1
    else
      setRec { (← getRec) with pact := true }
      callTotal Call.requestOpcuaRead ops.requestOpcuaRead
      return 0)

/-- The routine `opcua_write_int64_val` of `devOpcua.cpp` (template instance for `int64outRecord`). -/
def opcua_write_int64_val {σ : Type} (ops : ConnectorOps σ) (now : epicsTimeStamp)
    (w : World int64outRecord σ) : Except Thrown Int × World int64outRecord σ :=
  TRY_CATCH (fun p => p.name) w (Guard do
    let reason ← pvtReason
    if reason = ProcessReason.incomingData ∨ reason = ProcessReason.readComplete then
      let v ← callRead Call.readInt64 ops.readInt64
      setRec { (← getRec) with val := v }
      if (← getRec).tse = epicsTimeEventDeviceTime then
        let t ← callRead Call.readTimeStamp (fun e => Except.ok (ops.readTimeStamp e))
        setRec { (← getRec) with time := t }
      if (← getRec).tpro > 1 then
        errlogPrintf (Diag.readVal (← getRec).name (← getRec).val)
      setRec { (← getRec) with udf := false }
      callUpdate Call.checkReadStatus ops.checkReadStatus
      callTotal Call.clearIncomingData ops.clearIncomingData
      return 0
    else if reason = ProcessReason.writeComplete then
      callUpdate Call.checkWriteStatus ops.checkWriteStatus
      return 0
    else if reason = ProcessReason.connectionLoss then
      setRec (recGblSetSevr (← getRec) COMM_ALARM INVALID_ALARM)
      if (← getRec).tse = epicsTimeEventDeviceTime then
        setRec { (← getRec) with time := now }
      if (← getRec).tpro > 1 then
        errlogPrintf (Diag.connectionLoss (← getRec).name)
      return 1
    else
      if (← getRec).tpro > 1 then
        errlogPrintf (Diag.writeVal (← getRec).name (← getRec).val)
      callUpdate (Call.writeInt64 (← getRec).val) (ops.writeInt64 (← getRec).val)
      setRec { (← getRec) with pact := true }
      callTotal Call.requestOpcuaWrite ops.requestOpcuaWrite
      return 0)

/-- The routine `opcua_read_uint32_rval` of `devOpcua.cpp` (template instance for `biRecord`). -/
def opcua_read_uint32_rval {σ : Type} (ops : ConnectorOps σ) (now : epicsTimeStamp)
    (w : World biRecord σ) : Except Thrown Int × World biRecord σ :=
  TRY_CATCH (fun p => p.name) w (Guard do
    let reason ← pvtReason
    if reason = ProcessReason.incomingData ∨ reason = ProcessReason.readComplete then
      let v ← callRead Call.readUInt32 ops.readUInt32
      setRec { (← getRec) with rval := v }
      if (← getRec).tse = epicsTimeEventDeviceTime then
        let t ← callRead Call.readTimeStamp (fun e => Except.ok (ops.readTimeStamp e))
        setRec { (← getRec) with time := t }
      if (← getRec).tpro > 1 then
        errlogPrintf (Diag.readVal (← getRec).name (← getRec).rval)
      callUpdate Call.checkReadStatus ops.checkReadStatus
      callTotal Call.clearIncomingData ops.clearIncomingData
      return 0
    else if reason = ProcessReason.connectionLoss then
      setRec (recGblSetSevr (← getRec) COMM_ALARM INVALID_ALARM)
      if (← getRec).tse = epicsTimeEventDeviceTime then
        setRec { (← getRec) with time := now }
      if (← getRec).tpro > 1 then
        errlogPrintf (Diag.connectionLoss (← getRec).name)
      return 1
    else
      setRec { (← getRec) with pact := true }
      callTotal Call.requestOpcuaRead ops.requestOpcuaRead
      return 0)

/-- The routine `opcua_write_uint32_rval` of `devOpcua.cpp` (template instance for `boRecord`). -/
def opcua_write_uint32_rval {σ : Type} (ops : ConnectorOps σ) (now : epicsTimeStamp)
    (w : World boRecord σ) : Except Thrown Int × World boRecord σ :=
  TRY_CATCH (fun p => p.name) w (Guard do
    let reason ← pvtReason
    if reason = ProcessReason.incomingData ∨ reason = ProcessReason.readComplete then
      let v ← callRead Call.readUInt32 ops.readUInt32
      setRec { (← getRec) with rval := v }
      if (← getRec).tse = epicsTimeEventDeviceTime then
        let t ← callRead Call.readTimeStamp (fun e => Except.ok (ops.readTimeStamp e))
        setRec { (← getRec) with time := t }
      if (← getRec).tpro > 1 then
        errlogPrintf (Diag.readVal (← getRec).name (← getRec).rval)
      setRec { (← getRec) with udf := false }
      callUpdate Call.checkReadStatus ops.checkReadStatus
      callTotal Call.clearIncomingData ops.clearIncomingData
      return 0
    else if reason = ProcessReason.writeComplete then
      callUpdate Call.checkWriteStatus ops.checkWriteStatus
      return 0
    else if reason = ProcessReason.connectionLoss then
      setRec (recGblSetSevr (← getRec) COMM_ALARM INVALID_ALARM)
      if (← getRec).tse = epicsTimeEventDeviceTime then
        setRec { (← getRec) with time := now }
      if (← getRec).tpro > 1 then
        errlogPrintf (Diag.connectionLoss (← getRec).name)
      return 1
    else
      if (← getRec).tpro > 1 then
        errlogPrintf (Diag.writeVal (← getRec).name (← getRec).rval)
      callUpdate (Call.writeUInt32 (← getRec).rval) (ops.writeUInt32 (← getRec).rval)
      setRec { (← getRec) with pact := true }
      callTotal Call.requestOpcuaWrite ops.requestOpcuaWrite
      return 0)

/-! ## Statements about the routines -/

/-- The calls a routine has added to the log of the world it started in. -/
def newCalls {R σ : Type} (w : World R σ) (r : Except Thrown Int × World R σ) : List Call :=
  r.2.calls.drop w.calls.length

/-- The outcome of the connection-loss branch: the routine returns 1, the record
is the old one after `recGblSetSevr(prec, COMM_ALARM, INVALID_ALARM)` (with TIME
set to the current time when TSE selects the device time), the connector is as
before, and the only calls are taking and releasing the lock. -/
def connectionLossOutcome {R σ : Type} [DbRecord R] (now : epicsTimeStamp) (w : World R σ)
    (pvt : RecordConnector σ) (r : Except Thrown Int × World R σ) : Prop :=
  r.1 = Except.ok 1
  ∧ r.2.prec = DbRecord.setCommon w.prec
      { (DbRecord.common w.prec).recGblSetSevr COMM_ALARM INVALID_ALARM with
        time := if (DbRecord.common w.prec).tse = epicsTimeEventDeviceTime then now
                else (DbRecord.common w.prec).time }
  ∧ INVALID_ALARM ≤ (DbRecord.common r.2.prec).nsev
  ∧ ((DbRecord.common w.prec).nsev < INVALID_ALARM →
      (DbRecord.common r.2.prec).nsta = COMM_ALARM ∧ (DbRecord.common r.2.prec).nsev = INVALID_ALARM)
  ∧ r.2.dpvt = some pvt
  ∧ newCalls w r = [Call.lock, Call.unlock]

/-- The outcome of a routine in which a `std::exception` was thrown: nothing
leaves the routine, it returns 1, COMM_ALARM/INVALID_ALARM is raised on the
record, the error is reported and the lock is released. -/
def caughtOutcome {R σ : Type} [DbRecord R] (w : World R σ) (pvt : RecordConnector σ) (what : String)
    (r : Except Thrown Int × World R σ) : Prop :=
  r.1 = Except.ok 1
  ∧ INVALID_ALARM ≤ (DbRecord.common r.2.prec).nsev
  ∧ ((DbRecord.common w.prec).nsev < INVALID_ALARM →
      (DbRecord.common r.2.prec).nsta = COMM_ALARM ∧ (DbRecord.common r.2.prec).nsev = INVALID_ALARM)
  ∧ r.2.console.getLast? = some (Diag.error (DbRecord.common w.prec).name what)
  ∧ (r.2.dpvt.map fun c => c.lock) = some pvt.lock
  ∧ (newCalls w r).getLast? = some Call.unlock

/-! ## Example connector -/

/-- An example leaf behind a connector: its incoming and outgoing slot, for a
node of native type Byte, and the numbers of read and write requests issued. -/
structure ByteLeaf where
  incoming : Option Int
  outgoing : Option Int
  readRequests : Nat
  writeRequests : Nat
  deriving DecidableEq, Repr

/-- Operations of the example connector: reading an empty incoming slot throws,
writing a value outside 0..255 throws (conversion error). -/
def byteLeafOps : ConnectorOps ByteLeaf where
  readInt32 e := match e.incoming with
    | some v => Except.ok v
    | none => Except.error (Thrown.stdException "no incoming data")
  readInt64 e := match e.incoming with
    | some v => Except.ok v
    | none => Except.error (Thrown.stdException "no incoming data")
  readUInt32 e := match e.incoming with
    | some v => Except.ok v.toNat
    | none => Except.error (Thrown.stdException "no incoming data")
  readTimeStamp _ := { secPastEpoch := 1000, nsec := 0 }
  checkReadStatus e := Except.ok e
  checkWriteStatus e := Except.ok e
  clearIncomingData e := { e with incoming := none }
  writeInt32 v e :=
    if 0 ≤ v ∧ v ≤ 255 then Except.ok { e with outgoing := some v }
    else Except.error (Thrown.stdException "value out of range for Byte")
  writeInt64 v e :=
    if 0 ≤ v ∧ v ≤ 255 then Except.ok { e with outgoing := some v }
    else Except.error (Thrown.stdException "value out of range for Byte")
  writeUInt32 v e :=
    if v ≤ 255 then Except.ok { e with outgoing := some v }
    else Except.error (Thrown.stdException "value out of range for Byte")
  requestOpcuaRead e := { e with readRequests := e.readRequests + 1 }
  requestOpcuaWrite e := { e with writeRequests := e.writeRequests + 1 }

/-- Example common part of a record. -/
def exCommon : dbCommon :=
  { name := "REC", tse := 0, tpro := 0, time := { secPastEpoch := 0, nsec := 0 },
    pact := false, udf := true, nsta := 0, nsev := 0 }

/-- Example connector with the given reason and incoming slot. -/
def exConnector (reason : ProcessReason) (incoming : Option Int) : RecordConnector ByteLeaf :=
  { reason := reason, lock := 0, isIoIntrScanned := false, ioscanpvt := 0,
    elem := { incoming := incoming, outgoing := none, readRequests := 0, writeRequests := 0 } }

/-- Example world: a longin record with VAL 5. -/
def exLongin (reason : ProcessReason) (incoming : Option Int) : World longinRecord ByteLeaf :=
  { prec := { todbCommon := exCommon, val := 5 }, dpvt := some (exConnector reason incoming),
    calls := [], console := [] }

/-- Example world: a longout record with the given VAL. -/
def exLongout (reason : ProcessReason) (incoming : Option Int) (val : Int) : World longoutRecord ByteLeaf :=
  { prec := { todbCommon := exCommon, val := val }, dpvt := some (exConnector reason incoming),
    calls := [], console := [] }

/-- Example time. -/
def exNow : epicsTimeStamp := { secPastEpoch := 2000, nsec := 0 }

/-! ## Variant values -/

/-- The built-in types of OPC UA values (`opcua_builtintypes.h` of the SDK). -/
inductive OpcUa_BuiltInType where
  | Null
  | SByte
  | Byte
  | Int16
  | UInt16
  | Int32
  | UInt32
  | Int64
  | UInt64
  | Float
  | Double
  | String
  | ExtensionObject
  deriving DecidableEq, Repr

/-- Modelled from the spec: the SDK class `UaVariant` is not among the sources. A
tagged value: empty, a scalar with its native type (an integer, a floating value
taken as the rational it denotes, a string), an indexed array, or a record of
named fields. -/
inductive UaVariant where
  | empty
  | integer (type : OpcUa_BuiltInType) (value : Int)
  | floating (type : OpcUa_BuiltInType) (value : ℚ)
  | string (value : String)
  | array (type : OpcUa_BuiltInType) (items : List UaVariant)
  | record (fields : List (String × UaVariant))

/-- The native type tag of a value. -/
def UaVariant.type : UaVariant → OpcUa_BuiltInType
  | UaVariant.empty => OpcUa_BuiltInType.Null
  | UaVariant.integer t _ => t
  | UaVariant.floating t _ => t
  | UaVariant.string _ => OpcUa_BuiltInType.String
  | UaVariant.array t _ => t
  | UaVariant.record _ => OpcUa_BuiltInType.ExtensionObject

/-- Whether a value is an array. -/
def UaVariant.isArray : UaVariant → Bool
  | UaVariant.array _ _ => true
  | _ => false

/-- Whether a value is the empty variant. -/
def UaVariant.isEmpty : UaVariant → Bool
  | UaVariant.empty => true
  | _ => false

/-- The name under which slot `i` of an array is matched: `[i]`, as in a path. -/
def indexName (i : Nat) : String := "[" ++ toString i ++ "]"

/-- The slots of an array with their index names, counting from `i`. -/
def indexedFrom : Nat → List UaVariant → List (String × UaVariant)
  | _, [] => []
  | i, x :: xs => (indexName i, x) :: indexedFrom (i + 1) xs

/-- Modelled from the spec: the fields of a structured value, in order: the
fields of a record, the slots of an array under their index; no field otherwise. -/
def fieldsOf : UaVariant → List (String × UaVariant)
  | UaVariant.record fs => fs
  | UaVariant.array _ items => indexedFrom 0 items
  | _ => []

/-- The position of the first field with the given name. -/
def fieldPosition (name : String) : List (String × UaVariant) → Option Nat
  | [] => none
  | f :: fs => if f.1 = name then some 0 else (fieldPosition name fs).map (· + 1)

/-- The value of the first field with the given name. -/
def fieldValue (name : String) (fs : List (String × UaVariant)) : Option UaVariant :=
  (fs.find? (fun f => f.1 = name)).map (·.2)

/-- The value at a path inside a structured value. -/
def valueAt : List String → UaVariant → Option UaVariant
  | [], v => some v
  | s :: rest, v => (fieldValue s (fieldsOf v)).bind (valueAt rest)

/-! ## Data elements -/

/-- The data element `DataElementUaSdk` with the members declared in
`DataElementUaSdk.h` and `DataElement.h`: the name, the connector (set for a
leaf; connectors are told apart by a number), the children (for a node), the map
from positions in the incoming structure to children (by name), the flag that
the map is built, the incoming value with its type and array flag, and the
outgoing value. The back pointers `pitem` and `parent` are left out. `readOk` is
modelled from the spec: the status of the incoming slot (read success or
failure), which is no member in the header. -/
structure DataElementUaSdk where
  name : String
  pconnector : Option Nat
  elements : List DataElementUaSdk
  elementMap : List (Nat × String)
  mapped : Bool
  incomingData : UaVariant
  incomingType : OpcUa_BuiltInType
  incomingIsArray : Bool
  outgoingData : UaVariant
  readOk : Bool

/-- An element is a leaf when it is connected to a record. -/
def DataElementUaSdk.isLeaf (e : DataElementUaSdk) : Bool := e.pconnector.isSome

/-- The inline member `getOutgoingData` of `DataElementUaSdk.h`: `return outgoingData`. -/
def DataElementUaSdk.getOutgoingData (e : DataElementUaSdk) : UaVariant := e.outgoingData

/-- The inline member `clearOutgoingData` of `DataElementUaSdk.h`: `outgoingData.clear()`. -/
def DataElementUaSdk.clearOutgoingData (e : DataElementUaSdk) : DataElementUaSdk :=
  { e with outgoingData := UaVariant.empty }

/-- The position the map gives for a child. -/
def positionOf (m : List (Nat × String)) (name : String) : Option Nat :=
  (m.find? (fun en => en.2 = name)).map (·.1)

/-- Modelled from the spec: the map of a node, built on the first decomposition:
each child whose name is a field of the incoming value is mapped to the position
of that field. -/
def buildMap (names : List String) (fs : List (String × UaVariant)) : List (Nat × String) :=
  names.filterMap (fun n => (fieldPosition n fs).map (fun i => (i, n)))

/-- Modelled from the spec: the map a node uses for a decomposition, the cached
one once built, else the
one built from the incoming value. -/
def nodeMap (mapped : Bool) (elementMap : List (Nat × String)) (names : List String)
    (fs : List (String × UaVariant)) : List (Nat × String) :=
  if mapped then elementMap else buildMap names fs

/-- Modelled from the spec: the value handed to a child, the field at the child's
position, or the empty
value when the child has no position or the incoming value has no such field. -/
def childValue (m : List (Nat × String)) (fs : List (String × UaVariant)) (name : String) : UaVariant :=
  match positionOf m name with
  | some i => (fs[i]?.map (·.2)).getD UaVariant.empty
  | none => UaVariant.empty

mutual
/-- Modelled from the spec: `DataElementUaSdk.cpp` is not among the sources.
`setIncomingData` on a leaf stores the value, its type tag and array flag and
sets the status (failure for a missing value); on a node it builds the map if it
is not built yet, hands each child the field at its position (a missing field
makes the child's status read failure and leaves the siblings alone; fields with
no child are ignored) and recurses. The notification of the consumer is not part
of the element's state. -/
def DataElementUaSdk.setIncomingData : DataElementUaSdk → UaVariant → DataElementUaSdk
  | ⟨name, some c, elements, elementMap, mapped, _, _, _, outgoingData, _⟩, value =>
    ⟨name, some c, elements, elementMap, mapped, value, value.type, value.isArray, outgoingData,
      !value.isEmpty⟩
  | ⟨name, none, elements, elementMap, mapped, incomingData, incomingType, incomingIsArray,
      outgoingData, readOk⟩, value =>
    ⟨name, none,
      setIncomingChildren elements
        (nodeMap mapped elementMap (elements.map (·.name)) (fieldsOf value)) (fieldsOf value),
      nodeMap mapped elementMap (elements.map (·.name)) (fieldsOf value), true,
      incomingData, incomingType, incomingIsArray, outgoingData, readOk⟩
/-- Modelled from the spec: the decomposition over the children of a node. -/
def setIncomingChildren :
    List DataElementUaSdk → List (Nat × String) → List (String × UaVariant) → List DataElementUaSdk
  | [], _, _ => []
  | c :: cs, m, fs => c.setIncomingData (childValue m fs c.name) :: setIncomingChildren cs m fs
end

/-- Modelled from the spec: `clearIncomingData` discards the value of the incoming slot. -/
def DataElementUaSdk.clearIncomingData (e : DataElementUaSdk) : DataElementUaSdk :=
  { e with incomingData := UaVariant.empty }

/-! ## Conversion -/

/-- Modelled from the spec: the errors of reads and writes (section 7). -/
inductive ConversionError where
  | NoData
  | TypeMismatch
  | RangeOverflow
  deriving DecidableEq, Repr

/-- Least value of epicsInt32. -/
def INT32_MIN : Int := -2147483648

/-- Greatest value of epicsInt32. -/
def INT32_MAX : Int := 2147483647

/-- Modelled from the spec: truncation toward zero of a rational, the quotient of numerator and
denominator, rounded toward zero. -/
def truncate (x : ℚ) : Int := Int.tdiv x.num x.den

/-- Modelled from the spec: conversion of a value to Int32. An empty value is no
data; an integer is extended and must fit; a floating value is truncated toward
zero and the truncation must fit; strings, arrays and records are of another kind. -/
def toInt32 : UaVariant → Except ConversionError Int
  | UaVariant.empty => Except.error ConversionError.NoData
  | UaVariant.integer _ v =>
    if INT32_MIN ≤ v ∧ v ≤ INT32_MAX then Except.ok v else Except.error ConversionError.RangeOverflow
  | UaVariant.floating _ x =>
    if INT32_MIN ≤ truncate x ∧ truncate x ≤ INT32_MAX then Except.ok (truncate x)
    else Except.error ConversionError.RangeOverflow
  | UaVariant.string _ => Except.error ConversionError.TypeMismatch
  | UaVariant.array _ _ => Except.error ConversionError.TypeMismatch
  | UaVariant.record _ => Except.error ConversionError.TypeMismatch

/-- Modelled from the spec: `readInt32` converts the value of the incoming slot. -/
def DataElementUaSdk.readInt32 (e : DataElementUaSdk) : Except ConversionError Int :=
  toInt32 e.incomingData

/-- Modelled from the spec: the representable range of an integer type, none for
the other types. -/
def intRange : OpcUa_BuiltInType → Option (Int × Int)
  | OpcUa_BuiltInType.SByte => some (-128, 127)
  | OpcUa_BuiltInType.Byte => some (0, 255)
  | OpcUa_BuiltInType.Int16 => some (-32768, 32767)
  | OpcUa_BuiltInType.UInt16 => some (0, 65535)
  | OpcUa_BuiltInType.Int32 => some (INT32_MIN, INT32_MAX)
  | OpcUa_BuiltInType.UInt32 => some (0, 4294967295)
  | OpcUa_BuiltInType.Int64 => some (-9223372036854775808, 9223372036854775807)
  | OpcUa_BuiltInType.UInt64 => some (0, 18446744073709551615)
  | _ => none

/-- Modelled from the spec: conversion of an Int32 to the native type of a leaf:
an integer type takes the value when it fits, a floating type takes it as it is
(rounding to single precision is not modelled); any other type, and a leaf whose
type is not known, is a type mismatch. -/
def fromInt32 (native : OpcUa_BuiltInType) (value : Int) : Except ConversionError UaVariant :=
  match intRange native with
  | some (lo, hi) =>
    if lo ≤ value ∧ value ≤ hi then Except.ok (UaVariant.integer native value)
    else Except.error ConversionError.RangeOverflow
  | none =>
    if native = OpcUa_BuiltInType.Float ∨ native = OpcUa_BuiltInType.Double then
      Except.ok (UaVariant.floating native value)
    else Except.error ConversionError.TypeMismatch

/-- Modelled from the spec: `writeInt32` stores the value, converted to the
native type of the leaf (the type of the last incoming value), in the outgoing
slot. -/
def DataElementUaSdk.writeInt32 (e : DataElementUaSdk) (value : Int) :
    Except ConversionError DataElementUaSdk :=
  match fromInt32 e.incomingType value with
  | Except.ok v => Except.ok { e with outgoingData := v }
  | Except.error err => Except.error err

/-! ## Paths and chains -/

/-- The segment collected so far, if any. -/
def flushSegment (cur : List Char) : List String :=
  if cur = [] then [] else [String.mk cur]

/-- Modelled from the spec: the segments of a path. A dot ends a segment, an opening bracket ends a
segment and starts an index segment, which is kept as written (`[3]`). -/
def pathSegments : List Char → List Char → List String
  | [], cur => flushSegment cur
  | c :: cs, cur =>
    if c = '.' then flushSegment cur ++ pathSegments cs []
    else if c = '[' then flushSegment cur ++ pathSegments cs ['[']
    else pathSegments cs (cur ++ [c])

/-- Modelled from the spec: the path syntax of section 6, parsed in the absent
body of `addElementChain`. The ordered list of segments of a path; the empty path has no segment and denotes the root element. -/
def parsePath (path : String) : List String := pathSegments path.toList []

/-- Modelled from the spec: a new leaf bound to a connector (the leaf constructor
of the header, whose body is absent). -/
def newLeaf (name : String) (connector : Nat) : DataElementUaSdk :=
  { name := name, pconnector := some connector, elements := [], elementMap := [], mapped := false,
    incomingData := UaVariant.empty, incomingType := OpcUa_BuiltInType.Null, incomingIsArray := false,
    outgoingData := UaVariant.empty, readOk := false }

/-- Modelled from the spec: a new interior node with the given children (the node
constructor of the header, whose body is absent). -/
def newNode (name : String) (elements : List DataElementUaSdk) : DataElementUaSdk :=
  { name := name, pconnector := none, elements := elements, elementMap := [], mapped := false,
    incomingData := UaVariant.empty, incomingType := OpcUa_BuiltInType.Null, incomingIsArray := false,
    outgoingData := UaVariant.empty, readOk := false }

/-- Modelled from the spec: the missing part of a chain, an element with the given
name, an interior node
for each remaining segment but the last, and the leaf for the last. -/
def newChain (connector : Nat) : String → List String → DataElementUaSdk
  | name, [] => newLeaf name connector
  | name, s :: rest => newNode name [newChain connector s rest]

/-- Modelled from the spec: the errors of the chain builder. `DuplicateBinding`:
the path is bound to a different consumer. The spec leaves open a path that ends
at an interior node or runs through a leaf; both are taken as configuration
errors. -/
inductive ChainError where
  | DuplicateBinding
  | PathEndsAtNode
  | PathThroughLeaf
  deriving DecidableEq, Repr

/-- Modelled from the spec: one step of the walk over the children of a node, the
first child with the
name of the segment is walked further (`onMatch`); without such a child the
missing chain is appended after the existing children. -/
def insertChild (seg : String) (onMatch : DataElementUaSdk → Except ChainError DataElementUaSdk)
    (missing : DataElementUaSdk) : List DataElementUaSdk → Except ChainError (List DataElementUaSdk)
  | [] => Except.ok [missing]
  | x :: xs =>
    if x.name = seg then
      match onMatch x with
      | Except.ok x1 => Except.ok (x1 :: xs)
      | Except.error err => Except.error err
    else
      match insertChild seg onMatch missing xs with
      | Except.ok xs1 => Except.ok (x :: xs1)
      | Except.error err => Except.error err

/-- Modelled from the spec: the walk of `addElementChain` (section 4.3) from an
element along the segments. With no segment left the chain exists: a leaf bound to the same
consumer is left as it is, a leaf bound to another consumer is a duplicate
binding. Else the first child matching the segment is walked further, and at the
first segment with no matching child the missing nodes and the leaf are created. -/
def insertChain (connector : Nat) : List String → DataElementUaSdk → Except ChainError DataElementUaSdk
  | [], e =>
    match e.pconnector with
    | some c => if c = connector then Except.ok e else Except.error ChainError.DuplicateBinding
    | none => Except.error ChainError.PathEndsAtNode
  | s :: rest, e =>
    match e.pconnector with
    | some _ => Except.error ChainError.PathThroughLeaf
    | none =>
      match insertChild s (insertChain connector rest) (newChain connector s rest) e.elements with
      | Except.ok es => Except.ok { e with elements := es }
      | Except.error err => Except.error err

/-- Modelled from the spec: the item, owner of the root element (none before the
first chain is built) with its debug level. -/
structure ItemUaSdk where
  rootElement : Option DataElementUaSdk
  debug : Int

/-- Modelled from the spec: `addElementChain(item, connector, path)`; the body in
`DataElementUaSdk.cpp` is not among the sources. The path is parsed into
segments; an item without a root gets the whole chain, its root (with the empty
name) included; else the chain is walked and completed from the root. -/
def addElementChain (item : ItemUaSdk) (connector : Nat) (path : String) : Except ChainError ItemUaSdk :=
  match item.rootElement with
  | none => Except.ok { item with rootElement := some (newChain connector "" (parsePath path)) }
  | some root =>
    match insertChain connector (parsePath path) root with
    | Except.ok r => Except.ok { item with rootElement := some r }
    | Except.error err => Except.error err

/-- The elements a path leads to, along every child with the name of a segment. -/
def elementsAt : List String → DataElementUaSdk → List DataElementUaSdk
  | [], e => [e]
  | s :: rest, e => (e.elements.filter (fun c => c.name = s)).flatMap (elementsAt rest)

/-- The element a path leads to, along the first child with the name of each segment. -/
def findElement : List String → DataElementUaSdk → Option DataElementUaSdk
  | [], e => some e
  | s :: rest, e => (e.elements.find? (fun c => c.name = s)).bind (findElement rest)

/-- No path of the tree is ambiguous: sibling names are distinct. -/
def Unambiguous (e : DataElementUaSdk) : Prop :=
  ∀ path : List String, (elementsAt path e).length ≤ 1

/-- The shape of a value matches the tree along a path: the path ends at a leaf,
each element before is a node with a child for the next segment, the value has a
field of that name there, and a map that is already built is the map of a value
of this shape. -/
def ShapeMatchesAlong : List String → DataElementUaSdk → UaVariant → Prop
  | [], e, _ => e.isLeaf = true
  | s :: rest, e, v =>
    e.isLeaf = false
    ∧ (e.mapped = true → e.elementMap = buildMap (e.elements.map (·.name)) (fieldsOf v))
    ∧ ∃ c x, e.elements.find? (fun c => c.name = s) = some c ∧ fieldValue s (fieldsOf v) = some x
        ∧ ShapeMatchesAlong rest c x

mutual
/-- Modelled from the spec: `getOutgoing` as section 4.1 words it, for comparison
with the member of the header. The value composed bottom-up, a leaf contributing its
outgoing slot and a node the record of the values composed for its children. -/
def composeOutgoing : DataElementUaSdk → UaVariant
  | ⟨_, some _, _, _, _, _, _, _, outgoingData, _⟩ => outgoingData
  | ⟨_, none, elements, _, _, _, _, _, _, _⟩ => UaVariant.record (composeChildren elements)
/-- The fields composed for the children of a node. -/
def composeChildren : List DataElementUaSdk → List (String × UaVariant)
  | [] => []
  | c :: cs => (c.name, composeOutgoing c) :: composeChildren cs
end

/-- An operation on the first child with the given name; the other children, and
all of them when no child has the name, stay as they are. -/
def updateChild (seg : String) (f : DataElementUaSdk → Except ConversionError DataElementUaSdk) :
    List DataElementUaSdk → Except ConversionError (List DataElementUaSdk)
  | [] => Except.ok []
  | x :: xs =>
    if x.name = seg then
      match f x with
      | Except.ok x1 => Except.ok (x1 :: xs)
      | Except.error err => Except.error err
    else
      match updateChild seg f xs with
      | Except.ok xs1 => Except.ok (x :: xs1)
      | Except.error err => Except.error err

/-- An operation on the element a path leads to. In the program a connector
holds a pointer to its leaf and calls the operation there; in the tree the leaf
is addressed by its path. -/
def updateElement (f : DataElementUaSdk → Except ConversionError DataElementUaSdk) :
    List String → DataElementUaSdk → Except ConversionError DataElementUaSdk
  | [], e => f e
  | s :: rest, e =>
    match updateChild s (updateElement f rest) e.elements with
    | Except.ok es => Except.ok { e with elements := es }
    | Except.error err => Except.error err

/-! ## Example trees -/

/-- The tree built for the path `status.code` on an item without a root. -/
def exStatusTree : DataElementUaSdk := newChain 1 "" (parsePath "status.code")

/-- The structured value with field `status.code` set to the Int32 7. -/
def exStatusValue : UaVariant :=
  UaVariant.record
    [("status", UaVariant.record [("code", UaVariant.integer OpcUa_BuiltInType.Int32 7)])]

/-- The tree built for the path `a`, after the delivery of a value whose field
`a` is the Int32 3. -/
def exFieldTree : DataElementUaSdk :=
  (newChain 1 "" (parsePath "a")).setIncomingData
    (UaVariant.record [("a", UaVariant.integer OpcUa_BuiltInType.Int32 3)])

/-- An item without a root element. -/
def emptyItem : ItemUaSdk := { rootElement := none, debug := 0 }

/-- The item on which the chain for the path `a.c` has been built for connector 2. -/
def exItem : ItemUaSdk := { rootElement := some (newChain 2 "" (parsePath "a.c")), debug := 0 }

/-- The item `exItem` after the chain for the path `a.b` has been added for
connector 1: the node `a` now has the leaves `c` and `b`. -/
def exItemAdded : ItemUaSdk :=
  { rootElement := some (newNode "" [newNode "a" [newLeaf "c" 2, newLeaf "b" 1]]), debug := 0 }

/-- The call of `getOutgoingData` as a step on the element: the member of
`DataElementUaSdk.h` is not const and returns a reference to the outgoing slot;
the result is the value returned and the element after the call. -/
def DataElementUaSdk.getOutgoingDataStep (e : DataElementUaSdk) : UaVariant × DataElementUaSdk :=
  (e.outgoingData, e)

/-! ## Subscriptions -/

/-- The static map `SubscriptionUaSdk::subscriptions` of `SubscriptionUaSdk.cpp`,
from names to subscription objects (told apart by numbers), as the list of its
entries. -/
abbrev SubscriptionMap : Type := List (String × Nat)

/-- The member `find` of the map: the entry with the given key, none for `end()`. -/
def SubscriptionMap.find (subscriptions : SubscriptionMap) (name : String) : Option (String × Nat) :=
  List.find? (fun en => en.1 = name) subscriptions

/-- The function `SubscriptionUaSdk::findSubscription` of `SubscriptionUaSdk.cpp`: the result (the
subscription found, or the runtime error thrown) and the map after the call. -/
def SubscriptionUaSdk.findSubscription (subscriptions : SubscriptionMap) (name : String) :
    Except Thrown Nat × SubscriptionMap :=
  match subscriptions.find name with
  | none => (Except.error (Thrown.stdException "no such subscription"), subscriptions)
  | some it => (Except.ok it.2, subscriptions)

/-- The function `SubscriptionUaSdk::subscriptionExists` of `SubscriptionUaSdk.cpp`: the result
and the map after the call. -/
def SubscriptionUaSdk.subscriptionExists (subscriptions : SubscriptionMap) (name : String) :
    Bool × SubscriptionMap :=
  match subscriptions.find name with
  | none => (false, subscriptions)
  | some _ => (true, subscriptions)

/-- The function `Subscription::findSubscription` of `SubscriptionUaSdk.cpp`: the subscription
found by `SubscriptionUaSdk::findSubscription`, seen as its base class. -/
def Subscription.findSubscription (subscriptions : SubscriptionMap) (name : String) :
    Except Thrown Nat × SubscriptionMap :=
  SubscriptionUaSdk.findSubscription subscriptions name

/-- The function `Subscription::subscriptionExists` of `SubscriptionUaSdk.cpp`. -/
def Subscription.subscriptionExists (subscriptions : SubscriptionMap) (name : String) :
    Bool × SubscriptionMap :=
  SubscriptionUaSdk.subscriptionExists subscriptions name

/-- The leaf `a` after the delivery of the Int32 3. -/
def exFieldLeaf : DataElementUaSdk :=
  (newLeaf "a" 1).setIncomingData (UaVariant.integer OpcUa_BuiltInType.Int32 3)

/-- The leaf `a` after the write of 5. -/
def exFieldLeafWritten : DataElementUaSdk :=
  { exFieldLeaf with outgoingData := UaVariant.integer OpcUa_BuiltInType.Int32 5 }

/-- Example map with two subscriptions. -/
def exSubscriptions : SubscriptionMap := [("fast", 1), ("slow", 2)]

/-! ## Links between data elements and record connectors -/

/-- The pointers between data elements and record connectors, both told apart by
numbers: the member `pconnector` of each element (`DataElement.h`) and the
pointer of each connector back to its data element. -/
structure Links where
  pconnector : Nat → Option Nat
  pdataelement : Nat → Option Nat

/-- Modelled from the spec: the body of `DataElement::setRecordConnector`
(`DataElement.cpp`) is not among the sources. After the comment of its
declaration in `DataElement.h` and the invariant of spec section 3 (exactly one
leaf binds a connector, exactly one connector binds a leaf): the existing links
are removed first, that of the element (the connector it pointed to no longer
points back) and that of the connector (the element it pointed back to no longer
points to it); then the internal pointer of the element is set to the connector
and the inverse link of the connector is set to the element. -/
def setRecordConnector (l : Links) (element connector : Nat) : Links :=
  { pconnector := fun e =>
      if e = element then some connector
      else if l.pdataelement connector = some e then none
      else l.pconnector e,
    pdataelement := fun c =>
      if c = connector then some element
      else if l.pconnector element = some c then none
      else l.pdataelement c }

/-- The binding is bidirectional: an element points to a connector exactly when
the connector points back to it. With it no two elements point to one connector
and no two connectors point to one element. -/
def Links.Bidirectional (l : Links) : Prop :=
  ∀ e c, l.pconnector e = some c ↔ l.pdataelement c = some e

/-- Example links: element 0 and connector 0 point to each other, nothing else is linked. -/
def exLinks : Links :=
  { pconnector := fun e => if e = 0 then some 0 else none,
    pdataelement := fun c => if c = 0 then some 0 else none }

/-! ## Adding a record -/

/-- Status `S_dbLib_badLink` (EPICS `dbStaticLib.h`: `M_dbLib | 15`, with
`M_dbLib` = 501 shifted left by 16). -/
def S_dbLib_badLink : Int := 501 * 65536 + 15

/-- Modelled from the spec: the link information `parseLink` returns
(`linkParser.h` is not among the sources), with the members `opcua_add_record`
uses: whether the link names an item of its own, the item of the item record the
link refers to otherwise (items are told apart by numbers), and the path of the
element. -/
structure linkInfo where
  linkedToItem : Bool
  item : Nat
  element : String
  deriving DecidableEq, Repr

/-- The record connector as `opcua_add_record` sets it up: the connector created
for the record (told apart by a number) with its members `plinkinfo` and `pitem`. -/
structure NewRecordConnector where
  id : Nat
  plinkinfo : linkInfo
  pitem : Nat
  deriving DecidableEq, Repr

/-- The functions `opcua_add_record` calls whose bodies are not among the
sources, as parameters over the state `H` of the items: the constructor of
`DBEntry`, `parseLink`, the constructor of `ItemUaSdk` (it returns the new item)
and `addElementChain(item, connector, path)`. Each may throw. -/
structure AddRecordCalls (H : Type) where
  DBEntry : Except Thrown Unit
  parseLink : Except Thrown linkInfo
  newItemUaSdk : linkInfo → H → Except Thrown (Nat × H)
  addElementChain : Nat → Nat → String → H → Except Thrown H

/-- The world of `opcua_add_record`: `dpvt` of the record, the items, and the
diagnostics written (name of the record and text of the error). -/
structure AddWorld (H : Type) where
  dpvt : Option NewRecordConnector
  items : H
  console : List (String × String)

/-- A call that may throw and leaves the state as it is. -/
def callPure {S α : Type} (r : Except Thrown α) : Body S α := fun s => (r, s)

/-- A call on the items that may throw; the items are changed when it returns. -/
def callItems {H α : Type} (op : H → Except Thrown (α × H)) : Body (AddWorld H) α :=
  fun w => match op w.items with
    | Except.ok (a, h) => (Except.ok a, { w with items := h })
    | Except.error t => (Except.error t, w)

/-- The routine `opcua_add_record` of `devOpcua.cpp`, for the record with the
given name; `pvt` is the number of the connector created for the record. A
`std::exception` thrown in the block is reported and makes the routine return
`S_dbLib_badLink`; anything else thrown leaves the routine. -/
def opcua_add_record {H : Type} (calls : AddRecordCalls H) (pvt : Nat) (precName : String)
    (w : AddWorld H) : Except Thrown Int × AddWorld H :=
  let body : Body (AddWorld H) Int := do
    callPure calls.DBEntry
    let plinkinfo ← callPure calls.parseLink
    let pitem ←
      if plinkinfo.linkedToItem then callItems (calls.newItemUaSdk plinkinfo)
      else pure plinkinfo.item
    callItems (fun h => (calls.addElementChain pitem pvt plinkinfo.element h).map (fun h1 => ((), h1)))
    fun w1 => (Except.ok 0,
      { w1 with dpvt := some { id := pvt, plinkinfo := plinkinfo, pitem := pitem } })
  match body w with
  | (Except.ok ret, w1) => (Except.ok ret, w1)
  | (Except.error (Thrown.stdException what), w1) =>
    (Except.ok S_dbLib_badLink, { w1 with console := w1.console ++ [(precName, what)] })
  | (Except.error Thrown.other, w1) => (Except.error Thrown.other, w1)

/-- The item the chain is added to: a new item when the link names an item of its
own, else the item the link refers to. -/
def itemForLink {H : Type} (calls : AddRecordCalls H) (plinkinfo : linkInfo) (items : H) :
    Except Thrown (Nat × H) :=
  if plinkinfo.linkedToItem then calls.newItemUaSdk plinkinfo items
  else Except.ok (plinkinfo.item, items)

/-- The text of the runtime error thrown for an error of the chain builder. -/
def ChainError.what : ChainError → String
  | ChainError.DuplicateBinding => "element already bound to another record"
  | ChainError.PathEndsAtNode => "path ends at a node"
  | ChainError.PathThroughLeaf => "path runs through a leaf"

/-- Example calls over a single item: the link of the record refers to that item
(number 0) and names the given path; `addElementChain` is the chain builder, its
errors thrown as runtime errors. -/
def exAddRecordCalls (path : String) : AddRecordCalls ItemUaSdk :=
  { DBEntry := Except.ok (),
    parseLink := Except.ok { linkedToItem := false, item := 0, element := path },
    newItemUaSdk := fun _ _ => Except.ok (0, emptyItem),
    addElementChain := fun _ connector p item =>
      match addElementChain item connector p with
      | Except.ok item1 => Except.ok item1
      | Except.error err => Except.error (Thrown.stdException err.what) }

/-! ## Device support routines: long string to VAL, waveform to VAL -/

/-- The lsi record: `dbCommon`, the buffer VAL (bytes), its size SIZV
(epicsUInt16) and the length LEN (epicsUInt32). -/
structure lsiRecord extends dbCommon where
  val : List Nat
  sizv : Nat
  len : Nat
  deriving DecidableEq, Repr

/-- The waveform record (as `aai`): `dbCommon`, the capacity NELM, the number of
elements read NORD (both epicsUInt32), the element type FTVL and the buffer
behind BPTR, of a type `β`. -/
structure waveformRecord (β : Type) extends dbCommon where
  nelm : Nat
  nord : Nat
  ftvl : Nat
  bptr : β

instance : DbRecord lsiRecord := ⟨fun r => r.todbCommon, fun r c => { r with todbCommon := c }⟩
instance {β : Type} : DbRecord (waveformRecord β) :=
  ⟨fun r => r.todbCommon, fun r c => { r with todbCommon := c }⟩

/-- The string read of the connector, a parameter as `RecordConnector.h` is not
among the sources: `readCString(value, num)` gets the buffer and the number of
bytes it may write, and gives the buffer after the read, or throws
(`DataElementUaSdk.h`). -/
structure ConnectorStringOps (σ : Type) where
  readCString : List Nat → Nat → σ → Except Thrown (List Nat)

/-- The array reads of the connector, parameters as `RecordConnector.h` is not
among the sources: each gets the buffer and its capacity and gives the count it
reports and the buffer after the read, or throws (`DataElementUaSdk.h`). -/
structure ConnectorArrayOps (σ β : Type) where
  readArray : ArrayRead → β → Nat → σ → Except Thrown (Nat × β)

/-- C `strlen` on a buffer: the number of bytes before the first zero byte (the
size of the buffer when it holds no zero byte, where C reads on). -/
def strlen (buf : List Nat) : Nat := (buf.takeWhile (fun b => b ≠ 0)).length

/-- The choices of `menuFtype` (EPICS `menuFtype.h`). -/
def menuFtypeSTRING : Nat := 0
/-- See `menuFtypeSTRING`. -/
def menuFtypeCHAR : Nat := 1
/-- See `menuFtypeSTRING`. -/
def menuFtypeUCHAR : Nat := 2
/-- See `menuFtypeSTRING`. -/
def menuFtypeSHORT : Nat := 3
/-- See `menuFtypeSTRING`. -/
def menuFtypeUSHORT : Nat := 4
/-- See `menuFtypeSTRING`. -/
def menuFtypeLONG : Nat := 5
/-- See `menuFtypeSTRING`. -/
def menuFtypeULONG : Nat := 6
/-- See `menuFtypeSTRING`. -/
def menuFtypeINT64 : Nat := 7
/-- See `menuFtypeSTRING`. -/
def menuFtypeUINT64 : Nat := 8
/-- See `menuFtypeSTRING`. -/
def menuFtypeFLOAT : Nat := 9
/-- See `menuFtypeSTRING`. -/
def menuFtypeDOUBLE : Nat := 10
/-- See `menuFtypeSTRING`. -/
def menuFtypeENUM : Nat := 11

/-- Event mask bit `DBE_VALUE` (EPICS `caeventmask.h`). -/
def DBE_VALUE : Nat := 1
/-- Event mask bit `DBE_LOG` (EPICS `caeventmask.h`). -/
def DBE_LOG : Nat := 2

/-- The `switch (prec->ftvl)` of `opcua_read_array` (built with `DBR_INT64`): the
array read called for an element type; no case for any other value. -/
def arrayReadFor (ftvl : Nat) : Option ArrayRead :=
  if ftvl = menuFtypeSTRING then some ArrayRead.readArrayOldString
  else if ftvl = menuFtypeCHAR then some ArrayRead.readArrayInt8
  else if ftvl = menuFtypeUCHAR then some ArrayRead.readArrayUInt8
  else if ftvl = menuFtypeSHORT then some ArrayRead.readArrayInt16
  else if ftvl = menuFtypeUSHORT then some ArrayRead.readArrayUInt16
  else if ftvl = menuFtypeLONG then some ArrayRead.readArrayInt32
  else if ftvl = menuFtypeULONG then some ArrayRead.readArrayUInt32
  else if ftvl = menuFtypeINT64 then some ArrayRead.readArrayInt64
  else if ftvl = menuFtypeUINT64 then some ArrayRead.readArrayUInt64
  else if ftvl = menuFtypeFLOAT then some ArrayRead.readArrayFloat32
  else if ftvl = menuFtypeDOUBLE then some ArrayRead.readArrayFloat64
  else if ftvl = menuFtypeENUM then some ArrayRead.readArrayUInt16
  else none

/-- A call outside the connector, recorded with the calls. -/
def logCall {R σ : Type} (c : Call) : Body (Frame R σ) Unit :=
  fun f => (Except.ok (), { f with calls := f.calls ++ [c] })

/-- The routine `opcua_read_lstring_val` of `devOpcua.cpp` (template instance for `lsiRecord`). -/
def opcua_read_lstring_val {σ : Type} (ops : ConnectorOps σ) (sops : ConnectorStringOps σ)
    (now : epicsTimeStamp) (w : World lsiRecord σ) : Except Thrown Int × World lsiRecord σ :=
  TRY_CATCH (fun p => p.name) w (Guard do
    let reason ← pvtReason
    if reason = ProcessReason.incomingData ∨ reason = ProcessReason.readComplete then
      let buf ← callRead (Call.readCString (← getRec).sizv)
        (sops.readCString (← getRec).val (← getRec).sizv)
      setRec { (← getRec) with val := buf }
      setRec { (← getRec) with len := (strlen (← getRec).val + 1) % 2 ^ 32 }
      if (← getRec).tse = epicsTimeEventDeviceTime then
        let t ← callRead Call.readTimeStamp (fun e => Except.ok (ops.readTimeStamp e))
        setRec { (← getRec) with time := t }
      if (← getRec).tpro > 1 then
        errlogPrintf (Diag.readString (← getRec).name (← getRec).val)
      setRec { (← getRec) with udf := false }
      callUpdate Call.checkReadStatus ops.checkReadStatus
      callTotal Call.clearIncomingData ops.clearIncomingData
      return 0
    else if reason = ProcessReason.connectionLoss then
      setRec (recGblSetSevr (← getRec) COMM_ALARM INVALID_ALARM)
      if (← getRec).tse = epicsTimeEventDeviceTime then
        setRec { (← getRec) with time := now }
      if (← getRec).tpro > 1 then
        errlogPrintf (Diag.connectionLoss (← getRec).name)
      return 1
    else
      setRec { (← getRec) with pact := true }
      callTotal Call.requestOpcuaRead ops.requestOpcuaRead
      return 0)

/-- The routine `opcua_read_array` of `devOpcua.cpp` (template instance for `waveformRecord`). -/
def opcua_read_array {σ β : Type} (ops : ConnectorOps σ) (aops : ConnectorArrayOps σ β)
    (now : epicsTimeStamp) (w : World (waveformRecord β) σ) :
    Except Thrown Int × World (waveformRecord β) σ :=
  TRY_CATCH (fun p => p.name) w (Guard do
    let nord := (← getRec).nord
    let reason ← pvtReason
    if reason = ProcessReason.incomingData ∨ reason = ProcessReason.readComplete then
      match arrayReadFor (← getRec).ftvl with
      | some method =>
        let r ← callRead (Call.readArray method (← getRec).nelm)
          (aops.readArray method (← getRec).bptr (← getRec).nelm)
        setRec { (← getRec) with nord := r.1, bptr := r.2 }
      | none => pure ()
      if nord ≠ (← getRec).nord then
        logCall (Call.db_post_events "NORD" (DBE_VALUE ||| DBE_LOG))
      if (← getRec).tse = epicsTimeEventDeviceTime then
        let t ← callRead Call.readTimeStamp (fun e => Except.ok (ops.readTimeStamp e))
        setRec { (← getRec) with time := t }
      if (← getRec).tpro > 1 then
        errlogPrintf (Diag.readArray (← getRec).name (← getRec).nord)
      setRec { (← getRec) with udf := false }
      callUpdate Call.checkReadStatus ops.checkReadStatus
      callTotal Call.clearIncomingData ops.clearIncomingData
      return 0
    else if reason = ProcessReason.connectionLoss then
      setRec (recGblSetSevr (← getRec) COMM_ALARM INVALID_ALARM)
      if (← getRec).tse = epicsTimeEventDeviceTime then
        setRec { (← getRec) with time := now }
      if (← getRec).tpro > 1 then
        errlogPrintf (Diag.connectionLoss (← getRec).name)
      return 1
    else
      setRec { (← getRec) with pact := true }
      callTotal Call.requestOpcuaRead ops.requestOpcuaRead
      return 0)

/-- Example string read over the example leaf: the node holds the string `Hi`; as
many of its bytes as fit before the terminator are written to the front of the
buffer, then the zero byte; an empty incoming slot and a buffer without room for
the terminator throw. -/
def exStringOps : ConnectorStringOps ByteLeaf where
  readCString buf num e :=
    match e.incoming with
    | none => Except.error (Thrown.stdException "no incoming data")
    | some _ =>
      if num = 0 then Except.error (Thrown.stdException "no room for the terminator")
      else Except.ok (([72, 105].take (num - 1)) ++ 0 :: buf.drop (([72, 105].take (num - 1)).length + 1))

/-- Example array reads over the example leaf: the node holds the array 1, 2, 3;
the elements that fit are written to the front of the buffer and their number is
reported. -/
def exArrayOps : ConnectorArrayOps ByteLeaf (List Int) where
  readArray _ buf num e :=
    match e.incoming with
    | none => Except.error (Thrown.stdException "no incoming data")
    | some _ => Except.ok (min 3 num, [1, 2, 3].take num ++ buf.drop (min 3 num))

/-- Example world: an lsi record with a buffer of 8 bytes. -/
def exLsi (reason : ProcessReason) (incoming : Option Int) : World lsiRecord ByteLeaf :=
  { prec := { todbCommon := exCommon, val := [0, 0, 0, 0, 0, 0, 0, 0], sizv := 8, len := 0 },
    dpvt := some (exConnector reason incoming), calls := [], console := [] }

/-- Example world: a waveform record of LONG with capacity 2, nothing read yet. -/
def exWaveform (reason : ProcessReason) (incoming : Option Int) :
    World (waveformRecord (List Int)) ByteLeaf :=
  { prec := { todbCommon := exCommon, nelm := 2, nord := 0, ftvl := menuFtypeLONG, bptr := [0, 0] },
    dpvt := some (exConnector reason incoming), calls := [], console := [] }

/-! ## The subscription object -/

/-- The assignment `subscriptions[name] = p` on a map: the value of the entry
under the key is replaced, or an entry is added when there is none. -/
def SubscriptionMap.assign (subscriptions : SubscriptionMap) (name : String) (p : Nat) :
    SubscriptionMap :=
  match subscriptions with
  | [] => [(name, p)]
  | en :: rest =>
    if en.1 = name then (name, p) :: rest else en :: SubscriptionMap.assign rest name p

/-- The members of the SDK class `SubscriptionSettings` that the constructor of
`SubscriptionUaSdk` touches: the publishing interval (OpcUa_Double, taken as the
rational it denotes), the lifetime count (OpcUa_UInt32) and the priority
(OpcUa_Byte). -/
structure SubscriptionSettings where
  publishingInterval : ℚ
  lifetimeCount : Nat
  priority : Nat
  deriving DecidableEq, Repr

/-- The conversion `static_cast<OpcUa_UInt32>(x)` of a double: the value
truncated toward zero when that is a value of the type; otherwise the conversion
is undefined, and `undef` stands for the 32 bits that result. -/
def static_cast_UInt32 (undef : Nat) (x : ℚ) : Nat :=
  if 0 ≤ truncate x ∧ truncate x < 2 ^ 32 then (truncate x).toNat else undef % 2 ^ 32

/-! ## Rounding of doubles -/

/-- Rounding of a rational to the nearest integer, a tie to the even one. -/
def roundHalfEven (x : ℚ) : Int :=
  if x - ⌊x⌋ < 1 / 2 then ⌊x⌋
  else if 1 / 2 < x - ⌊x⌋ then ⌊x⌋ + 1
  else if ⌊x⌋ % 2 = 0 then ⌊x⌋ else ⌊x⌋ + 1

/-- The exponent of the unit in the last place of the double nearest to `x`
(IEEE 754 binary64, 53 bits): 52 below the binary exponent of `x`, and -1074 in
the subnormal range. -/
def ulpExponent (x : ℚ) : Int := max (Int.log 2 |x| - 52) (-1074)

/-- The double a real result is rounded to (IEEE 754 binary64, round to nearest,
ties to even): the nearest multiple of the unit in the last place; a result of
magnitude 2^1024 or more is an infinity. -/
def roundFloat64 (x : ℚ) : epicsFloat64 :=
  if |(roundHalfEven (x / 2 ^ ulpExponent x) : ℚ) * 2 ^ ulpExponent x| < 2 ^ 1024 then
    epicsFloat64.finite (roundHalfEven (x / 2 ^ ulpExponent x) * 2 ^ ulpExponent x)
  else epicsFloat64.notFinite

/-- The product of two doubles as the machine computes it: the exact product,
rounded. -/
def epicsFloat64.mulRounded : epicsFloat64 → epicsFloat64 → epicsFloat64
  | epicsFloat64.finite a, epicsFloat64.finite b => roundFloat64 (a * b)
  | _, _ => epicsFloat64.notFinite

/-- The quotient of two doubles as the machine computes it, for a finite divisor:
the exact quotient, rounded; a division by zero gives an infinity or NaN. -/
def epicsFloat64.divRounded : epicsFloat64 → ℚ → epicsFloat64
  | epicsFloat64.finite a, b => if b = 0 then epicsFloat64.notFinite else roundFloat64 (a / b)
  | epicsFloat64.notFinite, _ => epicsFloat64.notFinite

/-- The conversion `static_cast<OpcUa_UInt32>(x)` of a double that need not be
finite: undefined for a value that is not finite. -/
def epicsFloat64.static_cast_UInt32 (undef : Nat) : epicsFloat64 → Nat
  | epicsFloat64.finite x => DevOpcua.static_cast_UInt32 undef x
  | epicsFloat64.notFinite => undef % 2 ^ 32

/-- The members of `SubscriptionUaSdk` that `SubscriptionUaSdk.cpp` uses;
pointers (the SDK subscription, the session, the items) are told apart by
numbers, `none` is the null pointer. -/
structure SubscriptionUaSdk where
  debug : Int
  name : String
  puasubscription : Option Nat
  psessionuasdk : Nat
  enable : Bool
  subscriptionSettings : SubscriptionSettings
  items : List Nat
  deriving DecidableEq, Repr

/-- The tables of subscriptions: the static map `SubscriptionUaSdk::subscriptions`
and the member `subscriptions` of each session. -/
structure Registry where
  subscriptions : SubscriptionMap
  sessions : Nat → SubscriptionMap

/-- The constructor `SubscriptionUaSdk::SubscriptionUaSdk` (`SubscriptionUaSdk.cpp`): `defaults`
are the settings the SDK gives a new object, `this` is the address of the new
object; the result is the object and the tables after the construction. The
publishing intervals are finite doubles, given by the rationals they denote; the
product `deftimeout` and the quotient are computed in double arithmetic, each
rounded to the nearest double. -/
def newSubscriptionUaSdk (defaults : SubscriptionSettings) (undef : Nat)
    (this : Nat) (name : String) (session : Nat) (publishingInterval : ℚ) (priority : Nat)
    (debug : Int) (r : Registry) : SubscriptionUaSdk × Registry :=
  let deftimeout : epicsFloat64 :=
    epicsFloat64.mulRounded (epicsFloat64.finite defaults.publishingInterval)
      (epicsFloat64.finite defaults.lifetimeCount)
  let lifetimeCount : Nat :=
    epicsFloat64.static_cast_UInt32 undef (epicsFloat64.divRounded deftimeout publishingInterval)
  ({ debug := debug, name := name, puasubscription := none, psessionuasdk := session,
     enable := true,
     subscriptionSettings :=
       { publishingInterval := publishingInterval, lifetimeCount := lifetimeCount,
         priority := priority },
     items := [] },
   { subscriptions := r.subscriptions.assign name this,
     sessions := fun s => if s = session then (r.sessions s).assign name this else r.sessions s })

/-- The position `std::find` returns in the item list: the index of the first
occurrence, the length of the list for `end()`. -/
def findItem (items : List Nat) (item : Nat) : Nat :=
  match items with
  | [] => 0
  | x :: rest => if x = item then 0 else findItem rest item + 1

/-- The member `addItemUaSdk` of `SubscriptionUaSdk.cpp`: `items.push_back(item)`. -/
def SubscriptionUaSdk.addItemUaSdk (s : SubscriptionUaSdk) (item : Nat) : SubscriptionUaSdk :=
  { s with items := s.items ++ [item] }

/-- The member `removeItemUaSdk` of `SubscriptionUaSdk.cpp`: the position found is
erased, unless it is `end()`. -/
def SubscriptionUaSdk.removeItemUaSdk (s : SubscriptionUaSdk) (item : Nat) : SubscriptionUaSdk :=
  let it := findItem s.items item
  if it ≠ s.items.length then { s with items := s.items.eraseIdx it } else s

/-- The settings of a new subscription in the examples: interval 500 ms, lifetime
count 1200, priority 0. -/
def exSettings : SubscriptionSettings :=
  { publishingInterval := 500, lifetimeCount := 1200, priority := 0 }

/-- The double nearest to 1/10: 0x1.999999999999ap-4. -/
def exTenth : ℚ := 3602879701896397 / 36028797018963968

/-- Example tables: the static map holds `fast` and `slow`, session 7 holds `fast`. -/
def exRegistry : Registry :=
  { subscriptions := exSubscriptions,
    sessions := fun s => if s = 7 then [("fast", 1)] else [] }

/-- Example subscription with the items 4, 5, 4. -/
def exSubscription : SubscriptionUaSdk :=
  { debug := 0, name := "fast", puasubscription := none, psessionuasdk := 7, enable := true,
    subscriptionSettings := exSettings, items := [4, 5, 4] }

/-! ## Multi-bit records: mask initialisation, enum output -/

/-- The shift `x << n` on epicsUInt32: the bits shifted out are lost. For a shift
count of 32 or more the expression is undefined, and `undef` stands for the 32
bits that result. -/
def shiftLeft32 (undef x n : Nat) : Nat :=
  if n < 32 then (x <<< n) % 2 ^ 32 else undef % 2 ^ 32

/-- The shift `x >> n` on epicsUInt32; undefined for a shift count of 32 or more,
as for `shiftLeft32`. -/
def shiftRight32 (undef x n : Nat) : Nat :=
  if n < 32 then x >>> n else undef % 2 ^ 32

/-- The mbbi record (as `mbbiDirect`): `dbCommon`, VAL, the number of bits NOBT
(epicsUInt16), RVAL and MASK (epicsUInt32) and the shift SHFT (epicsUInt16). -/
structure mbbiRecord extends dbCommon where
  val : Nat
  nobt : Nat
  rval : Nat
  mask : Nat
  shft : Nat
  deriving DecidableEq, Repr

/-- The mbbo record: `dbCommon`, VAL (epicsEnum16), NOBT, the sixteen state values
ZRVL to FFVL (epicsUInt32), RVAL, MASK, SHFT and SDEF (epicsInt16, not 0 when
states are defined). The state values lie one after the other in the record and
the routine reads them through a pointer that starts at `&prec->zrvl`: `zrvl i`
is the value `i` places after ZRVL, so `zrvl 0` is ZRVL and `zrvl 15` is FFVL. -/
structure mbboRecord extends dbCommon where
  val : Nat
  nobt : Nat
  zrvl : Nat → Nat
  rval : Nat
  mask : Nat
  shft : Nat
  sdef : Int

instance : DbRecord mbbiRecord := ⟨fun r => r.todbCommon, fun r c => { r with todbCommon := c }⟩
instance : DbRecord mbboRecord := ⟨fun r => r.todbCommon, fun r c => { r with todbCommon := c }⟩

/-- The routine `opcua_init_mask_read` of `devOpcua.cpp` (template instance for
`mbbiRecord`): the return value and the record after the call. -/
def opcua_init_mask_read (undef : Nat) (prec : mbbiRecord) : Int × mbbiRecord :=
  let prec1 := if prec.nobt = 0 then { prec with mask := 0xffffffff } else prec
  (0, { prec1 with mask := shiftLeft32 undef prec1.mask prec1.shft })

/-- The routine `opcua_init_mask_write` of `devOpcua.cpp` (template instance for
`mbboRecord`): the return value and the record after the call. -/
def opcua_init_mask_write (undef : Nat) (prec : mbboRecord) : Int × mbboRecord :=
  let prec1 := if prec.nobt = 0 then { prec with mask := 0xffffffff } else prec
  (2, { prec1 with mask := shiftLeft32 undef prec1.mask prec1.shft })

/-- The loop `for (i = 0; i < 16; i++)` of `opcua_write_enum` with `n` rounds
left, at index `i`: the first state value equal to `rval` sets VAL to its index
and ends the loop. -/
def stateLoop (pstate_values : Nat → Nat) (rval : Nat) (i n : Nat) (prec : mbboRecord) :
    mbboRecord :=
  match n with
  | 0 => prec
  | n + 1 =>
    if pstate_values i = rval then { prec with val := i }
    else stateLoop pstate_values rval (i + 1) n prec

/-- The routine `opcua_write_enum` of `devOpcua.cpp` (template instance for
`mbboRecord`). On incoming data `rval` is the local `rval`: RVAL of the record,
shifted when SHFT is not 0. -/
def opcua_write_enum {σ : Type} (ops : ConnectorOps σ) (undef : Nat) (now : epicsTimeStamp)
    (w : World mbboRecord σ) : Except Thrown Int × World mbboRecord σ :=
  TRY_CATCH (fun p => p.name) w (Guard do
    let reason ← pvtReason
    if reason = ProcessReason.incomingData ∨ reason = ProcessReason.readComplete then
      let raw ← callRead Call.readUInt32 ops.readUInt32
      setRec { (← getRec) with rval := raw &&& (← getRec).mask }
      let p ← getRec
      let rval := if p.shft > 0 then shiftRight32 undef p.rval p.shft else p.rval
      if (← getRec).sdef ≠ 0 then
        setRec { (← getRec) with val := 65535 }
        setRec (stateLoop (← getRec).zrvl rval 0 16 (← getRec))
      else
        setRec { (← getRec) with val := rval % 65536 }
      setRec { (← getRec) with udf := false }
      if (← getRec).tpro > 1 then
        errlogPrintf (Diag.readEnum (← getRec).name (← getRec).val (← getRec).rval)
      callUpdate Call.checkReadStatus ops.checkReadStatus
      callTotal Call.clearIncomingData ops.clearIncomingData
      return 0
    else if reason = ProcessReason.writeComplete then
      callUpdate Call.checkWriteStatus ops.checkWriteStatus
      return 0
    else if reason = ProcessReason.connectionLoss then
      setRec (recGblSetSevr (← getRec) COMM_ALARM INVALID_ALARM)
      if (← getRec).tse = epicsTimeEventDeviceTime then
        setRec { (← getRec) with time := now }
      if (← getRec).tpro > 1 then
        errlogPrintf (Diag.connectionLoss (← getRec).name)
      return 1
    else
      if (← getRec).tpro > 1 then
        errlogPrintf (Diag.writeVal (← getRec).name (← getRec).rval)
      callUpdate (Call.writeUInt32 (← getRec).rval) (ops.writeUInt32 (← getRec).rval)
      setRec { (← getRec) with pact := true }
      callTotal Call.requestOpcuaWrite ops.requestOpcuaWrite
      return 0)

/-- Example mbbo record: states defined, the values 0, 2, 4, 2 for the first four
states and 0 for the others, MASK 0xFF0, SHFT 4. -/
def exMbbo : mbboRecord :=
  { todbCommon := exCommon, val := 0, nobt := 8,
    zrvl := fun i => if i = 1 then 2 else if i = 2 then 4 else if i = 3 then 2 else 0,
    rval := 0, mask := 0xff0, shft := 4, sdef := 1 }

/-- Example world: the record `exMbbo` on a connector of the example leaf. -/
def exMbboWorld (reason : ProcessReason) (incoming : Option Int) : World mbboRecord ByteLeaf :=
  { prec := exMbbo, dpvt := some (exConnector reason incoming), calls := [], console := [] }

/-- Example mbbi record with NOBT 3, MASK 7 and SHFT 4. -/
def exMbbi : mbbiRecord :=
  { todbCommon := exCommon, val := 0, nobt := 3, rval := 0, mask := 7, shft := 4 }

/-! ## Analog input -/

/-- Choice `menuConvertNO_CONVERSION` of the menu `menuConvert` (EPICS `menuConvert.h`). -/
def menuConvertNO_CONVERSION : Nat := 0

/-- The ai record: `dbCommon`, VAL (double), the linearisation LINR, the raw
slope and offset ASLO and AOFF, the smoothing factor SMOO (doubles) and RVAL
(epicsInt32). -/
structure aiRecord extends dbCommon where
  val : epicsFloat64
  linr : Nat
  aslo : epicsFloat64
  aoff : epicsFloat64
  smoo : epicsFloat64
  rval : Int
  deriving DecidableEq, Repr

instance : DbRecord aiRecord := ⟨fun r => r.todbCommon, fun r c => { r with todbCommon := c }⟩

/-- The read of the connector that `opcua_read_analog` calls besides `readInt32`;
it may throw (`DataElement.h`: `std::runtime_error` if no data is present or on a
conversion error). -/
structure ConnectorFloatOps (σ : Type) where
  readFloat64 : σ → Except Thrown epicsFloat64

/-- The routine `opcua_read_analog` of `devOpcua.cpp` (template instance for
`aiRecord`). On incoming data `ret` is the value the branch taken leaves in the
variable `ret` (2 after the read of a double, else the initial 0); `p` is the
record after the read, `scaled` and `value` are the local `value` after the
multiplication and after the addition. -/
def opcua_read_analog {σ : Type} (ops : ConnectorOps σ) (fops : ConnectorFloatOps σ)
    (now : epicsTimeStamp) (w : World aiRecord σ) : Except Thrown Int × World aiRecord σ :=
  TRY_CATCH (fun p => p.name) w (Guard do
    let reason ← pvtReason
    if reason = ProcessReason.incomingData ∨ reason = ProcessReason.readComplete then
      let ret ←
        if (← getRec).linr = menuConvertNO_CONVERSION then do
          let x ← callRead Call.readFloat64 fops.readFloat64
          let p ← getRec
          let scaled := if !p.aslo.isZero then x * p.aslo else x
          let value := scaled + p.aoff
          if p.smoo.isZero ∨ p.udf ∨ !p.val.isfinite then
            setRec { (← getRec) with val := value }
          else
            setRec { (← getRec) with
              val := p.val * p.smoo + value * (epicsFloat64.finite 1 - p.smoo) }
          setRec { (← getRec) with udf := false }
          if (← getRec).tpro > 1 then
            errlogPrintf (Diag.readFloat (← getRec).name (← getRec).val)
          pure (2 : Int)
        else do
          let v ← callRead Call.readInt32 ops.readInt32
          setRec { (← getRec) with rval := v }
          if (← getRec).tpro > 1 then
            errlogPrintf (Diag.readRval (← getRec).name (← getRec).rval)
          pure (0 : Int)
      if (← getRec).tse = epicsTimeEventDeviceTime then
        let t ← callRead Call.readTimeStamp (fun e => Except.ok (ops.readTimeStamp e))
        setRec { (← getRec) with time := t }
      callUpdate Call.checkReadStatus ops.checkReadStatus
      callTotal Call.clearIncomingData ops.clearIncomingData
      return ret
    else if reason = ProcessReason.connectionLoss then
      setRec (recGblSetSevr (← getRec) COMM_ALARM INVALID_ALARM)
      if (← getRec).tse = epicsTimeEventDeviceTime then
        setRec { (← getRec) with time := now }
      if (← getRec).tpro > 1 then
        errlogPrintf (Diag.connectionLoss (← getRec).name)
      return 1
    else
      setRec { (← getRec) with pact := true }
      callTotal Call.requestOpcuaRead ops.requestOpcuaRead
      return 0)

/-- Example reads of a double over the example leaf: the incoming value as a
double; an empty incoming slot throws. -/
def exFloatOps : ConnectorFloatOps ByteLeaf where
  readFloat64 e := match e.incoming with
    | some v => Except.ok (epicsFloat64.finite v)
    | none => Except.error (Thrown.stdException "no incoming data")

/-- Operations of the example connector with a status check that throws. -/
def exBadStatusOps : ConnectorOps ByteLeaf :=
  { byteLeafOps with
    checkReadStatus := fun _ => Except.error (Thrown.stdException "bad read status") }

/-- Example ai record: VAL 10, defined, with the given LINR, ASLO 2, AOFF 1 and
the given SMOO. -/
def exAi (linr : Nat) (smoo : ℚ) : aiRecord :=
  { todbCommon := { exCommon with udf := false }, val := epicsFloat64.finite 10, linr := linr,
    aslo := epicsFloat64.finite 2, aoff := epicsFloat64.finite 1,
    smoo := epicsFloat64.finite smoo, rval := 0 }

/-- Example world: an ai record on a connector of the example leaf. -/
def exAiWorld (linr : Nat) (smoo : ℚ) (reason : ProcessReason) (incoming : Option Int) :
    World aiRecord ByteLeaf :=
  { prec := exAi linr smoo, dpvt := some (exConnector reason incoming), calls := [],
    console := [] }

/-! ## I/O interrupt information -/

/-- The routine `opcua_get_ioint` of `devOpcua.cpp`: `ppvt` is what the pointer
`ppvt` points to; the result is the return value, the world and `*ppvt` after the
call. -/
def opcua_get_ioint {R σ : Type} (cmd : Int) (w : World R σ) (ppvt : Nat) :
    Int × World R σ × Nat :=
  match w.dpvt with
  | none => (0, w, ppvt)
  | some pvt =>
    (0, { w with dpvt := some { pvt with isIoIntrScanned := if cmd ≠ 0 then false else true } },
      pvt.ioscanpvt)

/-- Example world: a longin record with a null `dpvt`. -/
def exUnbound : World longinRecord ByteLeaf :=
  { prec := { todbCommon := exCommon, val := 5 }, dpvt := none, calls := [], console := [] }

/-! ## The opcuaItem record -/

/-- Alarm status `SOFT_ALARM` (EPICS `alarm.h`). -/
def SOFT_ALARM : Nat := 15

/-- Alarm status `SIMM_ALARM` (EPICS `alarm.h`). -/
def SIMM_ALARM : Nat := 19

/-- Choice `menuYesNoNO` of the menu `menuYesNo` (EPICS `menuYesNo.h`). -/
def menuYesNoNO : Nat := 0

/-- Choice `menuYesNoYES` of the menu `menuYesNo` (EPICS `menuYesNo.h`). -/
def menuYesNoYES : Nat := 1

/-- The opcuaItem record with the fields `opcuaItemRecord.cpp` uses: `dbCommon`,
the simulation mode link SIML (told apart by a number), the simulation mode SIMM
and the simulation alarm severity SIMS. -/
structure opcuaItemRecord extends dbCommon where
  siml : Nat
  simm : Nat
  sims : Nat
  deriving DecidableEq, Repr

instance : DbRecord opcuaItemRecord :=
  ⟨fun r => r.todbCommon, fun r c => { r with todbCommon := c }⟩

/-- The functions of EPICS base that `process` and `readValue` call; their code
is not part of this repository, so they are parameters. `dbGetLink` takes the
link and the buffer (SIMM) and gives the status and the buffer after the call;
`recGblResetAlarms` gives the event mask and the record after the call. -/
structure RecordSupportCalls where
  dbGetLink : Nat → Nat → Int × Nat
  recGblGetTimeStamp : opcuaItemRecord → opcuaItemRecord
  recGblResetAlarms : opcuaItemRecord → Nat × opcuaItemRecord
  recGblFwdLink : opcuaItemRecord → opcuaItemRecord

/-- The state `process` works on: the record and the monitor events posted
(`db_post_events` on VAL, with the event mask). -/
structure ItemWorld where
  prec : opcuaItemRecord
  posted : List Nat

/-- The function `readValue` of `opcuaItemRecord.cpp`: the status and the record
after the call. -/
def readValue (env : RecordSupportCalls) (prec : opcuaItemRecord) : Int × opcuaItemRecord :=
  if prec.pact then
    (0, { prec with udf := false })
  else
    let got := env.dbGetLink prec.siml prec.simm
    let prec1 := { prec with simm := got.2 }
    if got.1 ≠ 0 then (got.1, prec1)
    else
      let r : Int × opcuaItemRecord :=
        if prec1.simm = menuYesNoNO then (0, prec1)
        else if prec1.simm = menuYesNoYES then (0, recGblSetSevr prec1 SIMM_ALARM prec1.sims)
        else (-1, recGblSetSevr prec1 SOFT_ALARM INVALID_ALARM)
      if r.1 = 0 then (r.1, { r.2 with udf := false }) else r

/-- The function `monitor` of `opcuaItemRecord.cpp`. -/
def monitor (env : RecordSupportCalls) (w : ItemWorld) : ItemWorld :=
  let r := env.recGblResetAlarms w.prec
  if r.1 ≠ 0 then { prec := r.2, posted := w.posted ++ [r.1] }
  else { prec := r.2, posted := w.posted }

/-- The function `process` of `opcuaItemRecord.cpp`: the status returned and the
state after the call. -/
def process (env : RecordSupportCalls) (w : ItemWorld) : Int × ItemWorld :=
  let pact := w.prec.pact
  let r := readValue env w.prec
  if !pact && r.2.pact then (0, { w with prec := r.2 })
  else
    let w1 : ItemWorld := { w with prec := { r.2 with pact := true } }
    let w2 : ItemWorld := { w1 with prec := env.recGblGetTimeStamp w1.prec }
    let w3 := monitor env w2
    let w4 : ItemWorld := { w3 with prec := env.recGblFwdLink w3.prec }
    (r.1, { w4 with prec := { w4.prec with pact := false } })

/-- Example EPICS base: the link with number 1 cannot be read (status 7), the
others leave SIMM as it is; the time stamp and the forward link change nothing;
the pending alarm is reported as event mask 1 and reset. -/
def exRecordSupport : RecordSupportCalls :=
  { dbGetLink := fun link simm => if link = 1 then (7, simm) else (0, simm),
    recGblGetTimeStamp := fun prec => prec,
    recGblResetAlarms := fun prec =>
      (if prec.nsev ≠ 0 then 1 else 0, { prec with nsta := 0, nsev := 0 }),
    recGblFwdLink := fun prec => prec }

/-- Example opcuaItem record with the given link and simulation mode, SIMS 2. -/
def exItemRecord (siml simm : Nat) : opcuaItemRecord :=
  { todbCommon := exCommon, siml := siml, simm := simm, sims := 2 }

/-- Example world: a waveform record of the given element type with capacity 2,
nothing read yet. -/
def exWaveformOf (ftvl : Nat) (reason : ProcessReason) (incoming : Option Int) :
    World (waveformRecord (List Int)) ByteLeaf :=
  { prec := { todbCommon := exCommon, nelm := 2, nord := 0, ftvl := ftvl, bptr := [0, 0] },
    dpvt := some (exConnector reason incoming), calls := [], console := [] }

/-! ## Device support routines: strings, long string from VAL, array from VAL, analog output -/

/-- Size of the buffer VAL of the string records (`MAX_STRING_SIZE`, EPICS `epicsTypes.h`). -/
def MAX_STRING_SIZE : Nat := 40

/-- The stringin record: `dbCommon` and the buffer VAL (bytes). -/
structure stringinRecord extends dbCommon where
  val : List Nat
  deriving DecidableEq, Repr

/-- The stringout record: `dbCommon` and the buffer VAL (bytes). -/
structure stringoutRecord extends dbCommon where
  val : List Nat
  deriving DecidableEq, Repr

/-- The lso record: `dbCommon`, the buffer VAL (bytes), its size SIZV
(epicsUInt16) and the length LEN (epicsUInt32). -/
structure lsoRecord extends dbCommon where
  val : List Nat
  sizv : Nat
  len : Nat
  deriving DecidableEq, Repr

/-- The aao record: `dbCommon`, the capacity NELM, the number of elements NORD
(both epicsUInt32), the element type FTVL and the buffer behind BPTR, of a type
`β`. -/
structure aaoRecord (β : Type) extends dbCommon where
  nelm : Nat
  nord : Nat
  ftvl : Nat
  bptr : β

/-- The ao record: `dbCommon`, VAL (double), RVAL (epicsInt32), the raw offset
ROFF (epicsUInt32), the raw slope and offset ASLO and AOFF, the slope and offset
ESLO and EOFF (doubles), the linearisation LINR, and the state of the breakpoint
table conversion: INIT, PBRK (a pointer, told apart by a number) and LBRK. -/
structure aoRecord extends dbCommon where
  val : epicsFloat64
  rval : Int
  roff : Nat
  aslo : epicsFloat64
  aoff : epicsFloat64
  eslo : epicsFloat64
  eoff : epicsFloat64
  linr : Nat
  init : Int
  pbrk : Nat
  lbrk : Int
  deriving DecidableEq, Repr

instance : DbRecord stringinRecord := ⟨fun r => r.todbCommon, fun r c => { r with todbCommon := c }⟩
instance : DbRecord stringoutRecord := ⟨fun r => r.todbCommon, fun r c => { r with todbCommon := c }⟩
instance : DbRecord lsoRecord := ⟨fun r => r.todbCommon, fun r c => { r with todbCommon := c }⟩
instance {β : Type} : DbRecord (aaoRecord β) :=
  ⟨fun r => r.todbCommon, fun r c => { r with todbCommon := c }⟩
instance : DbRecord aoRecord := ⟨fun r => r.todbCommon, fun r c => { r with todbCommon := c }⟩

/-- The writes of the connector that the output routines for strings, arrays and
doubles call, parameters as `RecordConnector.h` is not among the sources:
`writeCString(value, num)` gets the buffer and its size, each array write the
buffer and the number of elements; they may throw (`DataElementUaSdk.h`). -/
structure ConnectorWriteOps (σ β : Type) where
  writeCString : List Nat → Nat → σ → Except Thrown σ
  writeArray : ArrayWrite → β → Nat → σ → Except Thrown σ
  writeFloat64 : epicsFloat64 → σ → Except Thrown σ

/-- Choice `menuConvertSLOPE` of the menu `menuConvert` (EPICS `menuConvert.h`). -/
def menuConvertSLOPE : Nat := 1

/-- Choice `menuConvertLINEAR` of the menu `menuConvert` (EPICS `menuConvert.h`). -/
def menuConvertLINEAR : Nat := 2

/-- What `cvtRawToEngBpt` gives back: its status, and the value, PBRK and LBRK
after the call. -/
structure BptResult where
  status : Int
  value : epicsFloat64
  pbrk : Nat
  lbrk : Int

/-- Functions outside this repository that `opcua_write_analog` calls, as
parameters: `cvtRawToEngBpt(&value, linr, init, &pbrk, &lbrk)` of EPICS base
(`cvtTable.h`), and `isnan` on a value that is not finite (the embedding of
doubles does not tell NaN from the infinities; on a finite value `isnan` is
false). -/
structure AnalogCalls where
  cvtRawToEngBpt : epicsFloat64 → Nat → Int → Nat → Int → BptResult
  isnanNotFinite : Bool

/-- The function `isnan` on a double. -/
def AnalogCalls.isnan (cl : AnalogCalls) : epicsFloat64 → Bool
  | epicsFloat64.finite _ => false
  | epicsFloat64.notFinite => cl.isnanNotFinite

/-- The `switch (prec->ftvl)` of the write branch of `opcua_write_array` (built
with `DBR_INT64`): the array write called for an element type; no case for any
other value. -/
def arrayWriteFor (ftvl : Nat) : Option ArrayWrite :=
  if ftvl = menuFtypeSTRING then some ArrayWrite.writeArrayOldString
  else if ftvl = menuFtypeCHAR then some ArrayWrite.writeArrayInt8
  else if ftvl = menuFtypeUCHAR then some ArrayWrite.writeArrayUInt8
  else if ftvl = menuFtypeSHORT then some ArrayWrite.writeArrayInt16
  else if ftvl = menuFtypeUSHORT then some ArrayWrite.writeArrayUInt16
  else if ftvl = menuFtypeLONG then some ArrayWrite.writeArrayInt32
  else if ftvl = menuFtypeULONG then some ArrayWrite.writeArrayUInt32
  else if ftvl = menuFtypeINT64 then some ArrayWrite.writeArrayInt64
  else if ftvl = menuFtypeUINT64 then some ArrayWrite.writeArrayUInt64
  else if ftvl = menuFtypeFLOAT then some ArrayWrite.writeArrayFloat32
  else if ftvl = menuFtypeDOUBLE then some ArrayWrite.writeArrayFloat64
  else if ftvl = menuFtypeENUM then some ArrayWrite.writeArrayUInt16
  else none

/-- The routine `opcua_read_string_val` of `devOpcua.cpp` (template instance for `stringinRecord`). -/
def opcua_read_string_val {σ : Type} (ops : ConnectorOps σ) (sops : ConnectorStringOps σ)
    (now : epicsTimeStamp) (w : World stringinRecord σ) :
    Except Thrown Int × World stringinRecord σ :=
  TRY_CATCH (fun p => p.name) w (Guard do
    let reason ← pvtReason
    if reason = ProcessReason.incomingData ∨ reason = ProcessReason.readComplete then
      let buf ← callRead (Call.readCString MAX_STRING_SIZE)
        (sops.readCString (← getRec).val MAX_STRING_SIZE)
      setRec { (← getRec) with val := buf }
      if (← getRec).tse = epicsTimeEventDeviceTime then
        let t ← callRead Call.readTimeStamp (fun e => Except.ok (ops.readTimeStamp e))
        setRec { (← getRec) with time := t }
      if (← getRec).tpro > 1 then
        errlogPrintf (Diag.readString (← getRec).name (← getRec).val)
      setRec { (← getRec) with udf := false }
      callUpdate Call.checkReadStatus ops.checkReadStatus
      callTotal Call.clearIncomingData ops.clearIncomingData
      return 0
    else if reason = ProcessReason.connectionLoss then
      setRec (recGblSetSevr (← getRec) COMM_ALARM INVALID_ALARM)
      if (← getRec).tse = epicsTimeEventDeviceTime then
        setRec { (← getRec) with time := now }
      if (← getRec).tpro > 1 then
        errlogPrintf (Diag.connectionLoss (← getRec).name)
      return 1
    else
      setRec { (← getRec) with pact := true }
      callTotal Call.requestOpcuaRead ops.requestOpcuaRead
      return 0)

/-- The routine `opcua_write_string_val` of `devOpcua.cpp` (template instance for `stringoutRecord`). -/
def opcua_write_string_val {σ β : Type} (ops : ConnectorOps σ) (sops : ConnectorStringOps σ)
    (wops : ConnectorWriteOps σ β) (now : epicsTimeStamp) (w : World stringoutRecord σ) :
    Except Thrown Int × World stringoutRecord σ :=
  TRY_CATCH (fun p => p.name) w (Guard do
    let reason ← pvtReason
    if reason = ProcessReason.incomingData ∨ reason = ProcessReason.readComplete then
      let buf ← callRead (Call.readCString MAX_STRING_SIZE)
        (sops.readCString (← getRec).val MAX_STRING_SIZE)
      setRec { (← getRec) with val := buf }
      if (← getRec).tse = epicsTimeEventDeviceTime then
        let t ← callRead Call.readTimeStamp (fun e => Except.ok (ops.readTimeStamp e))
        setRec { (← getRec) with time := t }
      if (← getRec).tpro > 1 then
        errlogPrintf (Diag.readString (← getRec).name (← getRec).val)
      setRec { (← getRec) with udf := false }
      callUpdate Call.checkReadStatus ops.checkReadStatus
      callTotal Call.clearIncomingData ops.clearIncomingData
      return 0
    else if reason = ProcessReason.writeComplete then
      callUpdate Call.checkWriteStatus ops.checkWriteStatus
      return 0
    else if reason = ProcessReason.connectionLoss then
      setRec (recGblSetSevr (← getRec) COMM_ALARM INVALID_ALARM)
      if (← getRec).tse = epicsTimeEventDeviceTime then
        setRec { (← getRec) with time := now }
      if (← getRec).tpro > 1 then
        errlogPrintf (Diag.connectionLoss (← getRec).name)
      return 1
    else
      if (← getRec).tpro > 1 then
        errlogPrintf (Diag.writeString (← getRec).name (← getRec).val)
      callUpdate (Call.writeCString (← getRec).val MAX_STRING_SIZE)
        (wops.writeCString (← getRec).val MAX_STRING_SIZE)
      setRec { (← getRec) with pact := true }
      callTotal Call.requestOpcuaWrite ops.requestOpcuaWrite
      return 0)

/-- The routine `opcua_write_lstring_val` of `devOpcua.cpp` (template instance for `lsoRecord`). -/
def opcua_write_lstring_val {σ β : Type} (ops : ConnectorOps σ) (sops : ConnectorStringOps σ)
    (wops : ConnectorWriteOps σ β) (now : epicsTimeStamp) (w : World lsoRecord σ) :
    Except Thrown Int × World lsoRecord σ :=
  TRY_CATCH (fun p => p.name) w (Guard do
    let reason ← pvtReason
    if reason = ProcessReason.incomingData ∨ reason = ProcessReason.readComplete then
      let buf ← callRead (Call.readCString (← getRec).sizv)
        (sops.readCString (← getRec).val (← getRec).sizv)
      setRec { (← getRec) with val := buf }
      setRec { (← getRec) with len := (strlen (← getRec).val + 1) % 2 ^ 32 }
      if (← getRec).tse = epicsTimeEventDeviceTime then
        let t ← callRead Call.readTimeStamp (fun e => Except.ok (ops.readTimeStamp e))
        setRec { (← getRec) with time := t }
      if (← getRec).tpro > 1 then
        errlogPrintf (Diag.readString (← getRec).name (← getRec).val)
      setRec { (← getRec) with udf := false }
      callUpdate Call.checkReadStatus ops.checkReadStatus
      callTotal Call.clearIncomingData ops.clearIncomingData
      return 0
    else if reason = ProcessReason.writeComplete then
      callUpdate Call.checkWriteStatus ops.checkWriteStatus
      return 0
    else if reason = ProcessReason.connectionLoss then
      setRec (recGblSetSevr (← getRec) COMM_ALARM INVALID_ALARM)
      if (← getRec).tse = epicsTimeEventDeviceTime then
        setRec { (← getRec) with time := now }
      if (← getRec).tpro > 1 then
        errlogPrintf (Diag.connectionLoss (← getRec).name)
      return 1
    else
      if (← getRec).tpro > 1 then
        errlogPrintf (Diag.writeString (← getRec).name (← getRec).val)
      callUpdate (Call.writeCString (← getRec).val (← getRec).sizv)
        (wops.writeCString (← getRec).val (← getRec).sizv)
      setRec { (← getRec) with pact := true }
      callTotal Call.requestOpcuaWrite ops.requestOpcuaWrite
      return 0)

/-- The routine `opcua_write_array` of `devOpcua.cpp` (template instance for `aaoRecord`). -/
def opcua_write_array {σ β : Type} (ops : ConnectorOps σ) (aops : ConnectorArrayOps σ β)
    (wops : ConnectorWriteOps σ β) (now : epicsTimeStamp) (w : World (aaoRecord β) σ) :
    Except Thrown Int × World (aaoRecord β) σ :=
  TRY_CATCH (fun p => p.name) w (Guard do
    let nord := (← getRec).nord
    let reason ← pvtReason
    if reason = ProcessReason.incomingData ∨ reason = ProcessReason.readComplete then
      match arrayReadFor (← getRec).ftvl with
      | some method =>
        let r ← callRead (Call.readArray method (← getRec).nelm)
          (aops.readArray method (← getRec).bptr (← getRec).nelm)
        setRec { (← getRec) with nord := r.1, bptr := r.2 }
      | none => pure ()
      if nord ≠ (← getRec).nord then
        logCall (Call.db_post_events "NORD" (DBE_VALUE ||| DBE_LOG))
      if (← getRec).tse = epicsTimeEventDeviceTime then
        let t ← callRead Call.readTimeStamp (fun e => Except.ok (ops.readTimeStamp e))
        setRec { (← getRec) with time := t }
      if (← getRec).tpro > 1 then
        errlogPrintf (Diag.readArray (← getRec).name (← getRec).nord)
      setRec { (← getRec) with udf := false }
      callUpdate Call.checkReadStatus ops.checkReadStatus
      callTotal Call.clearIncomingData ops.clearIncomingData
      return 0
    else if reason = ProcessReason.writeComplete then
      callUpdate Call.checkWriteStatus ops.checkWriteStatus
      return 0
    else if reason = ProcessReason.connectionLoss then
      setRec (recGblSetSevr (← getRec) COMM_ALARM INVALID_ALARM)
      if (← getRec).tse = epicsTimeEventDeviceTime then
        setRec { (← getRec) with time := now }
      if (← getRec).tpro > 1 then
        errlogPrintf (Diag.connectionLoss (← getRec).name)
      return 1
    else
      if (← getRec).tpro > 1 then
        errlogPrintf (Diag.writeArray (← getRec).name (← getRec).nord)
      match arrayWriteFor (← getRec).ftvl with
      | some method =>
        callUpdate (Call.writeArray method (← getRec).nord)
          (wops.writeArray method (← getRec).bptr (← getRec).nord)
      | none => pure ()
      setRec { (← getRec) with pact := true }
      callTotal Call.requestOpcuaWrite ops.requestOpcuaWrite
      return 0)

/-- The routine `opcua_write_analog` of `devOpcua.cpp` (template instance for
`aoRecord`), in exact arithmetic. On incoming data `conv` is the local `value`
when `useValue` is true at the end of the conversion, and `none` when the
breakpoint table conversion has failed; `p` is the record after the read. -/
def opcua_write_analog {σ β : Type} (ops : ConnectorOps σ) (fops : ConnectorFloatOps σ)
    (wops : ConnectorWriteOps σ β) (cl : AnalogCalls) (now : epicsTimeStamp)
    (w : World aoRecord σ) : Except Thrown Int × World aoRecord σ :=
  TRY_CATCH (fun p => p.name) w (Guard do
    let reason ← pvtReason
    if reason = ProcessReason.incomingData ∨ reason = ProcessReason.readComplete then
      let conv ←
        if (← getRec).linr = menuConvertNO_CONVERSION then do
          let x ← callRead Call.readFloat64 fops.readFloat64
          let p ← getRec
          pure (some ((if !p.aslo.isZero then x * p.aslo else x) + p.aoff))
        else do
          let v ← callRead Call.readInt32 ops.readInt32
          setRec { (← getRec) with rval := v }
          let p ← getRec
          let raw := epicsFloat64.finite p.rval + epicsFloat64.finite p.roff
          let value := (if !p.aslo.isZero then raw * p.aslo else raw) + p.aoff
          if p.linr = menuConvertLINEAR ∨ p.linr = menuConvertSLOPE then
            pure (some (value * p.eslo + p.eoff))
          else
            let c := cl.cvtRawToEngBpt value p.linr p.init p.pbrk p.lbrk
            setRec { (← getRec) with pbrk := c.pbrk, lbrk := c.lbrk }
            pure (if c.status ≠ 0 then none else some c.value)
      if (← getRec).tse = epicsTimeEventDeviceTime then
        let t ← callRead Call.readTimeStamp (fun e => Except.ok (ops.readTimeStamp e))
        setRec { (← getRec) with time := t }
      match conv with
      | some value => setRec { (← getRec) with val := value }
      | none => pure ()
      setRec { (← getRec) with udf := cl.isnan (← getRec).val }
      if (← getRec).tpro > 1 then
        errlogPrintf (Diag.readFloat (← getRec).name (← getRec).val)
      callUpdate Call.checkReadStatus ops.checkReadStatus
      callTotal Call.clearIncomingData ops.clearIncomingData
      return 0
    else if reason = ProcessReason.writeComplete then
      callUpdate Call.checkWriteStatus ops.checkWriteStatus
      return 0
    else if reason = ProcessReason.connectionLoss then
      setRec (recGblSetSevr (← getRec) COMM_ALARM INVALID_ALARM)
      if (← getRec).tse = epicsTimeEventDeviceTime then
        setRec { (← getRec) with time := now }
      if (← getRec).tpro > 1 then
        errlogPrintf (Diag.connectionLoss (← getRec).name)
      return 1
    else
      if (← getRec).linr = menuConvertNO_CONVERSION then
        if (← getRec).tpro > 1 then
          errlogPrintf (Diag.writeFloat (← getRec).name (← getRec).val)
        callUpdate (Call.writeFloat64 (← getRec).val) (wops.writeFloat64 (← getRec).val)
      else
        if (← getRec).tpro > 1 then
          errlogPrintf (Diag.writeVal (← getRec).name (← getRec).rval)
        callUpdate (Call.writeInt32 (← getRec).rval) (ops.writeInt32 (← getRec).rval)
      setRec { (← getRec) with pact := true }
      callTotal Call.requestOpcuaWrite ops.requestOpcuaWrite
      return 0)

/-! ## The lock discipline -/

/-- The lock discipline of a routine run, read off the world it ends in: of the
calls it has added the first takes the lock, the last releases it, the lock is
taken once and released once (so every other call lies between the two), the
connector's lock is held as often after the run as before, and `pvt->reason` has
been read once, at a moment when the lock was held once more than before the
run. -/
def lockDiscipline {R σ : Type} (w : World R σ) (pvt : RecordConnector σ)
    (r : Except Thrown Int × World R σ) : Prop :=
  (newCalls w r).head? = some Call.lock
  ∧ (newCalls w r).getLast? = some Call.unlock
  ∧ (newCalls w r).count Call.lock = 1
  ∧ (newCalls w r).count Call.unlock = 1
  ∧ (r.2.dpvt.map fun c => c.lock) = some pvt.lock
  ∧ r.2.reasonReads = [pvt.lock + 1]

/-- A block leaves the lock alone and does not read the reason: whatever the
state it starts in and however it ends, the calls it adds are neither taking nor
releasing the lock, the lock is held as often after it as before, and no read of
`pvt->reason` is logged. -/
def KeepsLock {R σ α : Type} (b : Body (Frame R σ) α) : Prop :=
  ∀ f, (∃ cs, (b f).2.calls = f.calls ++ cs ∧ Call.lock ∉ cs ∧ Call.unlock ∉ cs)
    ∧ (b f).2.pvt.lock = f.pvt.lock
    ∧ (b f).2.reasonReads = f.reasonReads

/-- A block leaves the lock alone and reads the reason once, with the lock held
as often as at its start. -/
def ReadsReason {R σ α : Type} (b : Body (Frame R σ) α) : Prop :=
  ∀ f, (∃ cs, (b f).2.calls = f.calls ++ cs ∧ Call.lock ∉ cs ∧ Call.unlock ∉ cs)
    ∧ (b f).2.pvt.lock = f.pvt.lock
    ∧ (b f).2.reasonReads = f.reasonReads ++ [f.pvt.lock]

/-- A routine that reads `pvt->reason` before it takes the lock, for comparison:
as `opcua_read_int32_val` on a reason other than incoming data, read completion
and connection loss, with the read of the reason moved in front of the guard. -/
def unguardedRead {σ : Type} (ops : ConnectorOps σ) (w : World longinRecord σ) :
    Except Thrown Int × World longinRecord σ :=
  TRY_CATCH (fun p => p.name) w (do
    let _reason ← pvtReason
    Guard do
      setRec { (← getRec) with pact := true }
      callTotal Call.requestOpcuaRead ops.requestOpcuaRead
      return 0)

/-- Example writes over the example leaf: every write is accepted and leaves the
leaf as it is. -/
def exWriteOps : ConnectorWriteOps ByteLeaf (List Int) :=
  { writeCString := fun _ _ e => Except.ok e,
    writeArray := fun _ _ _ e => Except.ok e,
    writeFloat64 := fun _ e => Except.ok e }

/-- Example functions for the analog output: the breakpoint table conversion
fails with status 1, a value that is not finite counts as NaN. -/
def exAnalogCalls : AnalogCalls :=
  { cvtRawToEngBpt := fun value _ _ pbrk lbrk =>
      { status := 1, value := value, pbrk := pbrk, lbrk := lbrk },
    isnanNotFinite := true }

/-- Example world: an ao record with VAL 10, RVAL 0, ASLO 2, AOFF 1, ESLO 1,
EOFF 0 and no conversion, on a connector of the example leaf. -/
def exAo (reason : ProcessReason) (incoming : Option Int) : World aoRecord ByteLeaf :=
  { prec := { todbCommon := exCommon, val := epicsFloat64.finite 10, rval := 0, roff := 0,
              aslo := epicsFloat64.finite 2, aoff := epicsFloat64.finite 1,
              eslo := epicsFloat64.finite 1, eoff := epicsFloat64.finite 0,
              linr := menuConvertNO_CONVERSION, init := 0, pbrk := 0, lbrk := 0 },
    dpvt := some (exConnector reason incoming), calls := [], console := [] }

/-! # Theorems -/

/-! ## Connection loss -/

theorem opcua_read_int32_val_connectionLoss {σ : Type} (ops : ConnectorOps σ) (now : epicsTimeStamp)
    (w : World longinRecord σ) (pvt : RecordConnector σ) (hb : w.dpvt = some pvt)
    (hr : pvt.reason = ProcessReason.connectionLoss) :
    connectionLossOutcome now w pvt (opcua_read_int32_val ops now w)
    ∧ (opcua_read_int32_val ops now w).2.prec.val = w.prec.val
    ∧ (opcua_read_int32_val ops now w).2.prec.pact = w.prec.pact := by
  obtain ⟨reason, lock, scanned, scanpvt, elem⟩ := pvt
  obtain ⟨prec, dpvt, calls, console⟩ := w
  simp only at hr hb
  subst hr hb
  by_cases h1 : prec.tse = epicsTimeEventDeviceTime <;> by_cases h2 : 1 < prec.tpro <;>
  by_cases h3 : prec.nsev < INVALID_ALARM <;>
  simp [connectionLossOutcome, newCalls, opcua_read_int32_val, TRY_CATCH, Guard, bind, Body.bind, pure, pvtReason,
    getRec, setRec, errlogPrintf, callRead, callUpdate, callTotal, recGblSetSevr, dbCommon.recGblSetSevr,
    DbRecord.common, DbRecord.setCommon, Frame.toWorld, h1, h2, h3] <;> omega

theorem opcua_write_int32_val_connectionLoss {σ : Type} (ops : ConnectorOps σ) (now : epicsTimeStamp)
    (w : World longoutRecord σ) (pvt : RecordConnector σ) (hb : w.dpvt = some pvt)
    (hr : pvt.reason = ProcessReason.connectionLoss) :
    connectionLossOutcome now w pvt (opcua_write_int32_val ops now w)
    ∧ (opcua_write_int32_val ops now w).2.prec.val = w.prec.val
    ∧ (opcua_write_int32_val ops now w).2.prec.pact = w.prec.pact := by
  obtain ⟨reason, lock, scanned, scanpvt, elem⟩ := pvt
  obtain ⟨prec, dpvt, calls, console⟩ := w
  simp only at hr hb
  subst hr hb
  by_cases h1 : prec.tse = epicsTimeEventDeviceTime <;> by_cases h2 : 1 < prec.tpro <;>
  by_cases h3 : prec.nsev < INVALID_ALARM <;>
  simp [connectionLossOutcome, newCalls, opcua_write_int32_val, TRY_CATCH, Guard, bind, Body.bind, pure, pvtReason,
    getRec, setRec, errlogPrintf, callRead, callUpdate, callTotal, recGblSetSevr, dbCommon.recGblSetSevr,
    DbRecord.common, DbRecord.setCommon, Frame.toWorld, h1, h2, h3] <;> omega

theorem opcua_read_int64_val_connectionLoss {σ : Type} (ops : ConnectorOps σ) (now : epicsTimeStamp)
    (w : World int64inRecord σ) (pvt : RecordConnector σ) (hb : w.dpvt = some pvt)
    (hr : pvt.reason = ProcessReason.connectionLoss) :
    connectionLossOutcome now w pvt (opcua_read_int64_val ops now w)
    ∧ (opcua_read_int64_val ops now w).2.prec.val = w.prec.val
    ∧ (opcua_read_int64_val ops now w).2.prec.pact = w.prec.pact := by
  obtain ⟨reason, lock, scanned, scanpvt, elem⟩ := pvt
  obtain ⟨prec, dpvt, calls, console⟩ := w
  simp only at hr hb
  subst hr hb
  by_cases h1 : prec.tse = epicsTimeEventDeviceTime <;> by_cases h2 : 1 < prec.tpro <;>
  by_cases h3 : prec.nsev < INVALID_ALARM <;>
  simp [connectionLossOutcome, newCalls, opcua_read_int64_val, TRY_CATCH, Guard, bind, Body.bind, pure, pvtReason,
    getRec, setRec, errlogPrintf, callRead, callUpdate, callTotal, recGblSetSevr, dbCommon.recGblSetSevr,
    DbRecord.common, DbRecord.setCommon, Frame.toWorld, h1, h2, h3] <;> omega

theorem opcua_write_int64_val_connectionLoss {σ : Type} (ops : ConnectorOps σ) (now : epicsTimeStamp)
    (w : World int64outRecord σ) (pvt : RecordConnector σ) (hb : w.dpvt = some pvt)
    (hr : pvt.reason = ProcessReason.connectionLoss) :
    connectionLossOutcome now w pvt (opcua_write_int64_val ops now w)
    ∧ (opcua_write_int64_val ops now w).2.prec.val = w.prec.val
    ∧ (opcua_write_int64_val ops now w).2.prec.pact = w.prec.pact := by
  obtain ⟨reason, lock, scanned, scanpvt, elem⟩ := pvt
  obtain ⟨prec, dpvt, calls, console⟩ := w
  simp only at hr hb
  subst hr hb
  by_cases h1 : prec.tse = epicsTimeEventDeviceTime <;> by_cases h2 : 1 < prec.tpro <;>
  by_cases h3 : prec.nsev < INVALID_ALARM <;>
  simp [connectionLossOutcome, newCalls, opcua_write_int64_val, TRY_CATCH, Guard, bind, Body.bind, pure, pvtReason,
    getRec, setRec, errlogPrintf, callRead, callUpdate, callTotal, recGblSetSevr, dbCommon.recGblSetSevr,
    DbRecord.common, DbRecord.setCommon, Frame.toWorld, h1, h2, h3] <;> omega

theorem opcua_read_uint32_rval_connectionLoss {σ : Type} (ops : ConnectorOps σ) (now : epicsTimeStamp)
    (w : World biRecord σ) (pvt : RecordConnector σ) (hb : w.dpvt = some pvt)
    (hr : pvt.reason = ProcessReason.connectionLoss) :
    connectionLossOutcome now w pvt (opcua_read_uint32_rval ops now w)
    ∧ (opcua_read_uint32_rval ops now w).2.prec.val = w.prec.val
    ∧ (opcua_read_uint32_rval ops now w).2.prec.pact = w.prec.pact
    ∧ (opcua_read_uint32_rval ops now w).2.prec.rval = w.prec.rval := by
  obtain ⟨reason, lock, scanned, scanpvt, elem⟩ := pvt
  obtain ⟨prec, dpvt, calls, console⟩ := w
  simp only at hr hb
  subst hr hb
  by_cases h1 : prec.tse = epicsTimeEventDeviceTime <;> by_cases h2 : 1 < prec.tpro <;>
  by_cases h3 : prec.nsev < INVALID_ALARM <;>
  simp [connectionLossOutcome, newCalls, opcua_read_uint32_rval, TRY_CATCH, Guard, bind, Body.bind, pure, pvtReason,
    getRec, setRec, errlogPrintf, callRead, callUpdate, callTotal, recGblSetSevr, dbCommon.recGblSetSevr,
    DbRecord.common, DbRecord.setCommon, Frame.toWorld, h1, h2, h3] <;> omega

theorem opcua_write_uint32_rval_connectionLoss {σ : Type} (ops : ConnectorOps σ) (now : epicsTimeStamp)
    (w : World boRecord σ) (pvt : RecordConnector σ) (hb : w.dpvt = some pvt)
    (hr : pvt.reason = ProcessReason.connectionLoss) :
    connectionLossOutcome now w pvt (opcua_write_uint32_rval ops now w)
    ∧ (opcua_write_uint32_rval ops now w).2.prec.val = w.prec.val
    ∧ (opcua_write_uint32_rval ops now w).2.prec.pact = w.prec.pact
    ∧ (opcua_write_uint32_rval ops now w).2.prec.rval = w.prec.rval := by
  obtain ⟨reason, lock, scanned, scanpvt, elem⟩ := pvt
  obtain ⟨prec, dpvt, calls, console⟩ := w
  simp only at hr hb
  subst hr hb
  by_cases h1 : prec.tse = epicsTimeEventDeviceTime <;> by_cases h2 : 1 < prec.tpro <;>
  by_cases h3 : prec.nsev < INVALID_ALARM <;>
  simp [connectionLossOutcome, newCalls, opcua_write_uint32_rval, TRY_CATCH, Guard, bind, Body.bind, pure, pvtReason,
    getRec, setRec, errlogPrintf, callRead, callUpdate, callTotal, recGblSetSevr, dbCommon.recGblSetSevr,
    DbRecord.common, DbRecord.setCommon, Frame.toWorld, h1, h2, h3] <;> omega

/-- C1: on a bound record whose connector's reason is connectionLoss, each of the
integer routines (int32 and int64 to/from VAL, uint32 to/from RVAL, reading and
writing) returns 1, raises COMM_ALARM with INVALID_ALARM severity, makes no call
on the connector besides taking and releasing its lock (so the connector and the
leaf behind it are as before), and leaves VAL, RVAL and PACT unchanged, whatever
VAL and the content of the leaf are. -/
theorem connectionLoss_raises_comm_alarm {σ : Type} (ops : ConnectorOps σ) (now : epicsTimeStamp)
    (pvt : RecordConnector σ) (hr : pvt.reason = ProcessReason.connectionLoss) :
    (∀ w : World longinRecord σ, w.dpvt = some pvt →
      connectionLossOutcome now w pvt (opcua_read_int32_val ops now w)
      ∧ (opcua_read_int32_val ops now w).2.prec.val = w.prec.val
      ∧ (opcua_read_int32_val ops now w).2.prec.pact = w.prec.pact)
    ∧ (∀ w : World longoutRecord σ, w.dpvt = some pvt →
      connectionLossOutcome now w pvt (opcua_write_int32_val ops now w)
      ∧ (opcua_write_int32_val ops now w).2.prec.val = w.prec.val
      ∧ (opcua_write_int32_val ops now w).2.prec.pact = w.prec.pact)
    ∧ (∀ w : World int64inRecord σ, w.dpvt = some pvt →
      connectionLossOutcome now w pvt (opcua_read_int64_val ops now w)
      ∧ (opcua_read_int64_val ops now w).2.prec.val = w.prec.val
      ∧ (opcua_read_int64_val ops now w).2.prec.pact = w.prec.pact)
    ∧ (∀ w : World int64outRecord σ, w.dpvt = some pvt →
      connectionLossOutcome now w pvt (opcua_write_int64_val ops now w)
      ∧ (opcua_write_int64_val ops now w).2.prec.val = w.prec.val
      ∧ (opcua_write_int64_val ops now w).2.prec.pact = w.prec.pact)
    ∧ (∀ w : World biRecord σ, w.dpvt = some pvt →
      connectionLossOutcome now w pvt (opcua_read_uint32_rval ops now w)
      ∧ (opcua_read_uint32_rval ops now w).2.prec.val = w.prec.val
      ∧ (opcua_read_uint32_rval ops now w).2.prec.pact = w.prec.pact
      ∧ (opcua_read_uint32_rval ops now w).2.prec.rval = w.prec.rval)
    ∧ (∀ w : World boRecord σ, w.dpvt = some pvt →
      connectionLossOutcome now w pvt (opcua_write_uint32_rval ops now w)
      ∧ (opcua_write_uint32_rval ops now w).2.prec.val = w.prec.val
      ∧ (opcua_write_uint32_rval ops now w).2.prec.pact = w.prec.pact
      ∧ (opcua_write_uint32_rval ops now w).2.prec.rval = w.prec.rval) :=
  ⟨fun w hb => opcua_read_int32_val_connectionLoss ops now w pvt hb hr,
   fun w hb => opcua_write_int32_val_connectionLoss ops now w pvt hb hr,
   fun w hb => opcua_read_int64_val_connectionLoss ops now w pvt hb hr,
   fun w hb => opcua_write_int64_val_connectionLoss ops now w pvt hb hr,
   fun w hb => opcua_read_uint32_rval_connectionLoss ops now w pvt hb hr,
   fun w hb => opcua_write_uint32_rval_connectionLoss ops now w pvt hb hr⟩

/-- Witness for C1: a longin record with VAL 5 whose leaf holds 7 and a longout
record with VAL 9, both on connection loss. -/
theorem connectionLoss_raises_comm_alarm_witness :
    (exConnector ProcessReason.connectionLoss (some 7)).reason = ProcessReason.connectionLoss
    ∧ (opcua_read_int32_val byteLeafOps exNow (exLongin ProcessReason.connectionLoss (some 7))).1 = Except.ok 1
    ∧ (opcua_read_int32_val byteLeafOps exNow (exLongin ProcessReason.connectionLoss (some 7))).2.prec.val = 5
    ∧ (opcua_write_int32_val byteLeafOps exNow (exLongout ProcessReason.connectionLoss (some 7) 9)).1
        = Except.ok 1 :=
  ⟨rfl,
   ((connectionLoss_raises_comm_alarm byteLeafOps exNow
      (exConnector ProcessReason.connectionLoss (some 7)) rfl).1
      (exLongin ProcessReason.connectionLoss (some 7)) rfl).1.1,
   ((connectionLoss_raises_comm_alarm byteLeafOps exNow
      (exConnector ProcessReason.connectionLoss (some 7)) rfl).1
      (exLongin ProcessReason.connectionLoss (some 7)) rfl).2.1,
   ((connectionLoss_raises_comm_alarm byteLeafOps exNow
      (exConnector ProcessReason.connectionLoss (some 7)) rfl).2.1
      (exLongout ProcessReason.connectionLoss (some 7) 9) rfl).1.1⟩

/-! ## Incoming data -/

/-- C2: opcua_read_int32_val on a bound record whose reason is incomingData or
readComplete, when readInt32 returns a value and checkReadStatus does not throw:
VAL becomes that value, the calls are exactly lock, readInt32, (readTimeStamp when
TSE selects the device time), checkReadStatus, clearIncomingData, unlock, so
clearIncomingData is called once and after the read and no read request is
issued; PACT is unchanged, the leaf is left as clearIncomingData leaves it, and
the routine returns 0. -/
theorem read_int32_incoming_sets_val {σ : Type} (ops : ConnectorOps σ) (now : epicsTimeStamp)
    (w : World longinRecord σ) (pvt : RecordConnector σ) (v : Int) (e1 : σ)
    (hb : w.dpvt = some pvt)
    (hr : pvt.reason = ProcessReason.incomingData ∨ pvt.reason = ProcessReason.readComplete)
    (hread : ops.readInt32 pvt.elem = Except.ok v)
    (hcheck : ops.checkReadStatus pvt.elem = Except.ok e1) :
    (opcua_read_int32_val ops now w).1 = Except.ok 0
    ∧ (opcua_read_int32_val ops now w).2.prec.val = v
    ∧ (opcua_read_int32_val ops now w).2.prec.pact = w.prec.pact
    ∧ newCalls w (opcua_read_int32_val ops now w) =
        [Call.lock, Call.readInt32]
          ++ (if w.prec.tse = epicsTimeEventDeviceTime then [Call.readTimeStamp] else [])
          ++ [Call.checkReadStatus, Call.clearIncomingData, Call.unlock]
    ∧ (newCalls w (opcua_read_int32_val ops now w)).count Call.clearIncomingData = 1
    ∧ (newCalls w (opcua_read_int32_val ops now w)).indexOf Call.readInt32
        < (newCalls w (opcua_read_int32_val ops now w)).indexOf Call.clearIncomingData
    ∧ Call.requestOpcuaRead ∉ newCalls w (opcua_read_int32_val ops now w)
    ∧ (opcua_read_int32_val ops now w).2.dpvt = some { pvt with elem := ops.clearIncomingData e1 } := by
  obtain ⟨reason, lock, scanned, scanpvt, elem⟩ := pvt
  obtain ⟨prec, dpvt, calls, console⟩ := w
  simp only at hr hb hread hcheck
  subst hb
  by_cases h1 : prec.tse = epicsTimeEventDeviceTime <;> by_cases h2 : 1 < prec.tpro <;>
  rcases hr with hr | hr <;> subst hr <;>
  simp [newCalls, opcua_read_int32_val, TRY_CATCH, Guard, bind, Body.bind, pure, pvtReason,
    getRec, setRec, errlogPrintf, callRead, callUpdate, callTotal, recGblSetSevr, dbCommon.recGblSetSevr,
    DbRecord.common, DbRecord.setCommon, Frame.toWorld, h1, h2, hread, hcheck, List.indexOf_cons]

/-- Witness for C2: a longin record whose leaf holds 7, processed for incoming data. -/
theorem read_int32_incoming_sets_val_witness :
    (exLongin ProcessReason.incomingData (some 7)).dpvt
        = some (exConnector ProcessReason.incomingData (some 7))
    ∧ byteLeafOps.readInt32 (exConnector ProcessReason.incomingData (some 7)).elem = Except.ok 7
    ∧ (opcua_read_int32_val byteLeafOps exNow (exLongin ProcessReason.incomingData (some 7))).1 = Except.ok 0
    ∧ (opcua_read_int32_val byteLeafOps exNow (exLongin ProcessReason.incomingData (some 7))).2.prec.val = 7 :=
  ⟨rfl, rfl,
   (read_int32_incoming_sets_val byteLeafOps exNow (exLongin ProcessReason.incomingData (some 7))
      (exConnector ProcessReason.incomingData (some 7)) 7
      (exConnector ProcessReason.incomingData (some 7)).elem rfl (Or.inl rfl) rfl rfl).1,
   (read_int32_incoming_sets_val byteLeafOps exNow (exLongin ProcessReason.incomingData (some 7))
      (exConnector ProcessReason.incomingData (some 7)) 7
      (exConnector ProcessReason.incomingData (some 7)).elem rfl (Or.inl rfl) rfl rfl).2.1⟩

/-! ## Exceptions -/

theorem opcua_read_int32_val_caught {σ : Type} (ops : ConnectorOps σ) (now : epicsTimeStamp)
    (w : World longinRecord σ) (pvt : RecordConnector σ) (what : String)
    (hb : w.dpvt = some pvt)
    (hr : pvt.reason = ProcessReason.incomingData ∨ pvt.reason = ProcessReason.readComplete)
    (hthrow : ops.readInt32 pvt.elem = Except.error (Thrown.stdException what)
      ∨ ((∃ v, ops.readInt32 pvt.elem = Except.ok v)
          ∧ ops.checkReadStatus pvt.elem = Except.error (Thrown.stdException what))) :
    caughtOutcome w pvt what (opcua_read_int32_val ops now w) := by
  obtain ⟨reason, lock, scanned, scanpvt, elem⟩ := pvt
  obtain ⟨prec, dpvt, calls, console⟩ := w
  simp only at hr hb hthrow
  subst hb
  rcases hthrow with ht | ⟨⟨v, hv⟩, ht⟩
  · by_cases h3 : prec.nsev < INVALID_ALARM <;>
    rcases hr with hr | hr <;> subst hr <;>
    simp [caughtOutcome, newCalls, opcua_read_int32_val, TRY_CATCH, Guard, bind, Body.bind, pure, pvtReason,
      getRec, setRec, errlogPrintf, callRead, callUpdate, callTotal, recGblSetSevr, dbCommon.recGblSetSevr,
      DbRecord.common, DbRecord.setCommon, Frame.toWorld, h3, ht] <;> omega
  · by_cases h1 : prec.tse = epicsTimeEventDeviceTime <;> by_cases h2 : 1 < prec.tpro <;>
    by_cases h3 : prec.nsev < INVALID_ALARM <;>
    rcases hr with hr | hr <;> subst hr <;>
    simp [caughtOutcome, newCalls, opcua_read_int32_val, TRY_CATCH, Guard, bind, Body.bind, pure, pvtReason,
      getRec, setRec, errlogPrintf, callRead, callUpdate, callTotal, recGblSetSevr, dbCommon.recGblSetSevr,
      DbRecord.common, DbRecord.setCommon, Frame.toWorld, h1, h2, h3, ht, hv] <;> omega

theorem opcua_write_int32_val_caught {σ : Type} (ops : ConnectorOps σ) (now : epicsTimeStamp)
    (w : World longoutRecord σ) (pvt : RecordConnector σ) (what : String)
    (hb : w.dpvt = some pvt)
    (hthrow :
      ((pvt.reason = ProcessReason.incomingData ∨ pvt.reason = ProcessReason.readComplete)
        ∧ (ops.readInt32 pvt.elem = Except.error (Thrown.stdException what)
          ∨ ((∃ v, ops.readInt32 pvt.elem = Except.ok v)
              ∧ ops.checkReadStatus pvt.elem = Except.error (Thrown.stdException what))))
      ∨ (pvt.reason = ProcessReason.writeComplete
          ∧ ops.checkWriteStatus pvt.elem = Except.error (Thrown.stdException what))
      ∨ (pvt.reason = ProcessReason.none
          ∧ ops.writeInt32 w.prec.val pvt.elem = Except.error (Thrown.stdException what))) :
    caughtOutcome w pvt what (opcua_write_int32_val ops now w) := by
  obtain ⟨reason, lock, scanned, scanpvt, elem⟩ := pvt
  obtain ⟨prec, dpvt, calls, console⟩ := w
  simp only at hb hthrow
  subst hb
  rcases hthrow with ⟨hr, ht | ⟨⟨v, hv⟩, ht⟩⟩ | ⟨hr, ht⟩ | ⟨hr, ht⟩
  · by_cases h3 : prec.nsev < INVALID_ALARM <;>
    rcases hr with hr | hr <;> subst hr <;>
    simp [caughtOutcome, newCalls, opcua_write_int32_val, TRY_CATCH, Guard, bind, Body.bind, pure, pvtReason,
      getRec, setRec, errlogPrintf, callRead, callUpdate, callTotal, recGblSetSevr, dbCommon.recGblSetSevr,
      DbRecord.common, DbRecord.setCommon, Frame.toWorld, h3, ht] <;> omega
  · by_cases h1 : prec.tse = epicsTimeEventDeviceTime <;> by_cases h2 : 1 < prec.tpro <;>
    by_cases h3 : prec.nsev < INVALID_ALARM <;>
    rcases hr with hr | hr <;> subst hr <;>
    simp [caughtOutcome, newCalls, opcua_write_int32_val, TRY_CATCH, Guard, bind, Body.bind, pure, pvtReason,
      getRec, setRec, errlogPrintf, callRead, callUpdate, callTotal, recGblSetSevr, dbCommon.recGblSetSevr,
      DbRecord.common, DbRecord.setCommon, Frame.toWorld, h1, h2, h3, ht, hv] <;> omega
  · subst hr
    by_cases h3 : prec.nsev < INVALID_ALARM <;>
    simp [caughtOutcome, newCalls, opcua_write_int32_val, TRY_CATCH, Guard, bind, Body.bind, pure, pvtReason,
      getRec, setRec, errlogPrintf, callRead, callUpdate, callTotal, recGblSetSevr, dbCommon.recGblSetSevr,
      DbRecord.common, DbRecord.setCommon, Frame.toWorld, h3, ht]
    omega
  · subst hr
    by_cases h2 : 1 < prec.tpro <;> by_cases h3 : prec.nsev < INVALID_ALARM <;>
    simp [caughtOutcome, newCalls, opcua_write_int32_val, TRY_CATCH, Guard, bind, Body.bind, pure, pvtReason,
      getRec, setRec, errlogPrintf, callRead, callUpdate, callTotal, recGblSetSevr, dbCommon.recGblSetSevr,
      DbRecord.common, DbRecord.setCommon, Frame.toWorld, h2, h3, ht] <;> omega

/-- C3: a std::exception thrown inside the TRY block of a routine, whatever the
block is, does not leave the routine: the routine returns 1 and COMM_ALARM with
INVALID_ALARM severity is raised on that record. In particular, when a connector
operation called in opcua_read_int32_val or opcua_write_int32_val throws a
std::exception (readInt32, or checkReadStatus after a successful read, on
incoming data; checkWriteStatus on write completion; writeInt32 on a write), the
routine returns 1, the alarm is raised, the error is reported and the lock is
released. -/
theorem std_exception_is_caught {σ : Type} (ops : ConnectorOps σ) (now : epicsTimeStamp)
    (pvt : RecordConnector σ) (what : String) :
    (∀ (R : Type) [DbRecord R] (recName : R → String) (w : World R σ) (body : Body (Frame R σ) Int)
        (f : Frame R σ), w.dpvt = some pvt →
      body { prec := w.prec, pvt := pvt, calls := w.calls, console := w.console }
        = (Except.error (Thrown.stdException what), f) →
      (TRY_CATCH recName w body).1 = Except.ok 1
      ∧ (TRY_CATCH recName w body).2.prec = recGblSetSevr f.prec COMM_ALARM INVALID_ALARM
      ∧ (TRY_CATCH recName w body).2.console = f.console ++ [Diag.error (recName f.prec) what])
    ∧ (∀ w : World longinRecord σ, w.dpvt = some pvt →
      (pvt.reason = ProcessReason.incomingData ∨ pvt.reason = ProcessReason.readComplete) →
      (ops.readInt32 pvt.elem = Except.error (Thrown.stdException what)
        ∨ ((∃ v, ops.readInt32 pvt.elem = Except.ok v)
            ∧ ops.checkReadStatus pvt.elem = Except.error (Thrown.stdException what))) →
      caughtOutcome w pvt what (opcua_read_int32_val ops now w))
    ∧ (∀ w : World longoutRecord σ, w.dpvt = some pvt →
      (((pvt.reason = ProcessReason.incomingData ∨ pvt.reason = ProcessReason.readComplete)
          ∧ (ops.readInt32 pvt.elem = Except.error (Thrown.stdException what)
            ∨ ((∃ v, ops.readInt32 pvt.elem = Except.ok v)
                ∧ ops.checkReadStatus pvt.elem = Except.error (Thrown.stdException what))))
        ∨ (pvt.reason = ProcessReason.writeComplete
            ∧ ops.checkWriteStatus pvt.elem = Except.error (Thrown.stdException what))
        ∨ (pvt.reason = ProcessReason.none
            ∧ ops.writeInt32 w.prec.val pvt.elem = Except.error (Thrown.stdException what))) →
      caughtOutcome w pvt what (opcua_write_int32_val ops now w)) :=
  ⟨fun R _ recName w body f hb hbody => by simp [TRY_CATCH, hb, hbody],
   fun w hb hr ht => opcua_read_int32_val_caught ops now w pvt what hb hr ht,
   fun w hb ht => opcua_write_int32_val_caught ops now w pvt what hb ht⟩

/-- Witness for C3: readInt32 on an empty incoming slot throws; the longin record
processed for incoming data returns 1. -/
theorem std_exception_is_caught_witness :
    byteLeafOps.readInt32 (exConnector ProcessReason.incomingData none).elem
        = Except.error (Thrown.stdException "no incoming data")
    ∧ caughtOutcome (exLongin ProcessReason.incomingData none)
        (exConnector ProcessReason.incomingData none) "no incoming data"
        (opcua_read_int32_val byteLeafOps exNow (exLongin ProcessReason.incomingData none)) :=
  ⟨rfl,
   (std_exception_is_caught byteLeafOps exNow (exConnector ProcessReason.incomingData none)
      "no incoming data").2.1 (exLongin ProcessReason.incomingData none) rfl (Or.inl rfl) (Or.inl rfl)⟩

/-! ## Requests -/

/-- C4: opcua_read_int32_val on a bound record whose reason is none of
incomingData, readComplete, connectionLoss: the routine takes the lock, calls
requestOpcuaRead once and releases the lock, with no other call (no read, no
clearing of the incoming slot, nothing that waits); PACT becomes true, every
other field of the record, VAL included, is unchanged, and the routine returns 0. -/
theorem read_int32_other_reason_requests_read {σ : Type} (ops : ConnectorOps σ) (now : epicsTimeStamp)
    (w : World longinRecord σ) (pvt : RecordConnector σ)
    (hb : w.dpvt = some pvt)
    (h1 : pvt.reason ≠ ProcessReason.incomingData) (h2 : pvt.reason ≠ ProcessReason.readComplete)
    (h3 : pvt.reason ≠ ProcessReason.connectionLoss) :
    (opcua_read_int32_val ops now w).1 = Except.ok 0
    ∧ (opcua_read_int32_val ops now w).2.prec = { w.prec with pact := true }
    ∧ (opcua_read_int32_val ops now w).2.prec.pact = true
    ∧ (opcua_read_int32_val ops now w).2.prec.val = w.prec.val
    ∧ newCalls w (opcua_read_int32_val ops now w) = [Call.lock, Call.requestOpcuaRead, Call.unlock]
    ∧ (opcua_read_int32_val ops now w).2.dpvt = some { pvt with elem := ops.requestOpcuaRead pvt.elem }
    ∧ (opcua_read_int32_val ops now w).2.console = w.console := by
  obtain ⟨reason, lock, scanned, scanpvt, elem⟩ := pvt
  obtain ⟨prec, dpvt, calls, console⟩ := w
  simp only at hb h1 h2 h3
  subst hb
  cases reason <;>
  simp_all [newCalls, opcua_read_int32_val, TRY_CATCH, Guard, bind, Body.bind, pure, pvtReason,
    getRec, setRec, errlogPrintf, callRead, callUpdate, callTotal, recGblSetSevr, dbCommon.recGblSetSevr,
    DbRecord.common, DbRecord.setCommon, Frame.toWorld]

/-- C5 (amended): opcua_write_int32_val on a bound record whose reason is none of
incomingData, readComplete, writeComplete, connectionLoss, when writeInt32 does
not throw: the routine calls writeInt32 with the record's VAL and then
requestOpcuaWrite, once each and in that order, with no read or clearing of the
incoming slot; PACT becomes true, every other field of the record, VAL included,
is unchanged, and the routine returns 0. -/
theorem write_int32_other_reason_writes_then_requests {σ : Type} (ops : ConnectorOps σ)
    (now : epicsTimeStamp) (w : World longoutRecord σ) (pvt : RecordConnector σ) (e1 : σ)
    (hb : w.dpvt = some pvt)
    (h1 : pvt.reason ≠ ProcessReason.incomingData) (h2 : pvt.reason ≠ ProcessReason.readComplete)
    (h3 : pvt.reason ≠ ProcessReason.writeComplete) (h4 : pvt.reason ≠ ProcessReason.connectionLoss)
    (hwrite : ops.writeInt32 w.prec.val pvt.elem = Except.ok e1) :
    (opcua_write_int32_val ops now w).1 = Except.ok 0
    ∧ (opcua_write_int32_val ops now w).2.prec = { w.prec with pact := true }
    ∧ (opcua_write_int32_val ops now w).2.prec.pact = true
    ∧ (opcua_write_int32_val ops now w).2.prec.val = w.prec.val
    ∧ newCalls w (opcua_write_int32_val ops now w)
        = [Call.lock, Call.writeInt32 w.prec.val, Call.requestOpcuaWrite, Call.unlock]
    ∧ (opcua_write_int32_val ops now w).2.dpvt = some { pvt with elem := ops.requestOpcuaWrite e1 } := by
  obtain ⟨reason, lock, scanned, scanpvt, elem⟩ := pvt
  obtain ⟨prec, dpvt, calls, console⟩ := w
  simp only at hb h1 h2 h3 h4 hwrite
  subst hb
  have hnone : reason = ProcessReason.none := by cases reason <;> simp_all
  subst hnone
  by_cases ht : 1 < prec.tpro <;>
  simp [hwrite, ht, newCalls, opcua_write_int32_val, TRY_CATCH, Guard, bind, Body.bind, pure, pvtReason,
    getRec, setRec, errlogPrintf, callRead, callUpdate, callTotal, recGblSetSevr, dbCommon.recGblSetSevr,
    DbRecord.common, DbRecord.setCommon, Frame.toWorld]

/-- C5 (counterexample): a longout record with VAL 300 on a leaf of native type
Byte, processed for a write: writeInt32 throws a conversion error, so the routine
returns 1, PACT stays false and requestOpcuaWrite is not called. -/
theorem write_int32_conversion_error_no_request :
    (exConnector ProcessReason.none none).reason = ProcessReason.none
    ∧ (opcua_write_int32_val byteLeafOps exNow (exLongout ProcessReason.none none 300)).1 = Except.ok 1
    ∧ (opcua_write_int32_val byteLeafOps exNow (exLongout ProcessReason.none none 300)).2.prec.pact = false
    ∧ newCalls (exLongout ProcessReason.none none 300)
        (opcua_write_int32_val byteLeafOps exNow (exLongout ProcessReason.none none 300))
        = [Call.lock, Call.writeInt32 300, Call.unlock] := by
  exact ⟨rfl, rfl, rfl, rfl⟩

/-- Witness for C4: a longin record processed with no reason set. -/
theorem read_int32_other_reason_requests_read_witness :
    (exConnector ProcessReason.none (some 7)).reason ≠ ProcessReason.incomingData
    ∧ (opcua_read_int32_val byteLeafOps exNow (exLongin ProcessReason.none (some 7))).1 = Except.ok 0
    ∧ (opcua_read_int32_val byteLeafOps exNow (exLongin ProcessReason.none (some 7))).2.prec.pact = true :=
  ⟨by decide,
   (read_int32_other_reason_requests_read byteLeafOps exNow (exLongin ProcessReason.none (some 7))
      (exConnector ProcessReason.none (some 7)) rfl (by decide) (by decide) (by decide)).1,
   (read_int32_other_reason_requests_read byteLeafOps exNow (exLongin ProcessReason.none (some 7))
      (exConnector ProcessReason.none (some 7)) rfl (by decide) (by decide) (by decide)).2.2.1⟩

/-- Witness for C5 (amended): a longout record with VAL 9 on a leaf of native type Byte. -/
theorem write_int32_other_reason_writes_then_requests_witness :
    byteLeafOps.writeInt32 9 (exConnector ProcessReason.none none).elem
        = Except.ok { incoming := none, outgoing := some 9, readRequests := 0, writeRequests := 0 }
    ∧ (opcua_write_int32_val byteLeafOps exNow (exLongout ProcessReason.none none 9)).1 = Except.ok 0
    ∧ newCalls (exLongout ProcessReason.none none 9)
        (opcua_write_int32_val byteLeafOps exNow (exLongout ProcessReason.none none 9))
        = [Call.lock, Call.writeInt32 9, Call.requestOpcuaWrite, Call.unlock] :=
  ⟨rfl,
   (write_int32_other_reason_writes_then_requests byteLeafOps exNow (exLongout ProcessReason.none none 9)
      (exConnector ProcessReason.none none)
      { incoming := none, outgoing := some 9, readRequests := 0, writeRequests := 0 }
      rfl (by decide) (by decide) (by decide) (by decide) rfl).1,
   (write_int32_other_reason_writes_then_requests byteLeafOps exNow (exLongout ProcessReason.none none 9)
      (exConnector ProcessReason.none none)
      { incoming := none, outgoing := some 9, readRequests := 0, writeRequests := 0 }
      rfl (by decide) (by decide) (by decide) (by decide) rfl).2.2.2.2.1⟩

/-! ## Dispatch on the reason -/

/-- C6: opcua_write_int32_val on a bound record takes exactly one of four actions,
told apart by the calls it makes: reading the value back (incomingData,
readComplete), only checkWriteStatus (writeComplete), no call on the leaf at all
(connectionLoss), or writeInt32 with VAL (no reason). On writeComplete, when
checkWriteStatus does not throw, the routine returns 0, makes no other call (no
read, no clearing, no write, no request) and leaves the whole record, VAL and PACT
included, unchanged. -/
theorem write_int32_reason_dispatch {σ : Type} (ops : ConnectorOps σ) (now : epicsTimeStamp)
    (w : World longoutRecord σ) (pvt : RecordConnector σ) (hb : w.dpvt = some pvt) :
    ((pvt.reason = ProcessReason.incomingData ∨ pvt.reason = ProcessReason.readComplete)
        ↔ (newCalls w (opcua_write_int32_val ops now w))[1]? = some Call.readInt32)
    ∧ (pvt.reason = ProcessReason.writeComplete
        ↔ newCalls w (opcua_write_int32_val ops now w) = [Call.lock, Call.checkWriteStatus, Call.unlock])
    ∧ (pvt.reason = ProcessReason.connectionLoss
        ↔ newCalls w (opcua_write_int32_val ops now w) = [Call.lock, Call.unlock])
    ∧ (pvt.reason = ProcessReason.none
        ↔ (newCalls w (opcua_write_int32_val ops now w))[1]? = some (Call.writeInt32 w.prec.val))
    ∧ (pvt.reason = ProcessReason.writeComplete →
        ∀ e1, ops.checkWriteStatus pvt.elem = Except.ok e1 →
          (opcua_write_int32_val ops now w).1 = Except.ok 0
          ∧ (opcua_write_int32_val ops now w).2.prec = w.prec
          ∧ (opcua_write_int32_val ops now w).2.dpvt = some { pvt with elem := e1 }
          ∧ (opcua_write_int32_val ops now w).2.console = w.console) := by
  obtain ⟨reason, lock, scanned, scanpvt, elem⟩ := pvt
  obtain ⟨prec, dpvt, calls, console⟩ := w
  simp only at hb
  subst hb
  cases reason
  · -- none: the value is written, then the write is requested
    by_cases ht : 1 < prec.tpro <;> rcases hw : ops.writeInt32 prec.val elem with (_ | _) | _ <;>
    simp [hw, ht, newCalls, opcua_write_int32_val, TRY_CATCH, Guard, bind, Body.bind, pure, pvtReason,
      getRec, setRec, errlogPrintf, callRead, callUpdate, callTotal, recGblSetSevr, dbCommon.recGblSetSevr,
      DbRecord.common, DbRecord.setCommon, Frame.toWorld]
  · -- incomingData: the value is read back
    by_cases h1 : prec.tse = epicsTimeEventDeviceTime <;> by_cases ht : 1 < prec.tpro <;>
    rcases hv : ops.readInt32 elem with (_ | _) | _ <;>
    rcases hc : ops.checkReadStatus elem with (_ | _) | _ <;>
    simp [hv, hc, h1, ht, newCalls, opcua_write_int32_val, TRY_CATCH, Guard, bind, Body.bind, pure, pvtReason,
      getRec, setRec, errlogPrintf, callRead, callUpdate, callTotal, recGblSetSevr, dbCommon.recGblSetSevr,
      DbRecord.common, DbRecord.setCommon, Frame.toWorld]
  · -- connectionLoss: the alarm is raised
    by_cases h1 : prec.tse = epicsTimeEventDeviceTime <;> by_cases ht : 1 < prec.tpro <;>
    by_cases h3 : prec.nsev < INVALID_ALARM <;>
    simp [h1, ht, h3, newCalls, opcua_write_int32_val, TRY_CATCH, Guard, bind, Body.bind, pure, pvtReason,
      getRec, setRec, errlogPrintf, callRead, callUpdate, callTotal, recGblSetSevr, dbCommon.recGblSetSevr,
      DbRecord.common, DbRecord.setCommon, Frame.toWorld]
  · -- readComplete: the value is read back
    by_cases h1 : prec.tse = epicsTimeEventDeviceTime <;> by_cases ht : 1 < prec.tpro <;>
    rcases hv : ops.readInt32 elem with (_ | _) | _ <;>
    rcases hc : ops.checkReadStatus elem with (_ | _) | _ <;>
    simp [hv, hc, h1, ht, newCalls, opcua_write_int32_val, TRY_CATCH, Guard, bind, Body.bind, pure, pvtReason,
      getRec, setRec, errlogPrintf, callRead, callUpdate, callTotal, recGblSetSevr, dbCommon.recGblSetSevr,
      DbRecord.common, DbRecord.setCommon, Frame.toWorld]
  · -- writeComplete: the status of the write is checked
    rcases hc : ops.checkWriteStatus elem with (_ | _) | _ <;>
    simp [hc, newCalls, opcua_write_int32_val, TRY_CATCH, Guard, bind, Body.bind, pure, pvtReason,
      getRec, setRec, errlogPrintf, callRead, callUpdate, callTotal, recGblSetSevr, dbCommon.recGblSetSevr,
      DbRecord.common, DbRecord.setCommon, Frame.toWorld]

/-- Witness for C6: a longout record processed on write completion. -/
theorem write_int32_reason_dispatch_witness :
    (exLongout ProcessReason.writeComplete none 9).dpvt = some (exConnector ProcessReason.writeComplete none)
    ∧ newCalls (exLongout ProcessReason.writeComplete none 9)
        (opcua_write_int32_val byteLeafOps exNow (exLongout ProcessReason.writeComplete none 9))
        = [Call.lock, Call.checkWriteStatus, Call.unlock] :=
  ⟨rfl,
   (write_int32_reason_dispatch byteLeafOps exNow (exLongout ProcessReason.writeComplete none 9)
      (exConnector ProcessReason.writeComplete none) rfl).2.1.1 rfl⟩

/-! ## Decomposition of incoming values -/

theorem setIncomingChildren_eq_map (es : List DataElementUaSdk) (m : List (Nat × String))
    (fs : List (String × UaVariant)) :
    setIncomingChildren es m fs = es.map (fun c => c.setIncomingData (childValue m fs c.name)) := by
  induction es with
  | nil => simp [setIncomingChildren]
  | cons c cs ih => simp [setIncomingChildren, ih]

theorem setIncomingData_name (e : DataElementUaSdk) (v : UaVariant) :
    (e.setIncomingData v).name = e.name := by
  obtain ⟨name, pc, es, em, mp, inc, ty, arr, out, ok⟩ := e
  cases pc <;> simp [DataElementUaSdk.setIncomingData]

theorem setIncomingData_node_elements (e : DataElementUaSdk) (v : UaVariant) (h : e.pconnector = none) :
    (e.setIncomingData v).elements = e.elements.map (fun c => c.setIncomingData
      (childValue (nodeMap e.mapped e.elementMap (e.elements.map (·.name)) (fieldsOf v)) (fieldsOf v)
        c.name)) := by
  obtain ⟨name, pc, es, em, mp, inc, ty, arr, out, ok⟩ := e
  simp only at h
  subst h
  simp [DataElementUaSdk.setIncomingData, setIncomingChildren_eq_map]

theorem setIncomingData_leaf (e : DataElementUaSdk) (v : UaVariant) (h : e.isLeaf = true) :
    (e.setIncomingData v).incomingData = v ∧ (e.setIncomingData v).incomingType = v.type
    ∧ (e.setIncomingData v).incomingIsArray = v.isArray ∧ (e.setIncomingData v).isLeaf = true
    ∧ (e.setIncomingData v).outgoingData = e.outgoingData := by
  obtain ⟨name, pc, es, em, mp, inc, ty, arr, out, ok⟩ := e
  cases pc with
  | none => simp [DataElementUaSdk.isLeaf] at h
  | some c => simp [DataElementUaSdk.setIncomingData, DataElementUaSdk.isLeaf]

theorem fieldPosition_value (n : String) (fs : List (String × UaVariant)) :
    ((fieldPosition n fs).bind fun i => fs[i]?.map (·.2)) = fieldValue n fs := by
  induction fs with
  | nil => simp [fieldPosition, fieldValue]
  | cons f fs ih =>
    by_cases h : f.1 = n
    · simp [fieldPosition, fieldValue, h]
    · have hv : fieldValue n (f :: fs) = fieldValue n fs := by simp [fieldValue, h]
      rw [hv, ← ih]
      cases hp : fieldPosition n fs <;> simp [fieldPosition, h, hp]

theorem positionOf_buildMap (n : String) (names : List String) (fs : List (String × UaVariant))
    (h : n ∈ names) : positionOf (buildMap names fs) n = fieldPosition n fs := by
  induction names with
  | nil => simp at h
  | cons a as ih =>
    by_cases ha : a = n
    · subst ha
      cases hp : fieldPosition a fs with
      | some i => simp [positionOf, buildMap, hp]
      | none =>
        by_cases hmem : a ∈ as
        · have := ih hmem
          simpa [positionOf, buildMap, hp] using this
        · have hnone : ∀ l : List String, a ∉ l → positionOf (buildMap l fs) a = none := by
            intro l hl
            induction l with
            | nil => simp [positionOf, buildMap]
            | cons b bs ihb =>
              have hb : b ≠ a := fun hba => hl (by simp [hba])
              have hbs : a ∉ bs := fun hm => hl (by simp [hm])
              have := ihb hbs
              cases hq : fieldPosition b fs <;> simp_all [positionOf, buildMap]
          simpa [positionOf, buildMap, hp] using hnone as hmem
    · have hmem : n ∈ as := by
        rcases List.mem_cons.mp h with h1 | h1
        · exact absurd h1.symm ha
        · exact h1
      have := ih hmem
      cases hq : fieldPosition a fs <;> simp_all [positionOf, buildMap]

theorem childValue_buildMap (n : String) (names : List String) (fs : List (String × UaVariant))
    (h : n ∈ names) : childValue (buildMap names fs) fs n = (fieldValue n fs).getD UaVariant.empty := by
  have h1 := positionOf_buildMap n names fs h
  have h2 := fieldPosition_value n fs
  unfold childValue
  rw [h1]
  cases hp : fieldPosition n fs with
  | none => simp [hp] at h2; simp [← h2]
  | some i => simp [hp] at h2; simp [← h2]

theorem find_map_setIncomingData (es : List DataElementUaSdk) (s : String)
    (g : String → UaVariant) :
    (es.map (fun c => c.setIncomingData (g c.name))).find? (fun c => c.name = s)
      = (es.find? (fun c => c.name = s)).map (fun c => c.setIncomingData (g c.name)) := by
  induction es with
  | nil => simp
  | cons c cs ih =>
    by_cases h : c.name = s
    · simp [List.find?, setIncomingData_name, h]
    · simp [List.find?, setIncomingData_name, h, ih]

/-- C7: round-trip decomposition. When the shape of a structured value matches
the tree along the path of a leaf, then after setIncomingData the leaf at that
path holds the value of the field at that path, with its type tag and array flag,
and readInt32 on the leaf returns the conversion of that field: the integer
itself for an integer field within the Int32 range. -/
theorem setIncomingData_roundtrip (path : List String) (e : DataElementUaSdk) (v : UaVariant)
    (h : ShapeMatchesAlong path e v) :
    ∃ leaf x, findElement path (e.setIncomingData v) = some leaf ∧ valueAt path v = some x
      ∧ leaf.isLeaf = true ∧ leaf.incomingData = x ∧ leaf.incomingType = x.type
      ∧ leaf.incomingIsArray = x.isArray ∧ leaf.readInt32 = toInt32 x
      ∧ (∀ t n, x = UaVariant.integer t n → INT32_MIN ≤ n → n ≤ INT32_MAX →
          leaf.readInt32 = Except.ok n) := by
  induction path generalizing e v with
  | nil =>
    have hl := setIncomingData_leaf e v h
    refine ⟨e.setIncomingData v, v, rfl, rfl, hl.2.2.2.1, hl.1, hl.2.1, hl.2.2.1, ?_, ?_⟩
    · simp [DataElementUaSdk.readInt32, hl.1]
    · intro t n hx h1 h2
      subst hx
      simp [DataElementUaSdk.readInt32, hl.1, toInt32, h1, h2]
  | cons s rest ih =>
    obtain ⟨hnode, hmap, c, x, hfind, hfield, hrest⟩ := h
    have hpc : e.pconnector = none := by
      cases hp : e.pconnector with
      | none => rfl
      | some k => simp [DataElementUaSdk.isLeaf, hp] at hnode
    have hname : c.name = s := by
      have := List.find?_some hfind
      simpa using this
    have hmem : s ∈ e.elements.map (·.name) := by
      have := List.mem_of_find?_eq_some hfind
      exact List.mem_map.mpr ⟨c, this, hname⟩
    have hm : nodeMap e.mapped e.elementMap (e.elements.map (·.name)) (fieldsOf v)
        = buildMap (e.elements.map (·.name)) (fieldsOf v) := by
      unfold nodeMap
      by_cases hmp : e.mapped = true
      · simp [hmp, hmap hmp]
      · simp [hmp]
    have hchild : childValue (nodeMap e.mapped e.elementMap (e.elements.map (·.name)) (fieldsOf v))
        (fieldsOf v) c.name = x := by
      rw [hm, hname, childValue_buildMap s _ _ hmem, hfield]
      rfl
    obtain ⟨leaf, y, hleaf, hval, hrest2⟩ := ih c x hrest
    refine ⟨leaf, y, ?_, ?_, hrest2⟩
    · simp only [findElement]
      rw [setIncomingData_node_elements e v hpc, find_map_setIncomingData, hfind]
      simp only [Option.map_some', Option.bind_some]
      rw [hchild]
      exact hleaf
    · simp [valueAt, hfield, hval]


/-- Witness for C7: the tree built for `status.code` and the value with
`status.code` = 7; the leaf reads 7. -/
theorem setIncomingData_roundtrip_witness :
    ShapeMatchesAlong ["status", "code"] exStatusTree exStatusValue
    ∧ ∃ leaf x, findElement ["status", "code"] (exStatusTree.setIncomingData exStatusValue) = some leaf
      ∧ valueAt ["status", "code"] exStatusValue = some x
      ∧ leaf.isLeaf = true ∧ leaf.incomingData = x ∧ leaf.incomingType = x.type
      ∧ leaf.incomingIsArray = x.isArray ∧ leaf.readInt32 = toInt32 x
      ∧ (∀ t n, x = UaVariant.integer t n → INT32_MIN ≤ n → n ≤ INT32_MAX →
          leaf.readInt32 = Except.ok n) :=
  have hshape : ShapeMatchesAlong ["status", "code"] exStatusTree exStatusValue :=
    ⟨rfl, fun h => absurd h (by decide), _, _, rfl, rfl,
      ⟨rfl, fun h => absurd h (by decide), _, _, rfl, rfl, rfl⟩⟩
  ⟨hshape, setIncomingData_roundtrip ["status", "code"] exStatusTree exStatusValue hshape⟩

/-! ## Outgoing values -/

theorem writeInt32_ok (e e1 : DataElementUaSdk) (value : Int) (h : e.writeInt32 value = Except.ok e1) :
    ∃ x, fromInt32 e.incomingType value = Except.ok x ∧ e1 = { e with outgoingData := x } := by
  unfold DataElementUaSdk.writeInt32 at h
  cases hx : fromInt32 e.incomingType value with
  | error err => simp [hx] at h
  | ok x =>
    simp only [hx, Except.ok.injEq] at h
    exact ⟨x, rfl, h.symm⟩

theorem updateChild_ok (s : String) (g : DataElementUaSdk → Except ConversionError DataElementUaSdk)
    (hg : ∀ x x1, g x = Except.ok x1 → x1.name = x.name)
    (es es1 : List DataElementUaSdk) (h : updateChild s g es = Except.ok es1) :
    (∀ t, t ≠ s → es1.find? (fun c => c.name = t) = es.find? (fun c => c.name = t))
    ∧ ((es.find? (fun c => c.name = s) = none ∧ es1 = es)
      ∨ ∃ c c1, es.find? (fun c => c.name = s) = some c ∧ g c = Except.ok c1
          ∧ es1.find? (fun c => c.name = s) = some c1) := by
  induction es generalizing es1 with
  | nil =>
    simp only [updateChild, Except.ok.injEq] at h
    subst h
    simp
  | cons x xs ih =>
    by_cases hx : x.name = s
    · simp only [updateChild, hx, if_true] at h
      cases hgx : g x with
      | error err => simp [hgx] at h
      | ok x1 =>
        simp only [hgx, Except.ok.injEq] at h
        subst h
        have hn := hg x x1 hgx
        refine ⟨?_, Or.inr ⟨x, x1, ?_, hgx, ?_⟩⟩
        · intro t ht
          have h1 : ¬ x.name = t := fun h2 => ht (h2 ▸ hx ▸ rfl)
          have h2 : ¬ x1.name = t := by rw [hn]; exact h1
          simp [List.find?, h1, h2]
        · simp [List.find?, hx]
        · simp [List.find?, hn, hx]
    · simp only [updateChild, hx, if_false] at h
      cases hr : updateChild s g xs with
      | error err => simp [hr] at h
      | ok xs1 =>
        simp only [hr, Except.ok.injEq] at h
        subst h
        obtain ⟨h1, h2⟩ := ih xs1 hr
        refine ⟨?_, ?_⟩
        · intro t ht
          by_cases hxt : x.name = t
          · simp [List.find?, hxt]
          · simp [List.find?, hxt, h1 t ht]
        · rcases h2 with ⟨h3, h4⟩ | ⟨c, c1, h3, h4, h5⟩
          · exact Or.inl ⟨by simp [List.find?, hx, h3], by rw [h4]⟩
          · exact Or.inr ⟨c, c1, by simp [List.find?, hx, h3], h4, by simp [List.find?, hx, h5]⟩

theorem updateElement_writeInt32_name (value : Int) (path : List String) (e e1 : DataElementUaSdk)
    (h : updateElement (fun l => l.writeInt32 value) path e = Except.ok e1) :
    e1.name = e.name ∧ (path ≠ [] → e1.outgoingData = e.outgoingData)
    ∧ (path = [] → e1.elements = e.elements) := by
  cases path with
  | nil =>
    simp only [updateElement] at h
    obtain ⟨x, -, hx⟩ := writeInt32_ok e e1 value h
    subst hx
    simp
  | cons s rest =>
    simp only [updateElement] at h
    cases hr : updateChild s (updateElement (fun l => l.writeInt32 value) rest) e.elements with
    | error err => simp [hr] at h
    | ok es =>
      simp only [hr, Except.ok.injEq] at h
      subst h
      simp

theorem updateElement_writeInt32_written (value : Int) (path : List String) (e e1 leaf : DataElementUaSdk)
    (hw : updateElement (fun l => l.writeInt32 value) path e = Except.ok e1)
    (hleaf : findElement path e = some leaf) :
    ∃ leaf1, leaf.writeInt32 value = Except.ok leaf1 ∧ findElement path e1 = some leaf1 := by
  induction path generalizing e e1 with
  | nil =>
    simp only [findElement, Option.some.injEq] at hleaf
    subst hleaf
    exact ⟨e1, hw, rfl⟩
  | cons s rest ih =>
    simp only [updateElement] at hw
    cases hr : updateChild s (updateElement (fun l => l.writeInt32 value) rest) e.elements with
    | error err => simp [hr] at hw
    | ok es =>
      simp only [hr, Except.ok.injEq] at hw
      subst hw
      obtain ⟨-, h2⟩ := updateChild_ok s _
        (fun x x1 hx => (updateElement_writeInt32_name value rest x x1 hx).1) e.elements es hr
      simp only [findElement] at hleaf ⊢
      rcases h2 with ⟨h3, -⟩ | ⟨c, c1, h3, h4, h5⟩
      · simp [h3] at hleaf
      · rw [h3] at hleaf
        rw [h5]
        exact ih c c1 h4 hleaf

theorem updateElement_writeInt32_frame (value : Int) (path : List String) (e e1 : DataElementUaSdk)
    (hw : updateElement (fun l => l.writeInt32 value) path e = Except.ok e1)
    (q : List String) (hq : q ≠ path) :
    (findElement q e1).map (·.getOutgoingData) = (findElement q e).map (·.getOutgoingData) := by
  induction path generalizing e e1 q with
  | nil =>
    obtain ⟨-, -, h3⟩ := updateElement_writeInt32_name value [] e e1 hw
    cases q with
    | nil => exact absurd rfl hq
    | cons t q1 => simp [findElement, h3 rfl]
  | cons s rest ih =>
    obtain ⟨-, h2, -⟩ := updateElement_writeInt32_name value (s :: rest) e e1 hw
    simp only [updateElement] at hw
    cases hr : updateChild s (updateElement (fun l => l.writeInt32 value) rest) e.elements with
    | error err => simp [hr] at hw
    | ok es =>
      simp only [hr, Except.ok.injEq] at hw
      subst hw
      obtain ⟨h4, h5⟩ := updateChild_ok s _
        (fun x x1 hx => (updateElement_writeInt32_name value rest x x1 hx).1) e.elements es hr
      cases q with
      | nil => simp [findElement, DataElementUaSdk.getOutgoingData]
      | cons t q1 =>
        simp only [findElement]
        by_cases hts : t = s
        · subst hts
          have hq1 : q1 ≠ rest := fun h => hq (by rw [h])
          rcases h5 with ⟨-, h6⟩ | ⟨c, c1, h6, h7, h8⟩
          · rw [h6]
          · rw [h6, h8]
            exact ih c c1 h7 q1 hq1
        · rw [h4 t hts]

/-- C8 (amended): getOutgoingData returns the element's own outgoing slot and
composes nothing: it does not depend on the children of the element. After
writeInt32 on the leaf at a path, getOutgoingData on that leaf is the value
written (converted to the native type of the leaf), and on every other element of
the tree, the nodes above the leaf included, it is what it was before. -/
theorem getOutgoingData_own_slot (value : Int) (path : List String) (e e1 leaf : DataElementUaSdk)
    (hw : updateElement (fun l => l.writeInt32 value) path e = Except.ok e1)
    (hleaf : findElement path e = some leaf) :
    (∀ (d : DataElementUaSdk) (children : List DataElementUaSdk),
        ({ d with elements := children } : DataElementUaSdk).getOutgoingData = d.getOutgoingData)
    ∧ (∃ leaf1 x, findElement path e1 = some leaf1 ∧ fromInt32 leaf.incomingType value = Except.ok x
        ∧ leaf1.getOutgoingData = x)
    ∧ (∀ q, q ≠ path →
        (findElement q e1).map (·.getOutgoingData) = (findElement q e).map (·.getOutgoingData)) := by
  refine ⟨fun d children => rfl, ?_, fun q hq => updateElement_writeInt32_frame value path e e1 hw q hq⟩
  obtain ⟨leaf1, h1, h2⟩ := updateElement_writeInt32_written value path e e1 leaf hw hleaf
  obtain ⟨x, hx, hl⟩ := writeInt32_ok leaf leaf1 value h1
  exact ⟨leaf1, x, h2, hx, by rw [hl]; rfl⟩

/-- C8 (counterexample): in the tree built for the path `a`, after the delivery
of `a` = 3 and the write of 5 to the leaf `a`, getOutgoingData on the root node
is the empty value, while the value composed bottom-up from the children is the
record with field `a` = 5. -/
theorem getOutgoingData_not_composed :
    ((updateElement (fun l => l.writeInt32 5) ["a"] exFieldTree).toOption.map
        (·.getOutgoingData)) = some UaVariant.empty
    ∧ ((updateElement (fun l => l.writeInt32 5) ["a"] exFieldTree).toOption.map composeOutgoing)
        = some (UaVariant.record [("a", UaVariant.integer OpcUa_BuiltInType.Int32 5)])
    ∧ ((updateElement (fun l => l.writeInt32 5) ["a"] exFieldTree).toOption.map
        (·.getOutgoingData))
      ≠ ((updateElement (fun l => l.writeInt32 5) ["a"] exFieldTree).toOption.map composeOutgoing) := by
  have h1 : ((updateElement (fun l => l.writeInt32 5) ["a"] exFieldTree).toOption.map
        (·.getOutgoingData)) = some UaVariant.empty := rfl
  have h2 : ((updateElement (fun l => l.writeInt32 5) ["a"] exFieldTree).toOption.map composeOutgoing)
        = some (UaVariant.record [("a", UaVariant.integer OpcUa_BuiltInType.Int32 5)]) := rfl
  refine ⟨h1, h2, ?_⟩
  rw [h1, h2]
  simp

/-- Witness for C8 (amended): the write of 5 to the leaf `a` of the example tree. -/
theorem getOutgoingData_own_slot_witness :
    (∃ e1 leaf, updateElement (fun l => l.writeInt32 5) ["a"] exFieldTree = Except.ok e1
      ∧ findElement ["a"] exFieldTree = some leaf
      ∧ (∃ leaf1 x, findElement ["a"] e1 = some leaf1 ∧ fromInt32 leaf.incomingType 5 = Except.ok x
          ∧ leaf1.getOutgoingData = x)
      ∧ (∀ q, q ≠ ["a"] →
          (findElement q e1).map (·.getOutgoingData)
            = (findElement q exFieldTree).map (·.getOutgoingData))) :=
  ⟨_, _, rfl, rfl,
    (getOutgoingData_own_slot 5 ["a"] exFieldTree _ _ rfl rfl).2.1,
    (getOutgoingData_own_slot 5 ["a"] exFieldTree _ _ rfl rfl).2.2⟩


/-! ## The chain builder -/

theorem newChain_name (c : Nat) (n : String) (rest : List String) : (newChain c n rest).name = n := by
  cases rest <;> simp [newChain, newLeaf, newNode]

theorem insertChain_name (c : Nat) (segs : List String) (e e1 : DataElementUaSdk)
    (h : insertChain c segs e = Except.ok e1) : e1.name = e.name ∧ e1.pconnector = e.pconnector := by
  cases segs with
  | nil =>
    simp only [insertChain] at h
    cases hp : e.pconnector with
    | none => simp [hp] at h
    | some k =>
      by_cases hk : k = c
      · simp only [hp, hk, if_true, Except.ok.injEq] at h
        subst h
        exact ⟨rfl, hp⟩
      · simp [hp, hk] at h
  | cons s rest =>
    simp only [insertChain] at h
    cases hp : e.pconnector with
    | some k => simp [hp] at h
    | none =>
      simp only [hp] at h
      cases hr : insertChild s (insertChain c rest) (newChain c s rest) e.elements with
      | error err => simp [hr] at h
      | ok es =>
        simp only [hr, Except.ok.injEq] at h
        subst h
        exact ⟨rfl, rfl⟩

theorem insertChain_newChain (c : Nat) (n : String) (rest : List String) :
    insertChain c rest (newChain c n rest) = Except.ok (newChain c n rest) := by
  induction rest generalizing n with
  | nil => simp [insertChain, newChain, newLeaf]
  | cons s r ih =>
    simp [insertChain, newChain, newNode, insertChild, newChain_name, ih s]

theorem insertChild_idem (s : String) (g : DataElementUaSdk → Except ChainError DataElementUaSdk)
    (missing : DataElementUaSdk)
    (hg : ∀ x x1, g x = Except.ok x1 → g x1 = Except.ok x1 ∧ x1.name = x.name)
    (hm : g missing = Except.ok missing) (hn : missing.name = s)
    (es es1 : List DataElementUaSdk) (h : insertChild s g missing es = Except.ok es1) :
    insertChild s g missing es1 = Except.ok es1 := by
  induction es generalizing es1 with
  | nil =>
    simp only [insertChild, Except.ok.injEq] at h
    subst h
    simp [insertChild, hn, hm]
  | cons x xs ih =>
    by_cases hx : x.name = s
    · simp only [insertChild, hx, if_true] at h
      cases hgx : g x with
      | error err => simp [hgx] at h
      | ok x1 =>
        simp only [hgx, Except.ok.injEq] at h
        subst h
        obtain ⟨h1, h2⟩ := hg x x1 hgx
        simp [insertChild, h2, hx, h1]
    · simp only [insertChild, hx, if_false] at h
      cases hr : insertChild s g missing xs with
      | error err => simp [hr] at h
      | ok xs1 =>
        simp only [hr, Except.ok.injEq] at h
        subst h
        simp [insertChild, hx, ih xs1 hr]

theorem insertChain_idem (c : Nat) (segs : List String) (e e1 : DataElementUaSdk)
    (h : insertChain c segs e = Except.ok e1) : insertChain c segs e1 = Except.ok e1 := by
  induction segs generalizing e e1 with
  | nil =>
    have h0 := h
    simp only [insertChain] at h
    cases hp : e.pconnector with
    | none => simp [hp] at h
    | some k =>
      by_cases hk : k = c
      · simp only [hp, hk, if_true, Except.ok.injEq] at h
        subst h
        exact h0
      · simp [hp, hk] at h
  | cons s rest ih =>
    have hpc := (insertChain_name c (s :: rest) e e1 h).2
    simp only [insertChain] at h
    cases hp : e.pconnector with
    | some k => simp [hp] at h
    | none =>
      simp only [hp] at h
      cases hr : insertChild s (insertChain c rest) (newChain c s rest) e.elements with
      | error err => simp [hr] at h
      | ok es =>
        simp only [hr, Except.ok.injEq] at h
        subst h
        have := insertChild_idem s (insertChain c rest) (newChain c s rest)
          (fun x x1 hx => ⟨ih x x1 hx, (insertChain_name c rest x x1 hx).1⟩)
          (insertChain_newChain c s rest) (newChain_name c s rest) e.elements es hr
        simp [insertChain, hp, this]

theorem insertChild_shape (s : String) (g : DataElementUaSdk → Except ChainError DataElementUaSdk)
    (missing : DataElementUaSdk) (es es1 : List DataElementUaSdk)
    (h : insertChild s g missing es = Except.ok es1) :
    (es.filter (fun c => c.name = s) = [] ∧ es1 = es ++ [missing])
    ∨ ∃ pre x x1 post, es = pre ++ x :: post ∧ pre.filter (fun c => c.name = s) = [] ∧ x.name = s
        ∧ g x = Except.ok x1 ∧ es1 = pre ++ x1 :: post := by
  induction es generalizing es1 with
  | nil =>
    simp only [insertChild, Except.ok.injEq] at h
    subst h
    exact Or.inl ⟨rfl, rfl⟩
  | cons y ys ih =>
    by_cases hy : y.name = s
    · simp only [insertChild, hy, if_true] at h
      cases hgy : g y with
      | error err => simp [hgy] at h
      | ok y1 =>
        simp only [hgy, Except.ok.injEq] at h
        subst h
        exact Or.inr ⟨[], y, y1, ys, rfl, rfl, hy, hgy, rfl⟩
    · simp only [insertChild, hy, if_false] at h
      cases hr : insertChild s g missing ys with
      | error err => simp [hr] at h
      | ok ys1 =>
        simp only [hr, Except.ok.injEq] at h
        subst h
        rcases ih ys1 hr with ⟨h1, h2⟩ | ⟨pre, x, x1, post, h1, h2, h3, h4, h5⟩
        · exact Or.inl ⟨by simp [List.filter, hy, h1], by rw [h2]; rfl⟩
        · exact Or.inr ⟨y :: pre, x, x1, post, by rw [h1]; rfl, by simp [List.filter, hy, h2], h3, h4,
            by rw [h5]; rfl⟩

theorem newChain_unambiguous (c : Nat) (n : String) (rest : List String) :
    Unambiguous (newChain c n rest) := by
  induction rest generalizing n with
  | nil =>
    intro q
    cases q <;> simp [elementsAt, newChain, newLeaf]
  | cons s r ih =>
    intro q
    cases q with
    | nil => simp [elementsAt]
    | cons t q1 =>
      by_cases hts : s = t
      · have := ih s q1
        simpa [elementsAt, newChain, newNode, List.filter, newChain_name, hts] using this
      · simp [elementsAt, newChain, newNode, List.filter, newChain_name, hts]

theorem newChain_leaf (c : Nat) (n : String) (rest : List String) :
    ∃ l, elementsAt rest (newChain c n rest) = [l] ∧ l.pconnector = some c := by
  induction rest generalizing n with
  | nil => exact ⟨newLeaf n c, rfl, rfl⟩
  | cons s r ih =>
    obtain ⟨l, h1, h2⟩ := ih s
    exact ⟨l, by simp [elementsAt, newChain, newNode, List.filter, newChain_name, h1], h2⟩

theorem unambiguous_child (e x : DataElementUaSdk) (s : String) (pre post : List DataElementUaSdk)
    (hu : Unambiguous e) (hes : e.elements = pre ++ x :: post)
    (hpre : pre.filter (fun c => c.name = s) = []) (hx : x.name = s) :
    post.filter (fun c => c.name = s) = [] ∧ Unambiguous x := by
  have hf : e.elements.filter (fun c => c.name = s) = x :: post.filter (fun c => c.name = s) := by
    rw [hes, List.filter_append, hpre]
    simp [List.filter, hx]
  have h1 := hu [s]
  simp only [elementsAt, hf] at h1
  have hpost : post.filter (fun c => c.name = s) = [] := by
    cases hp : post.filter (fun c => c.name = s) with
    | nil => rfl
    | cons a as => simp [hp] at h1
  refine ⟨hpost, fun q => ?_⟩
  have h2 := hu (s :: q)
  simpa [elementsAt, hf, hpost] using h2

theorem insertChain_elementsAt (c : Nat) (segs : List String) (e e1 : DataElementUaSdk)
    (hu : Unambiguous e) (h : insertChain c segs e = Except.ok e1) :
    Unambiguous e1 ∧ ∃ l, elementsAt segs e1 = [l] ∧ l.pconnector = some c := by
  induction segs generalizing e e1 with
  | nil =>
    simp only [insertChain] at h
    cases hp : e.pconnector with
    | none => simp [hp] at h
    | some k =>
      by_cases hk : k = c
      · simp only [hp, hk, if_true, Except.ok.injEq] at h
        subst h
        exact ⟨hu, e, rfl, by rw [hp, hk]⟩
      · simp [hp, hk] at h
  | cons s rest ih =>
    simp only [insertChain] at h
    cases hp : e.pconnector with
    | some k => simp [hp] at h
    | none =>
      simp only [hp] at h
      cases hr : insertChild s (insertChain c rest) (newChain c s rest) e.elements with
      | error err => simp [hr] at h
      | ok es =>
        simp only [hr, Except.ok.injEq] at h
        subst h
        rcases insertChild_shape s _ _ _ _ hr with ⟨h1, h2⟩ | ⟨pre, x, x1, post, h1, h2, h3, h4, h5⟩
        · -- no child with the name: the missing chain is appended
          have hfs : es.filter (fun c => c.name = s) = [newChain c s rest] := by
            rw [h2, List.filter_append, h1]
            simp [List.filter, newChain_name]
          have hft : ∀ t, t ≠ s → es.filter (fun c => c.name = t)
              = e.elements.filter (fun c => c.name = t) := by
            intro t ht
            rw [h2, List.filter_append]
            have : ¬ s = t := fun h => ht h.symm
            simp [List.filter, newChain_name, this]
          refine ⟨fun q => ?_, ?_⟩
          · cases q with
            | nil => simp [elementsAt]
            | cons t q1 =>
              by_cases hts : t = s
              · subst hts
                have := newChain_unambiguous c t rest q1
                simpa [elementsAt, hfs] using this
              · have := hu (t :: q1)
                simpa [elementsAt, hft t hts] using this
          · obtain ⟨l, hl1, hl2⟩ := newChain_leaf c s rest
            exact ⟨l, by simp [elementsAt, hfs, hl1], hl2⟩
        · -- the first child with the name is walked further
          obtain ⟨hpost, hux⟩ := unambiguous_child e x s pre post hu h1 h2 h3
          have hx1 : x1.name = s := by rw [(insertChain_name c rest x x1 h4).1, h3]
          obtain ⟨hux1, l, hl1, hl2⟩ := ih x x1 hux h4
          have hfs : es.filter (fun c => c.name = s) = [x1] := by
            rw [h5, List.filter_append, h2]
            simp [List.filter, hx1, hpost]
          have hft : ∀ t, t ≠ s → es.filter (fun c => c.name = t)
              = e.elements.filter (fun c => c.name = t) := by
            intro t ht
            have hxt : ¬ x.name = t := fun h => ht (by rw [← h, h3])
            have hx1t : ¬ x1.name = t := fun h => ht (by rw [← h, hx1])
            rw [h5, h1, List.filter_append, List.filter_append]
            simp [List.filter, hxt, hx1t]
          refine ⟨fun q => ?_, ?_⟩
          · cases q with
            | nil => simp [elementsAt]
            | cons t q1 =>
              by_cases hts : t = s
              · subst hts
                have := hux1 q1
                simpa [elementsAt, hfs] using this
              · have := hu (t :: q1)
                simpa [elementsAt, hft t hts] using this
          · exact ⟨l, by simp [elementsAt, hfs, hl1], hl2⟩

theorem elementsAt_append (q r : List String) (e : DataElementUaSdk) :
    elementsAt (q ++ r) e = (elementsAt q e).flatMap (elementsAt r) := by
  induction q generalizing e with
  | nil => simp [elementsAt]
  | cons s q1 ih =>
    simp only [List.cons_append, elementsAt]
    generalize e.elements.filter (fun c => c.name = s) = l
    induction l with
    | nil => simp
    | cons a as iha =>
      have iha2 : as.flatMap (elementsAt (q1 ++ r)) = (as.flatMap (elementsAt q1)).flatMap (elementsAt r) :=
        iha
      simp [List.flatMap_cons, ih a, iha2]

/-- C9: chain idempotence. On an item whose tree has no ambiguous path (sibling
names are distinct, as in every tree the chain builder has built), when
addElementChain(item, c, p) succeeds, a second call with the same consumer and
path succeeds and changes nothing; the tree then has exactly one element at p, a
leaf bound to c, exactly one element at every prefix of p (the nodes already
built are walked, not built again), and still no ambiguous path. -/
theorem addElementChain_idempotent (item item1 : ItemUaSdk) (c : Nat) (path : String)
    (hu : ∀ root, item.rootElement = some root → Unambiguous root)
    (h : addElementChain item c path = Except.ok item1) :
    addElementChain item1 c path = Except.ok item1
    ∧ ∃ root1, item1.rootElement = some root1 ∧ Unambiguous root1
        ∧ (∃ leaf, elementsAt (parsePath path) root1 = [leaf] ∧ leaf.pconnector = some c)
        ∧ (∀ q r, parsePath path = q ++ r → (elementsAt q root1).length = 1) := by
  have hprefix : ∀ root1 : DataElementUaSdk, Unambiguous root1 →
      (∃ leaf, elementsAt (parsePath path) root1 = [leaf] ∧ leaf.pconnector = some c) →
      ∀ q r, parsePath path = q ++ r → (elementsAt q root1).length = 1 := by
    rintro root1 hu1 ⟨leaf, hl, -⟩ q r hqr
    have h1 := hu1 q
    rw [hqr, elementsAt_append] at hl
    cases hq : elementsAt q root1 with
    | nil => simp [hq] at hl
    | cons a as =>
      rw [hq] at h1
      simp only [List.length_cons] at h1 ⊢
      omega
  unfold addElementChain at h
  cases hroot : item.rootElement with
  | none =>
    simp only [hroot, Except.ok.injEq] at h
    subst h
    have hu1 := newChain_unambiguous c "" (parsePath path)
    have hl := newChain_leaf c "" (parsePath path)
    refine ⟨?_, _, rfl, hu1, hl, hprefix _ hu1 hl⟩
    simp [addElementChain, insertChain_newChain]
  | some root =>
    simp only [hroot] at h
    cases hr : insertChain c (parsePath path) root with
    | error err => simp [hr] at h
    | ok r1 =>
      simp only [hr, Except.ok.injEq] at h
      subst h
      obtain ⟨hu1, hl⟩ := insertChain_elementsAt c (parsePath path) root r1 (hu root hroot) hr
      refine ⟨?_, r1, rfl, hu1, hl, hprefix r1 hu1 hl⟩
      simp [addElementChain, insertChain_idem c (parsePath path) root r1 hr]

/-- Witness for C9: on the item with the chain `a.c`, the chain `a.b` is added;
the second call changes nothing, the node `a` is there once and the leaf `a.b` once. -/
theorem addElementChain_idempotent_witness :
    addElementChain exItem 1 "a.b" = Except.ok exItemAdded
    ∧ addElementChain exItemAdded 1 "a.b" = Except.ok exItemAdded
    ∧ ∃ root1, exItemAdded.rootElement = some root1 ∧ Unambiguous root1
        ∧ (∃ leaf, elementsAt (parsePath "a.b") root1 = [leaf] ∧ leaf.pconnector = some 1)
        ∧ (∀ q r, parsePath "a.b" = q ++ r → (elementsAt q root1).length = 1) :=
  ⟨rfl,
   (addElementChain_idempotent exItem exItemAdded 1 "a.b"
      (fun root hroot => by
        have : root = newChain 2 "" (parsePath "a.c") := by
          have h1 : exItem.rootElement = some (newChain 2 "" (parsePath "a.c")) := rfl
          rw [h1] at hroot
          exact (Option.some.inj hroot).symm
        rw [this]
        exact newChain_unambiguous 2 "" (parsePath "a.c")) rfl).1,
   (addElementChain_idempotent exItem exItemAdded 1 "a.b"
      (fun root hroot => by
        have : root = newChain 2 "" (parsePath "a.c") := by
          have h1 : exItem.rootElement = some (newChain 2 "" (parsePath "a.c")) := rfl
          rw [h1] at hroot
          exact (Option.some.inj hroot).symm
        rw [this]
        exact newChain_unambiguous 2 "" (parsePath "a.c")) rfl).2⟩


/-! ## Conversion of floating values -/

theorem truncate_eq (x : ℚ) : truncate x = if 0 ≤ x then ⌊x⌋ else ⌈x⌉ := by
  unfold truncate
  by_cases h : 0 ≤ x
  · have hn : 0 ≤ x.num := Rat.num_nonneg.mpr h
    rw [if_pos h, Rat.floor_def, Int.tdiv_eq_ediv hn (Int.ofNat_nonneg _)]
  · have hn : x.num < 0 := by
      have := Rat.num_neg.mpr (lt_of_not_ge h)
      exact this
    rw [if_neg h]
    have h1 : ⌈x⌉ = -⌊-x⌋ := by rw [Int.floor_neg, neg_neg]
    rw [h1, Rat.floor_def, Rat.neg_num, Rat.neg_den]
    have h2 : (-x.num).tdiv (x.den : Int) = -(x.num.tdiv x.den) := Int.neg_tdiv ..
    rw [← Int.tdiv_eq_ediv (by omega) (Int.ofNat_nonneg _), h2, neg_neg]

/-- C10: conversion range check. For a leaf to which a floating value x has been
delivered, with t the truncation of x toward zero (the floor of x for x ≥ 0, the
ceiling for x < 0): readInt32 fails with the range error when t lies outside the
Int32 range, and returns t when t lies inside. -/
theorem readInt32_float_range_check (leaf : DataElementUaSdk) (ty : OpcUa_BuiltInType) (x : ℚ)
    (hleaf : leaf.isLeaf = true) :
    ((if 0 ≤ x then ⌊x⌋ else ⌈x⌉) < INT32_MIN ∨ INT32_MAX < (if 0 ≤ x then ⌊x⌋ else ⌈x⌉) →
      (leaf.setIncomingData (UaVariant.floating ty x)).readInt32
        = Except.error ConversionError.RangeOverflow)
    ∧ (INT32_MIN ≤ (if 0 ≤ x then ⌊x⌋ else ⌈x⌉) ∧ (if 0 ≤ x then ⌊x⌋ else ⌈x⌉) ≤ INT32_MAX →
      (leaf.setIncomingData (UaVariant.floating ty x)).readInt32
        = Except.ok (if 0 ≤ x then ⌊x⌋ else ⌈x⌉)) := by
  have hl := (setIncomingData_leaf leaf (UaVariant.floating ty x) hleaf).1
  rw [← truncate_eq]
  constructor
  · intro h
    have : ¬ (INT32_MIN ≤ truncate x ∧ truncate x ≤ INT32_MAX) := by omega
    simp [DataElementUaSdk.readInt32, hl, toInt32, this]
  · intro h
    simp [DataElementUaSdk.readInt32, hl, toInt32, h]

/-- Witness for C10: the value 1e12 delivered to a leaf; readInt32 fails with
the range error. -/
theorem readInt32_float_range_check_witness :
    (newLeaf "x" 1).isLeaf = true
    ∧ INT32_MAX < (if 0 ≤ (1000000000000 : ℚ) then ⌊(1000000000000 : ℚ)⌋ else ⌈(1000000000000 : ℚ)⌉)
    ∧ ((newLeaf "x" 1).setIncomingData
          (UaVariant.floating OpcUa_BuiltInType.Double 1000000000000)).readInt32
        = Except.error ConversionError.RangeOverflow :=
  have h : INT32_MAX
      < (if 0 ≤ (1000000000000 : ℚ) then ⌊(1000000000000 : ℚ)⌋ else ⌈(1000000000000 : ℚ)⌉) := by
    have h1 : ⌊(1000000000000 : ℚ)⌋ = 1000000000000 := by simp
    rw [if_pos (by norm_num), h1]
    decide
  ⟨rfl, h,
   (readInt32_float_range_check (newLeaf "x" 1) OpcUa_BuiltInType.Double 1000000000000 rfl).1
     (Or.inr h)⟩

/-! ## Clearing the slots -/

/-- C11: for every element, whatever its incoming slot holds, after
clearIncomingData the incoming slot is empty and readInt32 fails with the no-data
error; the outgoing slot is as before. -/
theorem readInt32_after_clearIncomingData (e : DataElementUaSdk) :
    e.clearIncomingData.readInt32 = Except.error ConversionError.NoData
    ∧ e.clearIncomingData.incomingData = UaVariant.empty
    ∧ e.clearIncomingData.outgoingData = e.outgoingData
    ∧ (∀ v, ((e.setIncomingData v).clearIncomingData).readInt32
        = Except.error ConversionError.NoData) := by
  refine ⟨?_, ?_, rfl, fun v => ?_⟩ <;>
  simp [DataElementUaSdk.clearIncomingData, DataElementUaSdk.readInt32, toInt32, UaVariant.isEmpty]

/-- C15: for every data element, whatever its outgoing value, after
clearOutgoingData the value returned by getOutgoingData is the empty variant. -/
theorem getOutgoingData_after_clearOutgoingData (e : DataElementUaSdk) :
    e.clearOutgoingData.getOutgoingData = UaVariant.empty
    ∧ e.clearOutgoingData.getOutgoingDataStep.1 = UaVariant.empty :=
  ⟨rfl, rfl⟩

/-- C16: clearOutgoingData changes only the outgoing value: the incoming value,
its type tag and array flag, the mapped flag and the map, the child list, the
name and the connector of the element are unchanged. -/
theorem clearOutgoingData_frame (e : DataElementUaSdk) :
    e.clearOutgoingData = { e with outgoingData := e.clearOutgoingData.outgoingData }
    ∧ e.clearOutgoingData.incomingData = e.incomingData
    ∧ e.clearOutgoingData.incomingType = e.incomingType
    ∧ e.clearOutgoingData.incomingIsArray = e.incomingIsArray
    ∧ e.clearOutgoingData.mapped = e.mapped
    ∧ e.clearOutgoingData.elementMap = e.elementMap
    ∧ e.clearOutgoingData.elements = e.elements
    ∧ e.clearOutgoingData.name = e.name
    ∧ e.clearOutgoingData.pconnector = e.pconnector
    ∧ e.clearOutgoingData.readInt32 = e.readInt32 :=
  ⟨rfl, rfl, rfl, rfl, rfl, rfl, rfl, rfl, rfl, rfl⟩

/-- C17: getOutgoingData leaves the element as it is, so a second call returns
what the first returned; after a successful writeInt32 both calls return the
value written (converted to the native type of the leaf). -/
theorem getOutgoingData_sticky (e e1 : DataElementUaSdk) (value : Int)
    (hw : e.writeInt32 value = Except.ok e1) :
    (∀ d : DataElementUaSdk, d.getOutgoingDataStep.2 = d
        ∧ d.getOutgoingDataStep.2.getOutgoingDataStep.1 = d.getOutgoingDataStep.1
        ∧ d.getOutgoingDataStep.1 = d.getOutgoingData)
    ∧ ∃ x, fromInt32 e.incomingType value = Except.ok x
        ∧ e1.getOutgoingDataStep.1 = x
        ∧ e1.getOutgoingDataStep.2.getOutgoingDataStep.1 = x := by
  refine ⟨fun d => ⟨rfl, rfl, rfl⟩, ?_⟩
  obtain ⟨x, hx, he⟩ := writeInt32_ok e e1 value hw
  exact ⟨x, hx, by rw [he]; rfl, by rw [he]; rfl⟩

/-- Witness for C17: the write of 5 to the leaf `a`, read twice. -/
theorem getOutgoingData_sticky_witness :
    exFieldLeaf.writeInt32 5 = Except.ok exFieldLeafWritten
    ∧ ∃ x, fromInt32 exFieldLeaf.incomingType 5 = Except.ok x
        ∧ exFieldLeafWritten.getOutgoingDataStep.1 = x
        ∧ exFieldLeafWritten.getOutgoingDataStep.2.getOutgoingDataStep.1 = x :=
  ⟨rfl, (getOutgoingData_sticky exFieldLeaf exFieldLeafWritten 5 rfl).2⟩

/-! ## The subscription registry -/

/-- C20: findSubscription throws the runtime error "no such subscription" exactly
when subscriptionExists is false, and otherwise returns the subscription of the
entry found under the name; both leave the map as it is, and the functions of
Subscription give the results of those of SubscriptionUaSdk. -/
theorem findSubscription_iff_exists (subscriptions : SubscriptionMap) (name : String) :
    ((SubscriptionUaSdk.findSubscription subscriptions name).1
          = Except.error (Thrown.stdException "no such subscription")
        ↔ (SubscriptionUaSdk.subscriptionExists subscriptions name).1 = false)
    ∧ ((SubscriptionUaSdk.subscriptionExists subscriptions name).1 = true
        ↔ ∃ s, (SubscriptionUaSdk.findSubscription subscriptions name).1 = Except.ok s
            ∧ subscriptions.find name = some (name, s) ∧ (name, s) ∈ subscriptions)
    ∧ (SubscriptionUaSdk.findSubscription subscriptions name).2 = subscriptions
    ∧ (SubscriptionUaSdk.subscriptionExists subscriptions name).2 = subscriptions
    ∧ Subscription.findSubscription subscriptions name
        = SubscriptionUaSdk.findSubscription subscriptions name
    ∧ Subscription.subscriptionExists subscriptions name
        = SubscriptionUaSdk.subscriptionExists subscriptions name := by
  refine ⟨?_, ?_, ?_, ?_, rfl, rfl⟩
  · cases h : subscriptions.find name <;>
    simp [SubscriptionUaSdk.findSubscription, SubscriptionUaSdk.subscriptionExists, h]
  · cases h : subscriptions.find name with
    | none => simp [SubscriptionUaSdk.findSubscription, SubscriptionUaSdk.subscriptionExists, h]
    | some it =>
      have h1 : it.1 = name := by
        have := List.find?_some h
        simpa using this
      have h2 : it ∈ subscriptions := List.mem_of_find?_eq_some h
      obtain ⟨k, s⟩ := it
      simp only at h1
      subst h1
      simp [SubscriptionUaSdk.findSubscription, SubscriptionUaSdk.subscriptionExists, h, h2]
  · cases h : subscriptions.find name <;> simp [SubscriptionUaSdk.findSubscription, h]
  · cases h : subscriptions.find name <;> simp [SubscriptionUaSdk.subscriptionExists, h]

/-! ## The link between leaf and connector -/

theorem bidirectional_one_to_one (l : Links) (h : l.Bidirectional) :
    (∀ e1 e2 c, l.pconnector e1 = some c → l.pconnector e2 = some c → e1 = e2)
    ∧ (∀ c1 c2 e, l.pdataelement c1 = some e → l.pdataelement c2 = some e → c1 = c2) := by
  constructor
  · intro e1 e2 c h1 h2
    have h3 := (h e1 c).mp h1
    have h4 := (h e2 c).mp h2
    rw [h3] at h4
    exact Option.some.inj h4
  · intro c1 c2 e h1 h2
    have h3 := (h e c1).mpr h1
    have h4 := (h e c2).mpr h2
    rw [h3] at h4
    exact Option.some.inj h4

theorem exLinks_bidirectional : exLinks.Bidirectional := by
  intro e c
  simp only [exLinks]
  by_cases he : e = 0 <;> by_cases hc : c = 0 <;> simp [he, hc]
  · exact fun h => hc h.symm
  · exact fun h => he h.symm

/-- C12: after setRecordConnector(c) on element e, e points to c, c points back
to e, a connector that was linked to e before the call no longer points to e,
and an element that c was linked to before the call no longer points to c. A
binding that was bidirectional before the call is bidirectional after it: no two
elements point to one connector and no two connectors point to one element. -/
theorem setRecordConnector_bidirectional (l : Links) (e c : Nat) (hinv : l.Bidirectional) :
    (setRecordConnector l e c).pconnector e = some c
    ∧ (setRecordConnector l e c).pdataelement c = some e
    ∧ (∀ c0, l.pconnector e = some c0 → c0 ≠ c → (setRecordConnector l e c).pdataelement c0 = none)
    ∧ (∀ e0, l.pdataelement c = some e0 → e0 ≠ e → (setRecordConnector l e c).pconnector e0 = none)
    ∧ (setRecordConnector l e c).Bidirectional
    ∧ (∀ e1 e2 k, (setRecordConnector l e c).pconnector e1 = some k →
        (setRecordConnector l e c).pconnector e2 = some k → e1 = e2)
    ∧ (∀ c1 c2 k, (setRecordConnector l e c).pdataelement c1 = some k →
        (setRecordConnector l e c).pdataelement c2 = some k → c1 = c2) := by
  have hb : (setRecordConnector l e c).Bidirectional := by
    intro e1 c1
    simp only [setRecordConnector]
    by_cases he : e1 = e
    · subst he
      by_cases hc : c1 = c
      · subst hc
        simp
      · have hc2 : ¬ c = c1 := fun h => hc h.symm
        simp only [if_true, Option.some.injEq, hc2, hc, if_false, false_iff]
        by_cases hold : l.pconnector e1 = some c1
        · simp [hold]
        · simp only [hold, if_false]
          exact fun h => hold ((hinv e1 c1).mpr h)
    · by_cases hc : c1 = c
      · subst hc
        simp only [he, if_false, if_true, Option.some.injEq]
        constructor
        · intro h
          by_cases hold : l.pdataelement c1 = some e1
          · simp [hold] at h
          · simp only [hold, if_false] at h
            exact absurd ((hinv e1 c1).mp h) hold
        · intro h
          exact absurd h.symm he
      · simp only [he, hc, if_false]
        by_cases hold2 : l.pdataelement c = some e1
        · simp only [hold2, if_true]
          constructor
          · intro h
            cases h
          · intro h
            exfalso
            by_cases hold : l.pconnector e = some c1
            · simp [hold] at h
            · simp only [hold, if_false] at h
              have h1 := (hinv e1 c1).mpr h
              have h2 := (hinv e1 c).mpr hold2
              rw [h1] at h2
              exact hc (Option.some.inj h2)
        · simp only [hold2, if_false]
          by_cases hold : l.pconnector e = some c1
          · simp only [hold, if_true]
            constructor
            · intro h
              have h1 := (hinv e1 c1).mp h
              have h2 := (hinv e c1).mp hold
              rw [h1] at h2
              exact absurd (Option.some.inj h2) he
            · intro h
              cases h
          · simp only [hold, if_false]
            exact hinv e1 c1
  refine ⟨by simp [setRecordConnector], by simp [setRecordConnector], ?_, ?_, hb,
    (bidirectional_one_to_one _ hb).1, (bidirectional_one_to_one _ hb).2⟩
  · intro c0 h0 hne
    simp [setRecordConnector, hne, h0]
  · intro e0 h0 hne
    simp [setRecordConnector, hne, h0]

/-- Witness for C12: element 0 and connector 0 are linked to each other. Connector
1, linked to nothing, is set on element 0: connector 0 no longer points to
element 0. Connector 0 is set on element 1: element 0 no longer points to
connector 0, so connector 0 is bound by element 1 only. -/
theorem setRecordConnector_bidirectional_witness :
    exLinks.Bidirectional
    ∧ (setRecordConnector exLinks 0 1).pconnector 0 = some 1
    ∧ (setRecordConnector exLinks 0 1).pdataelement 1 = some 0
    ∧ (setRecordConnector exLinks 0 1).pdataelement 0 = none
    ∧ (setRecordConnector exLinks 0 1).Bidirectional
    ∧ (setRecordConnector exLinks 1 0).pconnector 1 = some 0
    ∧ (setRecordConnector exLinks 1 0).pdataelement 0 = some 1
    ∧ (setRecordConnector exLinks 1 0).pconnector 0 = none
    ∧ (setRecordConnector exLinks 1 0).Bidirectional :=
  ⟨exLinks_bidirectional,
   (setRecordConnector_bidirectional exLinks 0 1 exLinks_bidirectional).1,
   (setRecordConnector_bidirectional exLinks 0 1 exLinks_bidirectional).2.1,
   (setRecordConnector_bidirectional exLinks 0 1 exLinks_bidirectional).2.2.1 0 rfl (by decide),
   (setRecordConnector_bidirectional exLinks 0 1 exLinks_bidirectional).2.2.2.2.1,
   (setRecordConnector_bidirectional exLinks 1 0 exLinks_bidirectional).1,
   (setRecordConnector_bidirectional exLinks 1 0 exLinks_bidirectional).2.1,
   (setRecordConnector_bidirectional exLinks 1 0 exLinks_bidirectional).2.2.2.1 0 rfl (by decide),
   (setRecordConnector_bidirectional exLinks 1 0 exLinks_bidirectional).2.2.2.2.1⟩

/-! ## Adding a record -/

/-- C13: opcua_add_record returns 0 exactly when the DBEntry, link parsing, the
item (a new one, or the one the link refers to) and addElementChain all succeed;
then dpvt is the new connector, whose item is the one the chain was added to.
When one of them throws a std::exception, the routine returns S_dbLib_badLink,
which is not 0, reports the error and leaves dpvt unchanged. -/
theorem opcua_add_record_binds_iff_success {H : Type} (calls : AddRecordCalls H) (pvt : Nat)
    (precName : String) (w : AddWorld H) :
    ((opcua_add_record calls pvt precName w).1 = Except.ok 0
      ↔ ∃ info pitem h1 h2, calls.DBEntry = Except.ok () ∧ calls.parseLink = Except.ok info
          ∧ itemForLink calls info w.items = Except.ok (pitem, h1)
          ∧ calls.addElementChain pitem pvt info.element h1 = Except.ok h2)
    ∧ (∀ info pitem h1 h2, calls.DBEntry = Except.ok () → calls.parseLink = Except.ok info →
        itemForLink calls info w.items = Except.ok (pitem, h1) →
        calls.addElementChain pitem pvt info.element h1 = Except.ok h2 →
        (opcua_add_record calls pvt precName w).1 = Except.ok 0
        ∧ (opcua_add_record calls pvt precName w).2.dpvt
            = some { id := pvt, plinkinfo := info, pitem := pitem }
        ∧ (opcua_add_record calls pvt precName w).2.items = h2
        ∧ (opcua_add_record calls pvt precName w).2.console = w.console)
    ∧ (∀ what,
        (calls.DBEntry = Except.error (Thrown.stdException what)
          ∨ (calls.DBEntry = Except.ok ()
              ∧ calls.parseLink = Except.error (Thrown.stdException what))
          ∨ (∃ info, calls.DBEntry = Except.ok () ∧ calls.parseLink = Except.ok info
              ∧ itemForLink calls info w.items = Except.error (Thrown.stdException what))
          ∨ (∃ info pitem h1, calls.DBEntry = Except.ok () ∧ calls.parseLink = Except.ok info
              ∧ itemForLink calls info w.items = Except.ok (pitem, h1)
              ∧ calls.addElementChain pitem pvt info.element h1
                  = Except.error (Thrown.stdException what))) →
        (opcua_add_record calls pvt precName w).1 = Except.ok S_dbLib_badLink
        ∧ (opcua_add_record calls pvt precName w).2.dpvt = w.dpvt
        ∧ (opcua_add_record calls pvt precName w).2.console.getLast? = some (precName, what))
    ∧ ((opcua_add_record calls pvt precName w).1 ≠ Except.ok 0 →
        (opcua_add_record calls pvt precName w).2.dpvt = w.dpvt)
    ∧ S_dbLib_badLink ≠ 0 := by
  obtain ⟨dpvt, items, console⟩ := w
  rcases hd : calls.DBEntry with (_ | _) | _
  · simp [opcua_add_record, itemForLink, bind, Body.bind, pure, callPure, callItems, hd,
      S_dbLib_badLink]
  · simp [opcua_add_record, itemForLink, bind, Body.bind, pure, callPure, callItems, hd,
      S_dbLib_badLink]
  rcases hp : calls.parseLink with (_ | _) | info
  · simp [opcua_add_record, itemForLink, bind, Body.bind, pure, callPure, callItems, hd, hp,
      S_dbLib_badLink]
  · simp [opcua_add_record, itemForLink, bind, Body.bind, pure, callPure, callItems, hd, hp,
      S_dbLib_badLink]
  by_cases hl : info.linkedToItem = true
  · rcases hn : calls.newItemUaSdk info items with (_ | _) | ⟨pitem, h1⟩
    · simp [opcua_add_record, itemForLink, bind, Body.bind, pure, callPure, callItems, hd, hp, hl, hn,
        S_dbLib_badLink]
      rintro i p a b rfl
      simp [hl, hn]
    · simp [opcua_add_record, itemForLink, bind, Body.bind, pure, callPure, callItems, hd, hp, hl, hn,
        S_dbLib_badLink]
      rintro i p a b rfl
      simp [hl, hn]
    · rcases ha : calls.addElementChain pitem pvt info.element h1 with (_ | _) | h2 <;>
      simp [opcua_add_record, itemForLink, bind, Body.bind, pure, callPure, callItems, hd, hp, hl, hn,
        ha, Except.map, S_dbLib_badLink]
      · rintro i p a b rfl
        simp only [hl, if_true, hn, Except.ok.injEq, Prod.mk.injEq]
        rintro ⟨rfl, rfl⟩
        simp [ha]
      · rintro i p a b rfl
        simp only [hl, if_true, hn, Except.ok.injEq, Prod.mk.injEq]
        rintro ⟨rfl, rfl⟩
        simp [ha]
      · refine ⟨⟨pitem, h1, ⟨rfl, rfl⟩, h2, ha⟩, ?_⟩
        rintro i p a b rfl
        simp only [hl, if_true, hn, Except.ok.injEq, Prod.mk.injEq]
        rintro ⟨rfl, rfl⟩ hb
        rw [ha] at hb
        exact ⟨⟨trivial, rfl⟩, Except.ok.inj hb⟩
  · rcases ha : calls.addElementChain info.item pvt info.element items with (_ | _) | h2 <;>
    simp [opcua_add_record, itemForLink, bind, Body.bind, pure, callPure, callItems, hd, hp, hl,
      ha, Except.map, S_dbLib_badLink]
    · rintro i p a b rfl
      simp only [hl, if_false, Except.ok.injEq, Prod.mk.injEq]
      rintro ⟨rfl, rfl⟩
      simp [ha]
    · rintro i p a b rfl
      simp only [hl, if_false, Except.ok.injEq, Prod.mk.injEq]
      rintro ⟨rfl, rfl⟩
      simp [ha]
    · refine ⟨⟨info.item, items, ⟨rfl, rfl⟩, h2, ha⟩, ?_⟩
      rintro i p a b rfl
      simp only [hl, if_false, Except.ok.injEq, Prod.mk.injEq]
      rintro ⟨rfl, rfl⟩ hb
      rw [ha] at hb
      exact ⟨⟨trivial, rfl⟩, Except.ok.inj hb⟩

/-- Witness for C13: on the item with the chain `a.c`, a record with the path
`a.b` is added and bound; on the item where `a.b` is bound to connector 1, a
record with the same path and another connector is refused and stays unbound. -/
theorem opcua_add_record_binds_iff_success_witness :
    ((opcua_add_record (exAddRecordCalls "a.b") 1 "REC"
          { dpvt := none, items := exItem, console := [] }).1 = Except.ok 0
      ∧ (opcua_add_record (exAddRecordCalls "a.b") 1 "REC"
          { dpvt := none, items := exItem, console := [] }).2.dpvt
        = some { id := 1, plinkinfo := { linkedToItem := false, item := 0, element := "a.b" },
                 pitem := 0 }
      ∧ (opcua_add_record (exAddRecordCalls "a.b") 1 "REC"
          { dpvt := none, items := exItem, console := [] }).2.items = exItemAdded
      ∧ (opcua_add_record (exAddRecordCalls "a.b") 1 "REC"
          { dpvt := none, items := exItem, console := [] }).2.console = [])
    ∧ ((opcua_add_record (exAddRecordCalls "a.b") 3 "REC"
          { dpvt := none, items := exItemAdded, console := [] }).1 = Except.ok S_dbLib_badLink
      ∧ (opcua_add_record (exAddRecordCalls "a.b") 3 "REC"
          { dpvt := none, items := exItemAdded, console := [] }).2.dpvt = none
      ∧ (opcua_add_record (exAddRecordCalls "a.b") 3 "REC"
          { dpvt := none, items := exItemAdded, console := [] }).2.console.getLast?
        = some ("REC", "element already bound to another record")) :=
  ⟨(opcua_add_record_binds_iff_success (exAddRecordCalls "a.b") 1 "REC"
      { dpvt := none, items := exItem, console := [] }).2.1
      { linkedToItem := false, item := 0, element := "a.b" } 0 exItem exItemAdded rfl rfl rfl rfl,
   (opcua_add_record_binds_iff_success (exAddRecordCalls "a.b") 3 "REC"
      { dpvt := none, items := exItemAdded, console := [] }).2.2.1
      "element already bound to another record"
      (Or.inr (Or.inr (Or.inr ⟨{ linkedToItem := false, item := 0, element := "a.b" }, 0,
        exItemAdded, rfl, rfl, rfl, rfl⟩)))⟩

/-! ## Strings and arrays -/

theorem strlen_lt_of_terminated (buf : List Nat) (n : Nat) (h : 0 ∈ buf.take n) : strlen buf < n := by
  induction buf generalizing n with
  | nil => simp at h
  | cons b bs ih =>
    cases n with
    | zero => simp at h
    | succ m =>
      by_cases hb : b = 0
      · simp [strlen, List.takeWhile, hb]
      · have h1 : 0 ∈ bs.take m := by
          simp only [List.take_succ_cons, List.mem_cons] at h
          rcases h with h | h
          · exact absurd h.symm hb
          · exact h
        have := ih m h1
        simp only [strlen] at this ⊢
        simp only [List.takeWhile, hb, ne_eq, not_false_eq_true, decide_True, List.length_cons]
        simp only [ne_eq] at this
        omega

/-- C19: opcua_read_lstring_val on incoming data, when readCString succeeds and
the buffer it leaves holds a zero byte within the SIZV bytes: VAL is that buffer,
LEN is the length of the string in VAL plus one, and 1 ≤ LEN ≤ SIZV. -/
theorem read_lstring_sets_len {σ : Type} (ops : ConnectorOps σ) (sops : ConnectorStringOps σ)
    (now : epicsTimeStamp) (w : World lsiRecord σ) (pvt : RecordConnector σ) (buf : List Nat)
    (hb : w.dpvt = some pvt)
    (hr : pvt.reason = ProcessReason.incomingData ∨ pvt.reason = ProcessReason.readComplete)
    (hsizv : w.prec.sizv < 65536)
    (hread : sops.readCString w.prec.val w.prec.sizv pvt.elem = Except.ok buf)
    (hterm : 0 ∈ buf.take w.prec.sizv) :
    (opcua_read_lstring_val ops sops now w).2.prec.val = buf
    ∧ (opcua_read_lstring_val ops sops now w).2.prec.len = strlen buf + 1
    ∧ 1 ≤ (opcua_read_lstring_val ops sops now w).2.prec.len
    ∧ (opcua_read_lstring_val ops sops now w).2.prec.len ≤ w.prec.sizv
    ∧ (opcua_read_lstring_val ops sops now w).2.prec.sizv = w.prec.sizv
    ∧ (newCalls w (opcua_read_lstring_val ops sops now w))[1]? = some (Call.readCString w.prec.sizv) := by
  have hlen := strlen_lt_of_terminated buf w.prec.sizv hterm
  obtain ⟨reason, lock, scanned, scanpvt, elem⟩ := pvt
  obtain ⟨prec, dpvt, calls, console⟩ := w
  simp only at hr hb hread hlen hsizv
  subst hb
  by_cases h1 : prec.tse = epicsTimeEventDeviceTime <;> by_cases h2 : 1 < prec.tpro <;>
  rcases hc : ops.checkReadStatus elem with (_ | _) | _ <;>
  rcases hr with hr | hr <;> subst hr <;>
  simp [newCalls, opcua_read_lstring_val, TRY_CATCH, Guard, bind, Body.bind, pure, pvtReason,
    getRec, setRec, errlogPrintf, callRead, callUpdate, callTotal, recGblSetSevr, dbCommon.recGblSetSevr,
    DbRecord.common, DbRecord.setCommon, Frame.toWorld, h1, h2, hread, hc] <;>
  omega

/-- Witness for C19: an lsi record with a buffer of 8 bytes reads the string `Hi`;
LEN becomes 3. -/
theorem read_lstring_sets_len_witness :
    (0 : Nat) ∈ List.take 8 [72, 105, 0, 0, 0, 0, 0, 0]
    ∧ (opcua_read_lstring_val byteLeafOps exStringOps exNow
        (exLsi ProcessReason.incomingData (some 1))).2.prec.val = [72, 105, 0, 0, 0, 0, 0, 0]
    ∧ (opcua_read_lstring_val byteLeafOps exStringOps exNow
        (exLsi ProcessReason.incomingData (some 1))).2.prec.len = strlen [72, 105, 0, 0, 0, 0, 0, 0] + 1
    ∧ strlen [72, 105, 0, 0, 0, 0, 0, 0] + 1 = 3 :=
  ⟨by decide,
   (read_lstring_sets_len byteLeafOps exStringOps exNow (exLsi ProcessReason.incomingData (some 1))
      (exConnector ProcessReason.incomingData (some 1)) [72, 105, 0, 0, 0, 0, 0, 0] rfl (Or.inl rfl)
      (by decide) rfl (by decide)).1,
   (read_lstring_sets_len byteLeafOps exStringOps exNow (exLsi ProcessReason.incomingData (some 1))
      (exConnector ProcessReason.incomingData (some 1)) [72, 105, 0, 0, 0, 0, 0, 0] rfl (Or.inl rfl)
      (by decide) rfl (by decide)).2.1,
   by decide⟩

theorem opcua_read_array_incoming {σ β : Type} (ops : ConnectorOps σ) (aops : ConnectorArrayOps σ β)
    (now : epicsTimeStamp) (w : World (waveformRecord β) σ) (pvt : RecordConnector σ)
    (method : ArrayRead) (count : Nat) (buf : β) (e1 : σ)
    (hb : w.dpvt = some pvt)
    (hr : pvt.reason = ProcessReason.incomingData ∨ pvt.reason = ProcessReason.readComplete)
    (hm : arrayReadFor w.prec.ftvl = some method)
    (hread : aops.readArray method w.prec.bptr w.prec.nelm pvt.elem = Except.ok (count, buf))
    (hcheck : ops.checkReadStatus pvt.elem = Except.ok e1) :
    (opcua_read_array ops aops now w).1 = Except.ok 0
    ∧ (opcua_read_array ops aops now w).2.prec.nord = count
    ∧ (opcua_read_array ops aops now w).2.prec.bptr = buf
    ∧ (opcua_read_array ops aops now w).2.prec.nelm = w.prec.nelm
    ∧ (opcua_read_array ops aops now w).2.prec.nsta = w.prec.nsta
    ∧ (opcua_read_array ops aops now w).2.prec.nsev = w.prec.nsev
    ∧ newCalls w (opcua_read_array ops aops now w) =
        [Call.lock, Call.readArray method w.prec.nelm]
          ++ (if w.prec.nord ≠ count then [Call.db_post_events "NORD" (DBE_VALUE ||| DBE_LOG)] else [])
          ++ (if w.prec.tse = epicsTimeEventDeviceTime then [Call.readTimeStamp] else [])
          ++ [Call.checkReadStatus, Call.clearIncomingData, Call.unlock]
    ∧ (Call.db_post_events "NORD" (DBE_VALUE ||| DBE_LOG) ∈ newCalls w (opcua_read_array ops aops now w)
        ↔ count ≠ w.prec.nord)
    ∧ (∀ sourceLength, count = min sourceLength w.prec.nelm →
        (opcua_read_array ops aops now w).2.prec.nord ≤ w.prec.nelm) := by
  obtain ⟨reason, lock, scanned, scanpvt, elem⟩ := pvt
  obtain ⟨prec, dpvt, calls, console⟩ := w
  simp only at hr hb hread hcheck hm
  subst hb
  by_cases h1 : prec.tse = epicsTimeEventDeviceTime <;> by_cases h2 : 1 < prec.tpro <;>
  by_cases h3 : prec.nord = count <;>
  rcases hr with hr | hr <;> subst hr <;>
  simp [newCalls, opcua_read_array, TRY_CATCH, Guard, bind, Body.bind, pure, pvtReason,
    getRec, setRec, errlogPrintf, callRead, callUpdate, callTotal, logCall, recGblSetSevr,
    dbCommon.recGblSetSevr, DbRecord.common, DbRecord.setCommon, Frame.toWorld, h1, h2, h3, hread,
    hcheck, hm] <;>
  first
  | (intro n hn; omega)
  | (refine ⟨fun h => h3 h.symm, ?_⟩; intro n hn; omega)

/-- C18: opcua_read_array on incoming data, for each element type FTVL the
routine handles (STRING reads with readArrayOldString, CHAR with readArrayInt8,
UCHAR with readArrayUInt8, SHORT with readArrayInt16, USHORT and ENUM with
readArrayUInt16, LONG with readArrayInt32, ULONG with readArrayUInt32, INT64
with readArrayInt64, UINT64 with readArrayUInt64, FLOAT with readArrayFloat32,
DOUBLE with readArrayFloat64), when that read and checkReadStatus do not throw:
the read of that type, and no other, is called once with the buffer and the
capacity NELM, NORD is the count the read reports, a monitor event on NORD is
posted exactly when that count differs from the previous NORD, no alarm is
raised and the routine returns 0; when the count is min(sourceLength, NELM),
NORD does not exceed NELM. -/
theorem read_array_sets_nord {σ β : Type} (ops : ConnectorOps σ) (aops : ConnectorArrayOps σ β)
    (now : epicsTimeStamp) (w : World (waveformRecord β) σ) (pvt : RecordConnector σ)
    (method : ArrayRead) (count : Nat) (buf : β) (e1 : σ)
    (hb : w.dpvt = some pvt)
    (hr : pvt.reason = ProcessReason.incomingData ∨ pvt.reason = ProcessReason.readComplete)
    (htype : (w.prec.ftvl = menuFtypeSTRING ∧ method = ArrayRead.readArrayOldString)
      ∨ (w.prec.ftvl = menuFtypeCHAR ∧ method = ArrayRead.readArrayInt8)
      ∨ (w.prec.ftvl = menuFtypeUCHAR ∧ method = ArrayRead.readArrayUInt8)
      ∨ (w.prec.ftvl = menuFtypeSHORT ∧ method = ArrayRead.readArrayInt16)
      ∨ (w.prec.ftvl = menuFtypeUSHORT ∧ method = ArrayRead.readArrayUInt16)
      ∨ (w.prec.ftvl = menuFtypeLONG ∧ method = ArrayRead.readArrayInt32)
      ∨ (w.prec.ftvl = menuFtypeULONG ∧ method = ArrayRead.readArrayUInt32)
      ∨ (w.prec.ftvl = menuFtypeINT64 ∧ method = ArrayRead.readArrayInt64)
      ∨ (w.prec.ftvl = menuFtypeUINT64 ∧ method = ArrayRead.readArrayUInt64)
      ∨ (w.prec.ftvl = menuFtypeFLOAT ∧ method = ArrayRead.readArrayFloat32)
      ∨ (w.prec.ftvl = menuFtypeDOUBLE ∧ method = ArrayRead.readArrayFloat64)
      ∨ (w.prec.ftvl = menuFtypeENUM ∧ method = ArrayRead.readArrayUInt16))
    (hread : aops.readArray method w.prec.bptr w.prec.nelm pvt.elem = Except.ok (count, buf))
    (hcheck : ops.checkReadStatus pvt.elem = Except.ok e1) :
    (opcua_read_array ops aops now w).1 = Except.ok 0
    ∧ (opcua_read_array ops aops now w).2.prec.nord = count
    ∧ (opcua_read_array ops aops now w).2.prec.bptr = buf
    ∧ (opcua_read_array ops aops now w).2.prec.nelm = w.prec.nelm
    ∧ (opcua_read_array ops aops now w).2.prec.nsta = w.prec.nsta
    ∧ (opcua_read_array ops aops now w).2.prec.nsev = w.prec.nsev
    ∧ newCalls w (opcua_read_array ops aops now w) =
        [Call.lock, Call.readArray method w.prec.nelm]
          ++ (if w.prec.nord ≠ count then [Call.db_post_events "NORD" (DBE_VALUE ||| DBE_LOG)] else [])
          ++ (if w.prec.tse = epicsTimeEventDeviceTime then [Call.readTimeStamp] else [])
          ++ [Call.checkReadStatus, Call.clearIncomingData, Call.unlock]
    ∧ (∀ other num, Call.readArray other num ∈ newCalls w (opcua_read_array ops aops now w) →
        other = method ∧ num = w.prec.nelm)
    ∧ (Call.db_post_events "NORD" (DBE_VALUE ||| DBE_LOG) ∈ newCalls w (opcua_read_array ops aops now w)
        ↔ count ≠ w.prec.nord)
    ∧ (∀ sourceLength, count = min sourceLength w.prec.nelm →
        (opcua_read_array ops aops now w).2.prec.nord ≤ w.prec.nelm) := by
  have hm : arrayReadFor w.prec.ftvl = some method := by
    rcases htype with h | h | h | h | h | h | h | h | h | h | h | h <;>
    (rw [h.1, h.2]; rfl)
  obtain ⟨h1, h2, h3, h4, h5, h6, h7, h8, h9⟩ :=
    opcua_read_array_incoming ops aops now w pvt method count buf e1 hb hr hm hread hcheck
  refine ⟨h1, h2, h3, h4, h5, h6, h7, ?_, h8, h9⟩
  intro other num hmem
  rw [h7] at hmem
  by_cases hn : w.prec.nord ≠ count <;> by_cases ht : w.prec.tse = epicsTimeEventDeviceTime <;>
  simp [hn, ht] at hmem <;> exact hmem

/-- Witness for C18: waveform records with capacity 2 read the array 1, 2, 3. For
the element type LONG the read is readArrayInt32, for CHAR readArrayInt8, for
ENUM readArrayUInt16; the read reports min(3, 2) = 2 elements, NORD goes from 0
to 2 and the event is posted. -/
theorem read_array_sets_nord_witness :
    (opcua_read_array byteLeafOps exArrayOps exNow
        (exWaveform ProcessReason.incomingData (some 1))).1 = Except.ok 0
    ∧ (opcua_read_array byteLeafOps exArrayOps exNow
        (exWaveform ProcessReason.incomingData (some 1))).2.prec.nord = 2
    ∧ (opcua_read_array byteLeafOps exArrayOps exNow
        (exWaveform ProcessReason.incomingData (some 1))).2.prec.bptr = [1, 2]
    ∧ newCalls (exWaveform ProcessReason.incomingData (some 1))
        (opcua_read_array byteLeafOps exArrayOps exNow
          (exWaveform ProcessReason.incomingData (some 1)))
        = [Call.lock, Call.readArray ArrayRead.readArrayInt32 2,
            Call.db_post_events "NORD" 3, Call.checkReadStatus, Call.clearIncomingData,
            Call.unlock]
    ∧ newCalls (exWaveformOf menuFtypeCHAR ProcessReason.incomingData (some 1))
        (opcua_read_array byteLeafOps exArrayOps exNow
          (exWaveformOf menuFtypeCHAR ProcessReason.incomingData (some 1)))
        = [Call.lock, Call.readArray ArrayRead.readArrayInt8 2,
            Call.db_post_events "NORD" 3, Call.checkReadStatus, Call.clearIncomingData,
            Call.unlock]
    ∧ newCalls (exWaveformOf menuFtypeENUM ProcessReason.incomingData (some 1))
        (opcua_read_array byteLeafOps exArrayOps exNow
          (exWaveformOf menuFtypeENUM ProcessReason.incomingData (some 1)))
        = [Call.lock, Call.readArray ArrayRead.readArrayUInt16 2,
            Call.db_post_events "NORD" 3, Call.checkReadStatus, Call.clearIncomingData,
            Call.unlock] :=
  ⟨(read_array_sets_nord byteLeafOps exArrayOps exNow (exWaveform ProcessReason.incomingData (some 1))
      (exConnector ProcessReason.incomingData (some 1)) ArrayRead.readArrayInt32 2 [1, 2]
      (exConnector ProcessReason.incomingData (some 1)).elem rfl (Or.inl rfl)
      (Or.inr (Or.inr (Or.inr (Or.inr (Or.inr (Or.inl ⟨rfl, rfl⟩)))))) rfl rfl).1,
   (read_array_sets_nord byteLeafOps exArrayOps exNow (exWaveform ProcessReason.incomingData (some 1))
      (exConnector ProcessReason.incomingData (some 1)) ArrayRead.readArrayInt32 2 [1, 2]
      (exConnector ProcessReason.incomingData (some 1)).elem rfl (Or.inl rfl)
      (Or.inr (Or.inr (Or.inr (Or.inr (Or.inr (Or.inl ⟨rfl, rfl⟩)))))) rfl rfl).2.1,
   (read_array_sets_nord byteLeafOps exArrayOps exNow (exWaveform ProcessReason.incomingData (some 1))
      (exConnector ProcessReason.incomingData (some 1)) ArrayRead.readArrayInt32 2 [1, 2]
      (exConnector ProcessReason.incomingData (some 1)).elem rfl (Or.inl rfl)
      (Or.inr (Or.inr (Or.inr (Or.inr (Or.inr (Or.inl ⟨rfl, rfl⟩)))))) rfl rfl).2.2.1,
   (read_array_sets_nord byteLeafOps exArrayOps exNow (exWaveform ProcessReason.incomingData (some 1))
      (exConnector ProcessReason.incomingData (some 1)) ArrayRead.readArrayInt32 2 [1, 2]
      (exConnector ProcessReason.incomingData (some 1)).elem rfl (Or.inl rfl)
      (Or.inr (Or.inr (Or.inr (Or.inr (Or.inr (Or.inl ⟨rfl, rfl⟩)))))) rfl rfl).2.2.2.2.2.2.1,
   (read_array_sets_nord byteLeafOps exArrayOps exNow
      (exWaveformOf menuFtypeCHAR ProcessReason.incomingData (some 1))
      (exConnector ProcessReason.incomingData (some 1)) ArrayRead.readArrayInt8 2 [1, 2]
      (exConnector ProcessReason.incomingData (some 1)).elem rfl (Or.inl rfl)
      (Or.inr (Or.inl ⟨rfl, rfl⟩)) rfl rfl).2.2.2.2.2.2.1,
   (read_array_sets_nord byteLeafOps exArrayOps exNow
      (exWaveformOf menuFtypeENUM ProcessReason.incomingData (some 1))
      (exConnector ProcessReason.incomingData (some 1)) ArrayRead.readArrayUInt16 2 [1, 2]
      (exConnector ProcessReason.incomingData (some 1)).elem rfl (Or.inl rfl)
      (Or.inr (Or.inr (Or.inr (Or.inr (Or.inr (Or.inr (Or.inr (Or.inr (Or.inr (Or.inr
        (Or.inr ⟨rfl, rfl⟩))))))))))) rfl rfl).2.2.2.2.2.2.1⟩

/-! ## Construction of a subscription -/

theorem find_assign_self (m : SubscriptionMap) (name : String) (p : Nat) :
    (SubscriptionMap.assign m name p).find name = some (name, p) := by
  induction m with
  | nil => simp [SubscriptionMap.assign, SubscriptionMap.find]
  | cons en rest ih =>
    by_cases h : en.1 = name
    · simp [SubscriptionMap.assign, SubscriptionMap.find, h]
    · simp only [SubscriptionMap.find] at ih
      simp [SubscriptionMap.assign, SubscriptionMap.find, h, ih]

theorem find_assign_other (m : SubscriptionMap) (name other : String) (p : Nat)
    (h : other ≠ name) : (SubscriptionMap.assign m name p).find other = m.find other := by
  induction m with
  | nil => simp [SubscriptionMap.assign, SubscriptionMap.find, h.symm]
  | cons en rest ih =>
    simp only [SubscriptionMap.find] at ih
    by_cases h1 : en.1 = name
    · have h2 : ¬ en.1 = other := fun h3 => h (h3.symm.trans h1)
      simp [SubscriptionMap.assign, SubscriptionMap.find, h1, h2, h.symm]
    · by_cases h2 : en.1 = other
      · simp [SubscriptionMap.assign, SubscriptionMap.find, h1, h2, h]
      · simp [SubscriptionMap.assign, SubscriptionMap.find, h1, h2, ih]

theorem findSubscription_assign (m : SubscriptionMap) (name : String) (p : Nat) :
    (SubscriptionUaSdk.findSubscription (SubscriptionMap.assign m name p) name).1 = Except.ok p
    ∧ (SubscriptionUaSdk.subscriptionExists (SubscriptionMap.assign m name p) name).1 = true := by
  simp [SubscriptionUaSdk.findSubscription, SubscriptionUaSdk.subscriptionExists,
    find_assign_self]

/-- C21: after the construction of a subscription with name n on session s,
subscriptionExists(n) is true, findSubscription(n) returns the new object, and
the table of s maps n to it; the entries under other names and the tables of
other sessions are as before; after a second construction under the same name
(on any session) the object found is the second one. -/
theorem constructor_registers_subscription (defaults : SubscriptionSettings) (undef this : Nat)
    (name : String) (session : Nat) (publishingInterval : ℚ) (priority : Nat) (debug : Int)
    (r : Registry) :
    (SubscriptionUaSdk.subscriptionExists
        (newSubscriptionUaSdk defaults undef this name session publishingInterval priority
          debug r).2.subscriptions name).1 = true
    ∧ (SubscriptionUaSdk.findSubscription
        (newSubscriptionUaSdk defaults undef this name session publishingInterval priority
          debug r).2.subscriptions name).1 = Except.ok this
    ∧ ((newSubscriptionUaSdk defaults undef this name session publishingInterval priority
          debug r).2.sessions session).find name = some (name, this)
    ∧ (∀ other, other ≠ name →
        (newSubscriptionUaSdk defaults undef this name session publishingInterval priority
          debug r).2.subscriptions.find other = r.subscriptions.find other
        ∧ ((newSubscriptionUaSdk defaults undef this name session publishingInterval priority
          debug r).2.sessions session).find other = (r.sessions session).find other)
    ∧ (∀ s, s ≠ session →
        (newSubscriptionUaSdk defaults undef this name session publishingInterval priority
          debug r).2.sessions s = r.sessions s)
    ∧ (newSubscriptionUaSdk defaults undef this name session publishingInterval priority
          debug r).1.name = name
    ∧ (newSubscriptionUaSdk defaults undef this name session publishingInterval priority
          debug r).1.psessionuasdk = session
    ∧ (∀ (defaults2 : SubscriptionSettings) (undef2 this2 session2 : Nat) (interval2 : ℚ)
        (priority2 : Nat) (debug2 : Int),
        (SubscriptionUaSdk.findSubscription
          (newSubscriptionUaSdk defaults2 undef2 this2 name session2 interval2 priority2 debug2
            (newSubscriptionUaSdk defaults undef this name session publishingInterval priority
              debug r).2).2.subscriptions name).1 = Except.ok this2
        ∧ ((newSubscriptionUaSdk defaults2 undef2 this2 name session2 interval2 priority2 debug2
            (newSubscriptionUaSdk defaults undef this name session publishingInterval priority
              debug r).2).2.sessions session2).find name = some (name, this2)) := by
  refine ⟨?_, ?_, ?_, ?_, ?_, rfl, rfl, ?_⟩
  · exact (findSubscription_assign _ _ _).2
  · exact (findSubscription_assign _ _ _).1
  · simp [newSubscriptionUaSdk, find_assign_self]
  · intro other h
    simp [newSubscriptionUaSdk, find_assign_other _ _ _ _ h]
  · intro s h
    simp [newSubscriptionUaSdk, h]
  · intro defaults2 undef2 this2 session2 interval2 priority2 debug2
    refine ⟨(findSubscription_assign _ _ _).1, ?_⟩
    simp [newSubscriptionUaSdk, find_assign_self]

/-- Witness for C21: a subscription `slow` is constructed at address 9 on session
7; the entry of `fast` stays, the entry of `slow` in the static map is replaced. -/
theorem constructor_registers_subscription_witness :
    (newSubscriptionUaSdk exSettings 0 9 "slow" 7 100 0 0 exRegistry).2.subscriptions
        = [("fast", 1), ("slow", 9)]
    ∧ (newSubscriptionUaSdk exSettings 0 9 "slow" 7 100 0 0 exRegistry).2.sessions 7
        = [("fast", 1), ("slow", 9)]
    ∧ (newSubscriptionUaSdk exSettings 0 9 "slow" 7 100 0 0 exRegistry).2.subscriptions.find "fast"
        = exRegistry.subscriptions.find "fast"
    ∧ (SubscriptionUaSdk.findSubscription
        (newSubscriptionUaSdk exSettings 0 9 "slow" 7 100 0 0 exRegistry).2.subscriptions
        "slow").1 = Except.ok 9 :=
  ⟨by decide, by decide,
    ((constructor_registers_subscription exSettings 0 9 "slow" 7 100 0 0 exRegistry).2.2.2.1
      "fast" (by decide)).1,
    (constructor_registers_subscription exSettings 0 9 "slow" 7 100 0 0 exRegistry).2.1⟩

/-! ## The lifetime count of a new subscription -/

theorem static_cast_UInt32_of_nonneg (undef : Nat) (x : ℚ) (h0 : 0 ≤ x) (h1 : x < 2 ^ 32) :
    static_cast_UInt32 undef x = ⌊x⌋.toNat ∧ ((⌊x⌋.toNat : Nat) : ℚ) = (⌊x⌋ : ℚ) := by
  have hf0 : 0 ≤ ⌊x⌋ := Int.floor_nonneg.mpr h0
  have hf1 : ⌊x⌋ < 2 ^ 32 := by
    have h2 : (⌊x⌋ : ℚ) ≤ x := Int.floor_le x
    have h3 : (⌊x⌋ : ℚ) < ((2 ^ 32 : Int) : ℚ) := by push_cast; exact lt_of_le_of_lt h2 h1
    exact_mod_cast h3
  constructor
  · rw [static_cast_UInt32, truncate_eq, if_pos h0, if_pos ⟨hf0, hf1⟩]
  · have h4 : ((⌊x⌋.toNat : Nat) : Int) = ⌊x⌋ := Int.toNat_of_nonneg hf0
    exact_mod_cast congrArg (fun z : Int => (z : ℚ)) h4

theorem roundHalfEven_sub_le (y : ℚ) : |(roundHalfEven y : ℚ) - y| ≤ 1 / 2 := by
  have h1 : (⌊y⌋ : ℚ) ≤ y := Int.floor_le y
  have h2 : y < ⌊y⌋ + 1 := Int.lt_floor_add_one y
  unfold roundHalfEven
  split_ifs with ha hb hc
  · rw [abs_le]; constructor <;> linarith
  · rw [abs_le]; push_cast; constructor <;> linarith
  · rw [abs_le]; constructor <;> linarith
  · rw [abs_le]; push_cast; constructor <;> linarith

theorem roundHalfEven_eq_of_lt (y : ℚ) (n : Int) (h1 : (n : ℚ) - 1 / 2 < y)
    (h2 : y < n + 1 / 2) : roundHalfEven y = n := by
  have hf1 : (⌊y⌋ : ℚ) ≤ y := Int.floor_le y
  have hf2 : y < ⌊y⌋ + 1 := Int.lt_floor_add_one y
  have hcases : ⌊y⌋ = n ∨ ⌊y⌋ = n - 1 := by
    have h3 : (⌊y⌋ : ℚ) < n + 1 / 2 := lt_of_le_of_lt hf1 h2
    have h4 : (n : ℚ) - 3 / 2 < ⌊y⌋ := by linarith
    have h5 : ⌊y⌋ < n + 1 := by
      have : (⌊y⌋ : ℚ) < ((n + 1 : Int) : ℚ) := by push_cast; linarith
      exact_mod_cast this
    have h6 : n - 2 < ⌊y⌋ := by
      have : ((n - 2 : Int) : ℚ) < ⌊y⌋ := by push_cast; linarith
      exact_mod_cast this
    omega
  unfold roundHalfEven
  rcases hcases with h | h
  · have h7 : y - ⌊y⌋ < 1 / 2 := by rw [h]; linarith
    rw [if_pos h7, h]
  · have h7 : ¬ (y - ⌊y⌋ < 1 / 2) := by rw [h]; push_cast; linarith
    have h8 : 1 / 2 < y - ⌊y⌋ := by rw [h]; push_cast; linarith
    rw [if_neg h7, if_pos h8, h]
    omega

theorem int_log_two_eq (x : ℚ) (e : Int) (hx : 0 < x) (h1 : (2 : ℚ) ^ e ≤ x)
    (h2 : x < (2 : ℚ) ^ (e + 1)) : Int.log 2 x = e := by
  have ha : e ≤ Int.log 2 x := (Int.zpow_le_iff_le_log (by norm_num) hx).mp (by exact_mod_cast h1)
  have hb : Int.log 2 x < e + 1 := (Int.lt_zpow_iff_log_lt (by norm_num) hx).mp (by exact_mod_cast h2)
  omega

theorem roundFloat64_eval (x : ℚ) (e n : Int) (hx : 0 < x) (h1 : (2 : ℚ) ^ e ≤ x)
    (h2 : x < (2 : ℚ) ^ (e + 1)) (he : -1022 ≤ e)
    (hn : roundHalfEven (x / 2 ^ (e - 52)) = n)
    (hfin : |(n : ℚ) * 2 ^ (e - 52)| < 2 ^ 1024) :
    roundFloat64 x = epicsFloat64.finite (n * 2 ^ (e - 52)) := by
  have hu : ulpExponent x = e - 52 := by
    unfold ulpExponent
    rw [abs_of_pos hx, int_log_two_eq x e hx h1 h2]
    omega
  unfold roundFloat64
  rw [hu, hn, if_pos hfin]

theorem roundFloat64_normal (x : ℚ) (h1 : (2 : ℚ) ^ (-1022 : Int) ≤ x) (h2 : x ≤ 2 ^ 32) :
    ∃ q : ℚ, roundFloat64 x = epicsFloat64.finite q ∧ |q - x| ≤ x * 2 ^ (-53 : Int) := by
  have hx : 0 < x := lt_of_lt_of_le (by positivity) h1
  have hlog1 : (2 : ℚ) ^ Int.log 2 x ≤ x := by
    have := Int.zpow_log_le_self (b := 2) (r := x) (by norm_num) hx
    exact_mod_cast this
  have hlog2 : -1022 ≤ Int.log 2 x :=
    (Int.zpow_le_iff_le_log (by norm_num) hx).mp (by exact_mod_cast h1)
  have hu : ulpExponent x = Int.log 2 x - 52 := by
    unfold ulpExponent
    rw [abs_of_pos hx]
    omega
  have hupos : (0 : ℚ) < 2 ^ (Int.log 2 x - 52) := by positivity
  have hule : (2 : ℚ) ^ (Int.log 2 x - 52) ≤ x * 2 ^ (-52 : Int) := by
    rw [zpow_sub₀ (by norm_num : (2 : ℚ) ≠ 0), zpow_neg, div_eq_mul_inv]
    have hpos : (0 : ℚ) ≤ ((2 : ℚ) ^ (52 : Int))⁻¹ := by positivity
    exact mul_le_mul_of_nonneg_right hlog1 hpos
  have hr := roundHalfEven_sub_le (x / 2 ^ (Int.log 2 x - 52))
  have herr : |(roundHalfEven (x / 2 ^ (Int.log 2 x - 52)) : ℚ) * 2 ^ (Int.log 2 x - 52) - x|
      ≤ x * 2 ^ (-53 : Int) := by
    have heq : (roundHalfEven (x / 2 ^ (Int.log 2 x - 52)) : ℚ) * 2 ^ (Int.log 2 x - 52) - x
        = ((roundHalfEven (x / 2 ^ (Int.log 2 x - 52)) : ℚ) - x / 2 ^ (Int.log 2 x - 52))
          * 2 ^ (Int.log 2 x - 52) := by
      field_simp
    rw [heq, abs_mul, abs_of_pos hupos]
    have h53 : (2 : ℚ) ^ (-53 : Int) = 2 ^ (-52 : Int) * (1 / 2) := by
      rw [show (-53 : Int) = -52 + -1 from rfl, zpow_add₀ (by norm_num : (2 : ℚ) ≠ 0)]
      norm_num
    calc |(roundHalfEven (x / 2 ^ (Int.log 2 x - 52)) : ℚ) - x / 2 ^ (Int.log 2 x - 52)|
          * 2 ^ (Int.log 2 x - 52)
        ≤ 1 / 2 * 2 ^ (Int.log 2 x - 52) := mul_le_mul_of_nonneg_right hr hupos.le
      _ ≤ 1 / 2 * (x * 2 ^ (-52 : Int)) := mul_le_mul_of_nonneg_left hule (by norm_num)
      _ = x * 2 ^ (-53 : Int) := by rw [h53]; ring
  refine ⟨(roundHalfEven (x / 2 ^ (Int.log 2 x - 52)) : ℚ) * 2 ^ (Int.log 2 x - 52), ?_, herr⟩
  unfold roundFloat64
  rw [hu, if_pos]
  have h3 := (abs_le.mp herr).2
  have h4 := (abs_le.mp herr).1
  have h5 : x * (2 : ℚ) ^ (-53 : Int) ≤ x := by
    have : (2 : ℚ) ^ (-53 : Int) ≤ 1 := by
      rw [zpow_neg]
      exact inv_le_one_of_one_le₀ (by norm_num)
    calc x * (2 : ℚ) ^ (-53 : Int) ≤ x * 1 := mul_le_mul_of_nonneg_left this hx.le
      _ = x := mul_one x
  rw [abs_lt]
  constructor
  · have : -(2 : ℚ) ^ 1024 < 0 := by norm_num
    linarith
  · have : (2 : ℚ) ^ 32 + 2 ^ 32 < 2 ^ 1024 := by norm_num
    linarith

theorem roundFloat64_600000 : roundFloat64 600000 = epicsFloat64.finite 600000 := by
  have h := roundFloat64_eval 600000 19 (600000 * 2 ^ 33) (by norm_num) (by norm_num)
    (by norm_num) (by norm_num)
    (roundHalfEven_eq_of_lt _ _ (by norm_num) (by norm_num)) (by norm_num)
  rw [h]
  norm_num

theorem roundFloat64_exTenth : roundFloat64 exTenth = epicsFloat64.finite exTenth := by
  have h := roundFloat64_eval exTenth (-4) 7205759403792794 (by norm_num [exTenth])
    (by norm_num [exTenth]) (by norm_num [exTenth]) (by norm_num)
    (roundHalfEven_eq_of_lt _ _ (by norm_num [exTenth]) (by norm_num [exTenth]))
    (by rw [abs_of_pos (by norm_num)]; norm_num)
  rw [h]
  norm_num [exTenth]

theorem roundFloat64_quotient_exTenth :
    roundFloat64 (600000 / exTenth) = epicsFloat64.finite 6000000 := by
  have h := roundFloat64_eval (600000 / exTenth) 22 6442450944000000 (by norm_num [exTenth])
    (by norm_num [exTenth]) (by norm_num [exTenth]) (by norm_num)
    (roundHalfEven_eq_of_lt _ _ (by norm_num [exTenth]) (by norm_num [exTenth])) (by norm_num)
  rw [h]
  norm_num

theorem roundFloat64_quotient_small :
    roundFloat64 (600000 / (1 / 16384)) = epicsFloat64.finite 9830400000 := by
  have h := roundFloat64_eval (600000 / (1 / 16384)) 33 (9830400000 * 2 ^ 19) (by norm_num)
    (by norm_num) (by norm_num) (by norm_num)
    (roundHalfEven_eq_of_lt _ _ (by norm_num) (by norm_num)) (by norm_num)
  rw [h]
  norm_num


theorem newSubscriptionUaSdk_lifetimeCount (defaults : SubscriptionSettings) (undef this : Nat)
    (name : String) (session : Nat) (p : ℚ) (priority : Nat) (debug : Int) (r : Registry)
    (d q : ℚ) (hp : p ≠ 0)
    (hd : roundFloat64 (defaults.publishingInterval * defaults.lifetimeCount)
      = epicsFloat64.finite d)
    (hq : roundFloat64 (d / p) = epicsFloat64.finite q) :
    (newSubscriptionUaSdk defaults undef this name session p priority debug
      r).1.subscriptionSettings.lifetimeCount = static_cast_UInt32 undef q := by
  simp only [newSubscriptionUaSdk, epicsFloat64.mulRounded, hd, epicsFloat64.divRounded, hp,
    if_false, hq, epicsFloat64.static_cast_UInt32]

/-- C22 (amended): for every positive publishing interval p, with default
settings interval p0 and lifetime count c0 whose product is a double, and with
(p0 * c0) / p at least 2^-1022 and at most 2^32 - 1: the quotient is computed in
double arithmetic as a finite double q within the relative error 2^-53 of
(p0 * c0) / p, the new lifetime count is the truncation of q, and so
p * lifetimeCount ≤ p0 * c0 * (1 + 2^-53) and
p0 * c0 * (1 - 2^-53) < p * (lifetimeCount + 1); the publishing interval and the
priority are the arguments. -/
theorem constructor_keeps_default_timeout (defaults : SubscriptionSettings) (undef this : Nat)
    (name : String) (session : Nat) (p : ℚ) (priority : Nat) (debug : Int) (r : Registry)
    (hp : 0 < p)
    (hrep : roundFloat64 (defaults.publishingInterval * defaults.lifetimeCount)
      = epicsFloat64.finite (defaults.publishingInterval * defaults.lifetimeCount))
    (hlow : (2 : ℚ) ^ (-1022 : Int) ≤ defaults.publishingInterval * defaults.lifetimeCount / p)
    (hfit : defaults.publishingInterval * defaults.lifetimeCount / p ≤ 2 ^ 32 - 1) :
    ∃ q : ℚ,
      roundFloat64 (defaults.publishingInterval * defaults.lifetimeCount / p)
        = epicsFloat64.finite q
      ∧ |q - defaults.publishingInterval * defaults.lifetimeCount / p|
        ≤ defaults.publishingInterval * defaults.lifetimeCount / p * 2 ^ (-53 : Int)
      ∧ ((newSubscriptionUaSdk defaults undef this name session p priority debug
          r).1.subscriptionSettings.lifetimeCount : Int) = truncate q
      ∧ ((newSubscriptionUaSdk defaults undef this name session p priority debug
          r).1.subscriptionSettings.lifetimeCount : ℚ) ≤ q
      ∧ q < (newSubscriptionUaSdk defaults undef this name session p priority debug
          r).1.subscriptionSettings.lifetimeCount + 1
      ∧ p * (newSubscriptionUaSdk defaults undef this name session p priority debug
          r).1.subscriptionSettings.lifetimeCount
        ≤ defaults.publishingInterval * defaults.lifetimeCount * (1 + 2 ^ (-53 : Int))
      ∧ defaults.publishingInterval * defaults.lifetimeCount * (1 - 2 ^ (-53 : Int))
        < p * ((newSubscriptionUaSdk defaults undef this name session p priority debug
          r).1.subscriptionSettings.lifetimeCount + 1)
      ∧ (newSubscriptionUaSdk defaults undef this name session p priority debug
          r).1.subscriptionSettings.publishingInterval = p
      ∧ (newSubscriptionUaSdk defaults undef this name session p priority debug
          r).1.subscriptionSettings.priority = priority := by
  have hx0 : 0 < defaults.publishingInterval * defaults.lifetimeCount / p :=
    lt_of_lt_of_le (by positivity) hlow
  obtain ⟨q, hq, herr⟩ := roundFloat64_normal
    (defaults.publishingInterval * defaults.lifetimeCount / p) hlow (by linarith)
  have h53 : (2 : ℚ) ^ (-53 : Int) ≤ 2 ^ (-21 : Int) / 2 ^ 32 := by norm_num
  have h53pos : (0 : ℚ) < 2 ^ (-53 : Int) := by positivity
  have herr1 := (abs_le.mp herr).1
  have herr2 := (abs_le.mp herr).2
  have hsmall : defaults.publishingInterval * defaults.lifetimeCount / p * 2 ^ (-53 : Int)
      ≤ 2 ^ (-21 : Int) := by
    calc defaults.publishingInterval * defaults.lifetimeCount / p * 2 ^ (-53 : Int)
        ≤ 2 ^ 32 * 2 ^ (-53 : Int) :=
          mul_le_mul_of_nonneg_right (by linarith) h53pos.le
      _ = 2 ^ (-21 : Int) := by norm_num
  have h21 : (2 : ℚ) ^ (-21 : Int) < 1 := by norm_num
  have hone : defaults.publishingInterval * defaults.lifetimeCount / p * 2 ^ (-53 : Int)
      ≤ defaults.publishingInterval * defaults.lifetimeCount / p := by
    have : (2 : ℚ) ^ (-53 : Int) ≤ 1 := by norm_num
    calc defaults.publishingInterval * defaults.lifetimeCount / p * 2 ^ (-53 : Int)
        ≤ defaults.publishingInterval * defaults.lifetimeCount / p * 1 :=
          mul_le_mul_of_nonneg_left this hx0.le
      _ = _ := mul_one _
  have hq0 : 0 ≤ q := by linarith
  have hq1 : q < 2 ^ 32 := by linarith
  obtain ⟨hc, hcast⟩ := static_cast_UInt32_of_nonneg undef q hq0 hq1
  have hlc : (newSubscriptionUaSdk defaults undef this name session p priority debug
      r).1.subscriptionSettings.lifetimeCount = ⌊q⌋.toNat := by
    rw [newSubscriptionUaSdk_lifetimeCount defaults undef this name session p priority debug r
      _ q hp.ne.symm hrep hq]
    exact hc
  have hf0 : 0 ≤ ⌊q⌋ := Int.floor_nonneg.mpr hq0
  have hfl1 : (⌊q⌋ : ℚ) ≤ q := Int.floor_le q
  have hfl2 : q < ⌊q⌋ + 1 := Int.lt_floor_add_one q
  have hpx : p * (defaults.publishingInterval * defaults.lifetimeCount / p)
      = defaults.publishingInterval * defaults.lifetimeCount := by field_simp
  refine ⟨q, hq, herr, ?_, ?_, ?_, ?_, ?_, rfl, rfl⟩
  · rw [hlc, truncate_eq, if_pos hq0, Int.toNat_of_nonneg hf0]
  · rw [hlc, hcast]; exact hfl1
  · rw [hlc, hcast]; exact hfl2
  · rw [hlc, hcast]
    calc p * (⌊q⌋ : ℚ) ≤ p * q := mul_le_mul_of_nonneg_left hfl1 hp.le
      _ ≤ p * (defaults.publishingInterval * defaults.lifetimeCount / p
            + defaults.publishingInterval * defaults.lifetimeCount / p * 2 ^ (-53 : Int)) :=
          mul_le_mul_of_nonneg_left (by linarith) hp.le
      _ = p * (defaults.publishingInterval * defaults.lifetimeCount / p)
            * (1 + 2 ^ (-53 : Int)) := by ring
      _ = defaults.publishingInterval * defaults.lifetimeCount * (1 + 2 ^ (-53 : Int)) := by
          rw [hpx]
  · rw [hlc, hcast]
    calc defaults.publishingInterval * defaults.lifetimeCount * (1 - 2 ^ (-53 : Int))
        = p * (defaults.publishingInterval * defaults.lifetimeCount / p)
            * (1 - 2 ^ (-53 : Int)) := by rw [hpx]
      _ = p * (defaults.publishingInterval * defaults.lifetimeCount / p
            - defaults.publishingInterval * defaults.lifetimeCount / p * 2 ^ (-53 : Int)) := by
          ring
      _ ≤ p * q := mul_le_mul_of_nonneg_left (by linarith) hp.le
      _ < p * ((⌊q⌋ : ℚ) + 1) := mul_lt_mul_of_pos_left hfl2 hp

/-- C22 (counterexample): with the default interval 500 and lifetime count 1200.
For the publishing interval 0.1 (the double nearest to 1/10, which is above
1/10) the exact quotient is below 6000000 and its truncation is 5999999, but the
quotient of the doubles is rounded to 6000000: the lifetime count is 6000000 and
p * lifetimeCount exceeds p0 * c0. For the publishing interval 2^-14 the
quotient 9830400000 is no value of OpcUa_UInt32: whatever the undefined
conversion yields, the lifetime count is below 2^32 and not the truncation. -/
theorem constructor_lifetime_count_not_truncation :
    (0 : ℚ) < exTenth
    ∧ roundFloat64 exTenth = epicsFloat64.finite exTenth
    ∧ exSettings.publishingInterval * exSettings.lifetimeCount / exTenth < 2 ^ 32
    ∧ truncate (exSettings.publishingInterval * exSettings.lifetimeCount / exTenth) = 5999999
    ∧ (∀ undef : Nat, (newSubscriptionUaSdk exSettings undef 9 "slow" 7 exTenth 0 0
          exRegistry).1.subscriptionSettings.lifetimeCount = 6000000)
    ∧ ¬ (exTenth * (6000000 : ℚ) ≤ exSettings.publishingInterval * exSettings.lifetimeCount)
    ∧ truncate (exSettings.publishingInterval * exSettings.lifetimeCount / (1 / 16384))
        = 9830400000
    ∧ (∀ undef : Nat,
        (newSubscriptionUaSdk exSettings undef 9 "slow" 7 (1 / 16384) 0 0
          exRegistry).1.subscriptionSettings.lifetimeCount < 2 ^ 32
        ∧ ((newSubscriptionUaSdk exSettings undef 9 "slow" 7 (1 / 16384) 0 0
          exRegistry).1.subscriptionSettings.lifetimeCount : Int)
          ≠ truncate (exSettings.publishingInterval * exSettings.lifetimeCount / (1 / 16384))) := by
  have hP : exSettings.publishingInterval * (exSettings.lifetimeCount : ℚ) = 600000 := by
    norm_num [exSettings]
  have ht2 : truncate (exSettings.publishingInterval * exSettings.lifetimeCount / (1 / 16384))
      = 9830400000 := by
    rw [truncate_eq]
    norm_num [exSettings]
  refine ⟨by norm_num [exTenth], roundFloat64_exTenth, by norm_num [exSettings, exTenth], ?_, ?_,
    by norm_num [exSettings, exTenth], ht2, ?_⟩
  · rw [truncate_eq, hP, if_pos (by norm_num [exTenth]), Int.floor_eq_iff]
    constructor <;> norm_num [exTenth]
  · intro undef
    rw [newSubscriptionUaSdk_lifetimeCount exSettings undef 9 "slow" 7 exTenth 0 0 exRegistry
      600000 6000000 (by norm_num [exTenth]) (by rw [hP]; exact roundFloat64_600000)
      roundFloat64_quotient_exTenth]
    rw [(static_cast_UInt32_of_nonneg undef 6000000 (by norm_num) (by norm_num)).1]
    have hfloor : ⌊(6000000 : ℚ)⌋ = 6000000 := by
      rw [Int.floor_eq_iff]; constructor <;> norm_num
    rw [hfloor]
    rfl
  · intro undef
    have hlc : (newSubscriptionUaSdk exSettings undef 9 "slow" 7 (1 / 16384) 0 0
        exRegistry).1.subscriptionSettings.lifetimeCount = undef % 2 ^ 32 := by
      rw [newSubscriptionUaSdk_lifetimeCount exSettings undef 9 "slow" 7 (1 / 16384) 0 0
        exRegistry 600000 9830400000 (by norm_num) (by rw [hP]; exact roundFloat64_600000)
        roundFloat64_quotient_small]
      have ht : truncate (9830400000 : ℚ) = 9830400000 := by
        rw [truncate_eq, if_pos (by norm_num), Int.floor_eq_iff]
        constructor <;> norm_num
      unfold static_cast_UInt32
      rw [ht, if_neg (by norm_num)]
    have hlt : undef % 2 ^ 32 < 2 ^ 32 := Nat.mod_lt _ (by norm_num)
    refine ⟨by rw [hlc]; exact hlt, ?_⟩
    rw [hlc, ht2]
    intro h
    have h2 : ((undef % 2 ^ 32 : Nat) : Int) < 2 ^ 32 := by exact_mod_cast hlt
    rw [h] at h2
    norm_num at h2

/-- Witness for C22 (amended): the interval 100 with the defaults 500 and 1200
gives the double quotient 6000 and the lifetime count 6000. -/
theorem constructor_keeps_default_timeout_witness :
    roundFloat64 (exSettings.publishingInterval * exSettings.lifetimeCount)
        = epicsFloat64.finite (exSettings.publishingInterval * exSettings.lifetimeCount)
    ∧ ∃ q : ℚ,
      roundFloat64 (exSettings.publishingInterval * exSettings.lifetimeCount / 100)
        = epicsFloat64.finite q
      ∧ |q - exSettings.publishingInterval * exSettings.lifetimeCount / 100|
        ≤ exSettings.publishingInterval * exSettings.lifetimeCount / 100 * 2 ^ (-53 : Int)
      ∧ ((newSubscriptionUaSdk exSettings 0 9 "slow" 7 100 0 0
          exRegistry).1.subscriptionSettings.lifetimeCount : Int) = truncate q :=
  have hP : exSettings.publishingInterval * (exSettings.lifetimeCount : ℚ) = 600000 := by
    norm_num [exSettings]
  have hrep : roundFloat64 (exSettings.publishingInterval * exSettings.lifetimeCount)
      = epicsFloat64.finite (exSettings.publishingInterval * exSettings.lifetimeCount) := by
    rw [hP]; exact roundFloat64_600000
  ⟨hrep,
    (constructor_keeps_default_timeout exSettings 0 9 "slow" 7 100 0 0 exRegistry (by norm_num)
      hrep (by rw [hP]; norm_num) (by rw [hP]; norm_num)).imp
      fun _ h => ⟨h.1, h.2.1, h.2.2.1⟩⟩

/-! ## The item list of a subscription -/

theorem findItem_le (items : List Nat) (item : Nat) : findItem items item ≤ items.length := by
  induction items with
  | nil => simp [findItem]
  | cons x rest ih =>
    by_cases h : x = item
    · simp [findItem, h]
    · simp [findItem, h, ih]

theorem findItem_eq_length (items : List Nat) (item : Nat) :
    findItem items item = items.length ↔ item ∉ items := by
  induction items with
  | nil => simp [findItem]
  | cons x rest ih =>
    by_cases h : x = item
    · simp [findItem, h]
    · have h1 : ¬ item = x := fun h2 => h h2.symm
      simp [findItem, h, h1, ih]

theorem eraseIdx_findItem (items : List Nat) (item : Nat) :
    items.eraseIdx (findItem items item) = items.erase item := by
  induction items with
  | nil => simp [findItem]
  | cons x rest ih =>
    by_cases h : x = item
    · simp [findItem, h]
    · have h1 : (x == item) = false := by simpa using h
      simp [findItem, h, ih, List.erase_cons, h1]

theorem removeItemUaSdk_items (s : SubscriptionUaSdk) (item : Nat) :
    (s.removeItemUaSdk item).items = s.items.erase item := by
  by_cases h : findItem s.items item = s.items.length
  · have h1 : item ∉ s.items := (findItem_eq_length _ _).mp h
    simp [SubscriptionUaSdk.removeItemUaSdk, h, List.erase_of_not_mem h1]
  · simp [SubscriptionUaSdk.removeItemUaSdk, h, eraseIdx_findItem]

theorem removeItemUaSdk_eq (s : SubscriptionUaSdk) (item : Nat) :
    s.removeItemUaSdk item = { s with items := s.items.erase item } := by
  by_cases h : findItem s.items item = s.items.length
  · have h1 : item ∉ s.items := (findItem_eq_length _ _).mp h
    simp [SubscriptionUaSdk.removeItemUaSdk, h, List.erase_of_not_mem h1]
  · simp [SubscriptionUaSdk.removeItemUaSdk, h, eraseIdx_findItem]

theorem erase_first_occurrence (l1 l2 : List Nat) (item : Nat) (h : item ∉ l1) :
    (l1 ++ item :: l2).erase item = l1 ++ l2 := by
  rw [List.erase_append_right _ h, List.erase_cons_head]

/-- C29: addItemUaSdk appends the item at the end of the list; removeItemUaSdk
removes the first occurrence of the item and nothing else, keeping the order of
the other items, and leaves the subscription as it is when the item is absent;
for an item not in the list, add followed by remove gives the subscription back,
and after two adds one remove leaves one occurrence. Nothing but the list is
changed. -/
theorem item_list_add_remove (s : SubscriptionUaSdk) (item : Nat) :
    (s.addItemUaSdk item).items = s.items ++ [item]
    ∧ s.addItemUaSdk item = { s with items := (s.addItemUaSdk item).items }
    ∧ s.removeItemUaSdk item = { s with items := (s.removeItemUaSdk item).items }
    ∧ (∀ l1 l2, s.items = l1 ++ item :: l2 → item ∉ l1 →
        (s.removeItemUaSdk item).items = l1 ++ l2)
    ∧ (item ∉ s.items → s.removeItemUaSdk item = s)
    ∧ (item ∉ s.items → (s.addItemUaSdk item).removeItemUaSdk item = s)
    ∧ (item ∉ s.items →
        (((s.addItemUaSdk item).addItemUaSdk item).removeItemUaSdk item).items
          = s.items ++ [item])
    ∧ (s.removeItemUaSdk item).items.count item = s.items.count item - 1
    ∧ (∀ other, other ≠ item →
        (s.removeItemUaSdk item).items.count other = s.items.count other) := by
  refine ⟨rfl, rfl, ?_, ?_, ?_, ?_, ?_, ?_, ?_⟩
  · by_cases h : findItem s.items item = s.items.length <;>
    simp [SubscriptionUaSdk.removeItemUaSdk, h]
  · intro l1 l2 hs h
    rw [removeItemUaSdk_items, hs, erase_first_occurrence _ _ _ h]
  · intro h
    have h1 := (findItem_eq_length _ _).mpr h
    simp [SubscriptionUaSdk.removeItemUaSdk, h1]
  · intro h
    have h1 : (s.items ++ [item]).erase item = s.items := by
      simpa using erase_first_occurrence s.items [] item h
    rw [removeItemUaSdk_eq]
    simp only [SubscriptionUaSdk.addItemUaSdk, h1]
  · intro h
    rw [removeItemUaSdk_items]
    simpa [SubscriptionUaSdk.addItemUaSdk] using erase_first_occurrence s.items [item] item h
  · rw [removeItemUaSdk_items, List.count_erase_self]
  · intro other h
    rw [removeItemUaSdk_items, List.count_erase_of_ne h]

/-- Witness for C29: the list 4, 5, 4 loses its first 4 only; the item 6, not in
the list, is added and removed again. -/
theorem item_list_add_remove_witness :
    (exSubscription.removeItemUaSdk 4).items = [5, 4]
    ∧ (exSubscription.addItemUaSdk 6).items = [4, 5, 4, 6]
    ∧ (exSubscription.addItemUaSdk 6).removeItemUaSdk 6 = exSubscription
    ∧ (((exSubscription.addItemUaSdk 6).addItemUaSdk 6).removeItemUaSdk 6).items = [4, 5, 4, 6] :=
  ⟨(item_list_add_remove exSubscription 4).2.2.2.1 [] [5, 4] rfl (by simp), rfl,
    (item_list_add_remove exSubscription 6).2.2.2.2.2.1 (by decide),
    (item_list_add_remove exSubscription 6).2.2.2.2.2.2.1 (by decide)⟩

/-! ## A failed read -/

/-- C23: when readInt32 throws in opcua_read_int32_val processing incoming data
(reason incomingData or readComplete), VAL, TIME, PACT and UDF of the record are
as before, the only calls are taking the lock, the read and releasing the lock
(clearIncomingData is not called), and the state behind the connector, the
incoming slot included, is as before. A std::exception makes the routine return
1; anything else leaves the routine. -/
theorem read_int32_throw_keeps_incoming {σ : Type} (ops : ConnectorOps σ) (now : epicsTimeStamp)
    (w : World longinRecord σ) (pvt : RecordConnector σ) (t : Thrown)
    (hb : w.dpvt = some pvt)
    (hr : pvt.reason = ProcessReason.incomingData ∨ pvt.reason = ProcessReason.readComplete)
    (hthrow : ops.readInt32 pvt.elem = Except.error t) :
    (opcua_read_int32_val ops now w).2.prec.val = w.prec.val
    ∧ (opcua_read_int32_val ops now w).2.prec.time = w.prec.time
    ∧ (opcua_read_int32_val ops now w).2.prec.pact = w.prec.pact
    ∧ (opcua_read_int32_val ops now w).2.prec.udf = w.prec.udf
    ∧ newCalls w (opcua_read_int32_val ops now w) = [Call.lock, Call.readInt32, Call.unlock]
    ∧ Call.clearIncomingData ∉ newCalls w (opcua_read_int32_val ops now w)
    ∧ (opcua_read_int32_val ops now w).2.dpvt = some pvt
    ∧ (opcua_read_int32_val ops now w).1
        = match t with
          | Thrown.stdException _ => Except.ok 1
          | Thrown.other => Except.error Thrown.other := by
  obtain ⟨reason, lock, scanned, scanpvt, elem⟩ := pvt
  obtain ⟨prec, dpvt, calls, console⟩ := w
  simp only at hr hb hthrow
  subst hb
  cases t <;>
  by_cases h3 : prec.nsev < INVALID_ALARM <;>
  rcases hr with hr | hr <;> subst hr <;>
  simp [newCalls, opcua_read_int32_val, TRY_CATCH, Guard, bind, Body.bind, pure, pvtReason,
    getRec, setRec, errlogPrintf, callRead, callUpdate, callTotal, recGblSetSevr,
    dbCommon.recGblSetSevr, DbRecord.common, DbRecord.setCommon, Frame.toWorld, h3, hthrow]

/-- Witness for C23: a longin record with VAL 5 whose leaf has no incoming data. -/
theorem read_int32_throw_keeps_incoming_witness :
    byteLeafOps.readInt32 (exConnector ProcessReason.incomingData none).elem
        = Except.error (Thrown.stdException "no incoming data")
    ∧ (opcua_read_int32_val byteLeafOps exNow (exLongin ProcessReason.incomingData none)).2.prec.val
        = 5
    ∧ Call.clearIncomingData ∉ newCalls (exLongin ProcessReason.incomingData none)
        (opcua_read_int32_val byteLeafOps exNow (exLongin ProcessReason.incomingData none)) :=
  ⟨rfl,
    (read_int32_throw_keeps_incoming byteLeafOps exNow (exLongin ProcessReason.incomingData none)
      (exConnector ProcessReason.incomingData none) (Thrown.stdException "no incoming data")
      rfl (Or.inl rfl) rfl).1,
    (read_int32_throw_keeps_incoming byteLeafOps exNow (exLongin ProcessReason.incomingData none)
      (exConnector ProcessReason.incomingData none) (Thrown.stdException "no incoming data")
      rfl (Or.inl rfl) rfl).2.2.2.2.2.1⟩

/-! ## Mask initialisation -/

theorem shiftLeft32_eq (undef x n : Nat) (h : n < 32) :
    shiftLeft32 undef x n = (x * 2 ^ n) % 2 ^ 32 := by
  simp [shiftLeft32, h, Nat.shiftLeft_eq]

/-- C25: for records with SHFT < 32, opcua_init_mask_read and
opcua_init_mask_write set MASK to ((NOBT == 0 ? 0xFFFFFFFF : MASK) * 2^SHFT)
mod 2^32 and change no other field; the first returns 0, the second 2. -/
theorem init_mask_shifts_mask (undef : Nat) (pin : mbbiRecord) (pout : mbboRecord)
    (hin : pin.shft < 32) (hout : pout.shft < 32) :
    opcua_init_mask_read undef pin
      = (0, { pin with
          mask := ((if pin.nobt = 0 then 0xFFFFFFFF else pin.mask) * 2 ^ pin.shft) % 2 ^ 32 })
    ∧ opcua_init_mask_write undef pout
      = (2, { pout with
          mask := ((if pout.nobt = 0 then 0xFFFFFFFF else pout.mask) * 2 ^ pout.shft) % 2 ^ 32 }) := by
  constructor
  · by_cases h : pin.nobt = 0 <;>
    simp [opcua_init_mask_read, h, shiftLeft32_eq _ _ _ hin]
  · by_cases h : pout.nobt = 0 <;>
    simp [opcua_init_mask_write, h, shiftLeft32_eq _ _ _ hout]

/-- Witness for C25: MASK 7 shifted by 4 is 0x70; MASK 0xFF0 shifted by 4 is 0xFF00. -/
theorem init_mask_shifts_mask_witness :
    exMbbi.shft < 32 ∧ exMbbo.shft < 32
    ∧ opcua_init_mask_read 0 exMbbi = (0, { exMbbi with mask := 0x70 })
    ∧ opcua_init_mask_write 0 exMbbo = (2, { exMbbo with mask := 0xff00 }) :=
  ⟨by decide, by decide,
    (init_mask_shifts_mask 0 exMbbi exMbbo (by decide) (by decide)).1,
    (init_mask_shifts_mask 0 exMbbi exMbbo (by decide) (by decide)).2⟩

/-! ## Read-back of an enum output -/

theorem stateLoop_frame (z : Nat → Nat) (s i n : Nat) (prec : mbboRecord) :
    stateLoop z s i n prec = { prec with val := (stateLoop z s i n prec).val } := by
  induction n generalizing i with
  | zero => rfl
  | succ n ih =>
    by_cases h : z i = s
    · simp [stateLoop, h]
    · simp only [stateLoop, h, if_false]
      exact ih (i + 1)

theorem stateLoop_fields (z : Nat → Nat) (s i n : Nat) (prec : mbboRecord) :
    (stateLoop z s i n prec).todbCommon = prec.todbCommon
    ∧ (stateLoop z s i n prec).nobt = prec.nobt
    ∧ (stateLoop z s i n prec).zrvl = prec.zrvl
    ∧ (stateLoop z s i n prec).rval = prec.rval
    ∧ (stateLoop z s i n prec).mask = prec.mask
    ∧ (stateLoop z s i n prec).shft = prec.shft
    ∧ (stateLoop z s i n prec).sdef = prec.sdef := by
  rw [stateLoop_frame]
  exact ⟨rfl, rfl, rfl, rfl, rfl, rfl, rfl⟩

theorem stateLoop_val_of_none (z : Nat → Nat) (s i n : Nat) (prec : mbboRecord)
    (h : ∀ j, i ≤ j → j < i + n → z j ≠ s) : (stateLoop z s i n prec).val = prec.val := by
  induction n generalizing i with
  | zero => rfl
  | succ n ih =>
    have h1 : z i ≠ s := h i (le_refl _) (by omega)
    simp only [stateLoop, h1, if_false]
    exact ih (i + 1) (fun j hj1 hj2 => h j (by omega) (by omega))

theorem stateLoop_val_of_first (z : Nat → Nat) (s i n k : Nat) (prec : mbboRecord)
    (hk1 : i ≤ k) (hk2 : k < i + n) (hs : z k = s) (hleast : ∀ j, i ≤ j → j < k → z j ≠ s) :
    (stateLoop z s i n prec).val = k := by
  induction n generalizing i with
  | zero => omega
  | succ n ih =>
    by_cases h : i = k
    · subst h
      simp [stateLoop, hs]
    · have h1 : z i ≠ s := hleast i (le_refl _) (by omega)
      simp only [stateLoop, h1, if_false]
      exact ih (i + 1) (by omega) (by omega) (fun j hj1 hj2 => hleast j (by omega) hj2)

theorem opcua_write_enum_incoming {σ : Type} (ops : ConnectorOps σ) (undef : Nat)
    (now : epicsTimeStamp) (w : World mbboRecord σ) (pvt : RecordConnector σ) (raw : Nat)
    (hb : w.dpvt = some pvt)
    (hr : pvt.reason = ProcessReason.incomingData ∨ pvt.reason = ProcessReason.readComplete)
    (hread : ops.readUInt32 pvt.elem = Except.ok raw) :
    (opcua_write_enum ops undef now w).2.prec.rval = raw &&& w.prec.mask
    ∧ (opcua_write_enum ops undef now w).2.prec.val
      = (if w.prec.sdef ≠ 0 then
          (stateLoop w.prec.zrvl
            (if 0 < w.prec.shft then shiftRight32 undef (raw &&& w.prec.mask) w.prec.shft
              else raw &&& w.prec.mask) 0 16
            { w.prec with rval := raw &&& w.prec.mask, val := 65535 }).val
        else (if 0 < w.prec.shft then shiftRight32 undef (raw &&& w.prec.mask) w.prec.shft
              else raw &&& w.prec.mask) % 65536)
    ∧ (opcua_write_enum ops undef now w).2.prec.udf = false
    ∧ (opcua_write_enum ops undef now w).2.prec.mask = w.prec.mask
    ∧ (opcua_write_enum ops undef now w).2.prec.shft = w.prec.shft
    ∧ (opcua_write_enum ops undef now w).2.prec.zrvl = w.prec.zrvl := by
  obtain ⟨reason, lock, scanned, scanpvt, elem⟩ := pvt
  obtain ⟨prec, dpvt, calls, console⟩ := w
  simp only at hr hb hread
  subst hb
  have hf := fun s => stateLoop_fields prec.zrvl s 0 16
    { prec with rval := raw &&& prec.mask, val := 65535 }
  simp only at hf
  rcases hc : ops.checkReadStatus elem with (_ | _) | _ <;>
  by_cases h2 : prec.sdef = 0 <;>
  by_cases h3 : 1 < prec.tpro <;> by_cases h4 : prec.nsev < INVALID_ALARM <;>
  rcases hr with hr | hr <;> subst hr <;>
  simp [opcua_write_enum, TRY_CATCH, Guard, bind, Body.bind, pure, pvtReason,
    getRec, setRec, errlogPrintf, callRead, callUpdate, callTotal, recGblSetSevr,
    dbCommon.recGblSetSevr, DbRecord.common, DbRecord.setCommon, Frame.toWorld, h2, h3, h4,
    hread, hc, hf]

/-- C24: read-back in opcua_write_enum on incoming data, with raw the value
returned by readUInt32: RVAL is raw AND MASK, not shifted; with s the value
RVAL >> SHFT (RVAL itself when SHFT is 0; the shift of the embedding, which for
SHFT < 32 is the shift of the natural numbers), when SDEF is set VAL is the least
index in 0..15 whose state value equals s, and 65535 when no state value equals
s; when SDEF is not set VAL is s modulo 2^16; UDF is cleared. MASK, SHFT and the
state values are unchanged. -/
theorem write_enum_readback {σ : Type} (ops : ConnectorOps σ) (undef : Nat)
    (now : epicsTimeStamp) (w : World mbboRecord σ) (pvt : RecordConnector σ) (raw s : Nat)
    (hb : w.dpvt = some pvt)
    (hr : pvt.reason = ProcessReason.incomingData ∨ pvt.reason = ProcessReason.readComplete)
    (hread : ops.readUInt32 pvt.elem = Except.ok raw)
    (hs : s = if 0 < w.prec.shft then shiftRight32 undef (raw &&& w.prec.mask) w.prec.shft
      else raw &&& w.prec.mask) :
    (opcua_write_enum ops undef now w).2.prec.rval = raw &&& w.prec.mask
    ∧ (w.prec.shft < 32 → s = (raw &&& w.prec.mask) >>> w.prec.shft)
    ∧ (w.prec.sdef ≠ 0 →
        (∀ i, i < 16 → w.prec.zrvl i = s → (∀ j, j < i → w.prec.zrvl j ≠ s) →
          (opcua_write_enum ops undef now w).2.prec.val = i)
        ∧ ((∀ i, i < 16 → w.prec.zrvl i ≠ s) →
          (opcua_write_enum ops undef now w).2.prec.val = 65535))
    ∧ (w.prec.sdef = 0 → (opcua_write_enum ops undef now w).2.prec.val = s % 65536)
    ∧ (opcua_write_enum ops undef now w).2.prec.udf = false
    ∧ (opcua_write_enum ops undef now w).2.prec.mask = w.prec.mask
    ∧ (opcua_write_enum ops undef now w).2.prec.shft = w.prec.shft
    ∧ (opcua_write_enum ops undef now w).2.prec.zrvl = w.prec.zrvl := by
  obtain ⟨h1, h2, h3, h4, h5, h6⟩ := opcua_write_enum_incoming ops undef now w pvt raw hb hr hread
  rw [← hs] at h2
  refine ⟨h1, ?_, ?_, ?_, h3, h4, h5, h6⟩
  · intro hlt
    by_cases h0 : 0 < w.prec.shft
    · rw [hs, if_pos h0, shiftRight32, if_pos hlt]
    · have h00 : w.prec.shft = 0 := by omega
      rw [hs, if_neg h0, h00, Nat.shiftRight_zero]
  · intro hsdef
    rw [if_pos hsdef] at h2
    constructor
    · intro i hi hzi hleast
      rw [h2]
      exact stateLoop_val_of_first _ _ _ _ _ _ (Nat.zero_le _) (by omega) hzi
        (fun j _ hj => hleast j hj)
    · intro hnone
      rw [h2, stateLoop_val_of_none _ _ _ _ _ (fun j _ hj => hnone j (by omega))]
  · intro hsdef
    rw [h2, if_neg (by simpa using hsdef)]

/-- Witness for C24: the value 0x25 is read back; RVAL is 0x20, s is 2, and of the
states 1 and 3, both with the value 2, the first gives VAL 1. -/
theorem write_enum_readback_witness :
    byteLeafOps.readUInt32 (exConnector ProcessReason.incomingData (some 37)).elem = Except.ok 37
    ∧ (2 : Nat) = (if 0 < exMbbo.shft then shiftRight32 0 (37 &&& exMbbo.mask) exMbbo.shft
        else 37 &&& exMbbo.mask)
    ∧ exMbbo.zrvl 1 = 2 ∧ exMbbo.zrvl 3 = 2
    ∧ (opcua_write_enum byteLeafOps 0 exNow
        (exMbboWorld ProcessReason.incomingData (some 37))).2.prec.rval = 32
    ∧ (opcua_write_enum byteLeafOps 0 exNow
        (exMbboWorld ProcessReason.incomingData (some 37))).2.prec.val = 1 :=
  ⟨rfl, by decide, rfl, rfl,
    (write_enum_readback byteLeafOps 0 exNow (exMbboWorld ProcessReason.incomingData (some 37))
      (exConnector ProcessReason.incomingData (some 37)) 37 2 rfl (Or.inl rfl) rfl
      (by decide)).1,
    ((write_enum_readback byteLeafOps 0 exNow (exMbboWorld ProcessReason.incomingData (some 37))
      (exConnector ProcessReason.incomingData (some 37)) 37 2 rfl (Or.inl rfl) rfl
      (by decide)).2.2.1 (by decide)).1 1 (by decide) rfl
      (fun j hj => by
        have h0 : j = 0 := by omega
        subst h0
        decide)⟩

/-! ## Analog input -/

/-- C26 (amended): opcua_read_analog on incoming data, when the read of the leaf
and checkReadStatus do not throw: with LINR = NO_CONVERSION the leaf is read as
Float64 (readInt32 is not called), UDF is cleared, RVAL is unchanged and the
routine returns 2; with any other LINR RVAL is the result of readInt32
(readFloat64 is not called), VAL and UDF are unchanged and the routine returns
0; in both cases clearIncomingData is called once, after the read. -/
theorem read_analog_selects_by_linr {σ : Type} (ops : ConnectorOps σ)
    (fops : ConnectorFloatOps σ) (now : epicsTimeStamp) (w : World aiRecord σ)
    (pvt : RecordConnector σ) (e1 : σ)
    (hb : w.dpvt = some pvt)
    (hr : pvt.reason = ProcessReason.incomingData ∨ pvt.reason = ProcessReason.readComplete)
    (hcheck : ops.checkReadStatus pvt.elem = Except.ok e1) :
    (w.prec.linr = menuConvertNO_CONVERSION →
      ∀ x, fops.readFloat64 pvt.elem = Except.ok x →
        (opcua_read_analog ops fops now w).1 = Except.ok 2
        ∧ (opcua_read_analog ops fops now w).2.prec.udf = false
        ∧ (opcua_read_analog ops fops now w).2.prec.rval = w.prec.rval
        ∧ newCalls w (opcua_read_analog ops fops now w) =
            [Call.lock, Call.readFloat64]
              ++ (if w.prec.tse = epicsTimeEventDeviceTime then [Call.readTimeStamp] else [])
              ++ [Call.checkReadStatus, Call.clearIncomingData, Call.unlock])
    ∧ (w.prec.linr ≠ menuConvertNO_CONVERSION →
      ∀ v, ops.readInt32 pvt.elem = Except.ok v →
        (opcua_read_analog ops fops now w).1 = Except.ok 0
        ∧ (opcua_read_analog ops fops now w).2.prec.rval = v
        ∧ (opcua_read_analog ops fops now w).2.prec.val = w.prec.val
        ∧ (opcua_read_analog ops fops now w).2.prec.udf = w.prec.udf
        ∧ newCalls w (opcua_read_analog ops fops now w) =
            [Call.lock, Call.readInt32]
              ++ (if w.prec.tse = epicsTimeEventDeviceTime then [Call.readTimeStamp] else [])
              ++ [Call.checkReadStatus, Call.clearIncomingData, Call.unlock]) := by
  obtain ⟨reason, lock, scanned, scanpvt, elem⟩ := pvt
  obtain ⟨prec, dpvt, calls, console⟩ := w
  simp only at hr hb hcheck
  subst hb
  constructor
  · intro hl x hread
    simp only at hl hread
    by_cases h1 : prec.tse = epicsTimeEventDeviceTime <;> by_cases h2 : 1 < prec.tpro <;>
    by_cases h3 : (prec.smoo.isZero = true ∨ prec.udf = true ∨ prec.val.isfinite = false) <;>
    rcases hr with hr | hr <;> subst hr <;>
    simp [newCalls, opcua_read_analog, TRY_CATCH, Guard, bind, Body.bind, pure, pvtReason,
      getRec, setRec, errlogPrintf, callRead, callUpdate, callTotal, recGblSetSevr,
      dbCommon.recGblSetSevr, DbRecord.common, DbRecord.setCommon, Frame.toWorld, h1, h2, h3,
      hl, hread, hcheck]
  · intro hl v hread
    simp only at hl hread
    by_cases h1 : prec.tse = epicsTimeEventDeviceTime <;> by_cases h2 : 1 < prec.tpro <;>
    rcases hr with hr | hr <;> subst hr <;>
    simp [newCalls, opcua_read_analog, TRY_CATCH, Guard, bind, Body.bind, pure, pvtReason,
      getRec, setRec, errlogPrintf, callRead, callUpdate, callTotal, recGblSetSevr,
      dbCommon.recGblSetSevr, DbRecord.common, DbRecord.setCommon, Frame.toWorld, h1, h2,
      hl, hread, hcheck]

/-- C26 (counterexample): on incoming data with LINR = NO_CONVERSION and an empty
incoming slot, readFloat64 throws: the routine returns 1, not 2, VAL and UDF are
as before and clearIncomingData is not called. With another LINR and a status
check that throws, RVAL is set to the value read, but the routine returns 1, not
0, and clearIncomingData is not called. -/
theorem read_analog_throw_skips_clear :
    (exAiWorld 0 0 ProcessReason.incomingData none).prec.linr = menuConvertNO_CONVERSION
    ∧ (opcua_read_analog byteLeafOps exFloatOps exNow
        (exAiWorld 0 0 ProcessReason.incomingData none)).1 = Except.ok 1
    ∧ (opcua_read_analog byteLeafOps exFloatOps exNow
        (exAiWorld 0 0 ProcessReason.incomingData none)).2.prec.val = epicsFloat64.finite 10
    ∧ newCalls (exAiWorld 0 0 ProcessReason.incomingData none)
        (opcua_read_analog byteLeafOps exFloatOps exNow
          (exAiWorld 0 0 ProcessReason.incomingData none))
        = [Call.lock, Call.readFloat64, Call.unlock]
    ∧ (exAiWorld 1 0 ProcessReason.incomingData (some 3)).prec.linr ≠ menuConvertNO_CONVERSION
    ∧ (opcua_read_analog exBadStatusOps exFloatOps exNow
        (exAiWorld 1 0 ProcessReason.incomingData (some 3))).1 = Except.ok 1
    ∧ (opcua_read_analog exBadStatusOps exFloatOps exNow
        (exAiWorld 1 0 ProcessReason.incomingData (some 3))).2.prec.rval = 3
    ∧ newCalls (exAiWorld 1 0 ProcessReason.incomingData (some 3))
        (opcua_read_analog exBadStatusOps exFloatOps exNow
          (exAiWorld 1 0 ProcessReason.incomingData (some 3)))
        = [Call.lock, Call.readInt32, Call.checkReadStatus, Call.unlock] :=
  ⟨rfl, rfl, rfl, rfl, by decide, rfl, rfl, rfl⟩

/-- Witness for C26 (amended): the value 3 is read as Float64 with LINR =
NO_CONVERSION (return value 2) and as Int32 with LINR 1 (return value 0, RVAL 3). -/
theorem read_analog_selects_by_linr_witness :
    byteLeafOps.checkReadStatus (exConnector ProcessReason.incomingData (some 3)).elem
        = Except.ok (exConnector ProcessReason.incomingData (some 3)).elem
    ∧ (opcua_read_analog byteLeafOps exFloatOps exNow
        (exAiWorld 0 0 ProcessReason.incomingData (some 3))).1 = Except.ok 2
    ∧ (opcua_read_analog byteLeafOps exFloatOps exNow
        (exAiWorld 1 0 ProcessReason.incomingData (some 3))).1 = Except.ok 0
    ∧ (opcua_read_analog byteLeafOps exFloatOps exNow
        (exAiWorld 1 0 ProcessReason.incomingData (some 3))).2.prec.rval = 3 :=
  ⟨rfl,
    ((read_analog_selects_by_linr byteLeafOps exFloatOps exNow
      (exAiWorld 0 0 ProcessReason.incomingData (some 3))
      (exConnector ProcessReason.incomingData (some 3)) _ rfl (Or.inl rfl) rfl).1 rfl
      (epicsFloat64.finite 3) rfl).1,
    ((read_analog_selects_by_linr byteLeafOps exFloatOps exNow
      (exAiWorld 1 0 ProcessReason.incomingData (some 3))
      (exConnector ProcessReason.incomingData (some 3)) _ rfl (Or.inl rfl) rfl).2 (by decide)
      3 rfl).1,
    ((read_analog_selects_by_linr byteLeafOps exFloatOps exNow
      (exAiWorld 1 0 ProcessReason.incomingData (some 3))
      (exConnector ProcessReason.incomingData (some 3)) _ rfl (Or.inl rfl) rfl).2 (by decide)
      3 rfl).2.1⟩

set_option maxHeartbeats 4000000 in
theorem opcua_read_analog_val {σ : Type} (ops : ConnectorOps σ)
    (fops : ConnectorFloatOps σ) (now : epicsTimeStamp) (w : World aiRecord σ)
    (pvt : RecordConnector σ) (x : epicsFloat64)
    (hb : w.dpvt = some pvt)
    (hr : pvt.reason = ProcessReason.incomingData ∨ pvt.reason = ProcessReason.readComplete)
    (hl : w.prec.linr = menuConvertNO_CONVERSION)
    (hread : fops.readFloat64 pvt.elem = Except.ok x) :
    (opcua_read_analog ops fops now w).2.prec.val
      = (if w.prec.smoo.isZero = true ∨ w.prec.udf = true ∨ w.prec.val.isfinite = false then
          (if w.prec.aslo.isZero = true then x else x * w.prec.aslo) + w.prec.aoff
        else w.prec.val * w.prec.smoo
          + ((if w.prec.aslo.isZero = true then x else x * w.prec.aslo) + w.prec.aoff)
            * (epicsFloat64.finite 1 - w.prec.smoo)) := by
  obtain ⟨reason, lock, scanned, scanpvt, elem⟩ := pvt
  obtain ⟨prec, dpvt, calls, console⟩ := w
  simp only at hr hb hl hread
  subst hb
  rcases hc : ops.checkReadStatus elem with (_ | _) | _ <;>
  by_cases h1 : prec.tse = epicsTimeEventDeviceTime <;> by_cases h2 : 1 < prec.tpro <;>
  by_cases h3 : (prec.smoo.isZero = true ∨ prec.udf = true ∨ prec.val.isfinite = false) <;>
  by_cases h4 : prec.nsev < INVALID_ALARM <;>
  rcases hr with hr | hr <;> subst hr <;>
  simp [opcua_read_analog, TRY_CATCH, Guard, bind, Body.bind, pure, pvtReason,
    getRec, setRec, errlogPrintf, callRead, callUpdate, callTotal, recGblSetSevr,
    dbCommon.recGblSetSevr, DbRecord.common, DbRecord.setCommon, Frame.toWorld, h1, h2, h3, h4,
    hl, hread, hc] <;>
  (cases h5 : prec.aslo.isZero <;> simp)

/-- C27: analog input with LINR = NO_CONVERSION, in exact arithmetic: with x the
Float64 read from the leaf, value = x * ASLO + AOFF when ASLO is not zero and
value = x + AOFF when ASLO is zero; the new VAL is value when SMOO is 0, or the
record is undefined (UDF), or the old VAL is not finite, and otherwise it is
oldVAL * SMOO + value * (1 - SMOO). -/
theorem read_analog_scaling_smoothing {σ : Type} (ops : ConnectorOps σ)
    (fops : ConnectorFloatOps σ) (now : epicsTimeStamp) (w : World aiRecord σ)
    (pvt : RecordConnector σ) (x aslo aoff smoo value : ℚ)
    (hb : w.dpvt = some pvt)
    (hr : pvt.reason = ProcessReason.incomingData ∨ pvt.reason = ProcessReason.readComplete)
    (hl : w.prec.linr = menuConvertNO_CONVERSION)
    (hread : fops.readFloat64 pvt.elem = Except.ok (epicsFloat64.finite x))
    (haslo : w.prec.aslo = epicsFloat64.finite aslo)
    (haoff : w.prec.aoff = epicsFloat64.finite aoff)
    (hsmoo : w.prec.smoo = epicsFloat64.finite smoo)
    (hvalue : value = if aslo ≠ 0 then x * aslo + aoff else x + aoff) :
    (smoo = 0 ∨ w.prec.udf = true ∨ w.prec.val = epicsFloat64.notFinite →
      (opcua_read_analog ops fops now w).2.prec.val = epicsFloat64.finite value)
    ∧ (∀ old, smoo ≠ 0 → w.prec.udf = false → w.prec.val = epicsFloat64.finite old →
      (opcua_read_analog ops fops now w).2.prec.val
        = epicsFloat64.finite (old * smoo + value * (1 - smoo))) := by
  have hval := opcua_read_analog_val ops fops now w pvt (epicsFloat64.finite x) hb hr hl hread
  have hv : (if w.prec.aslo.isZero = true then epicsFloat64.finite x
      else epicsFloat64.finite x * w.prec.aslo) + w.prec.aoff = epicsFloat64.finite value := by
    rw [haslo, haoff, hvalue]
    by_cases h : aslo = 0
    · simp [epicsFloat64.isZero, h, HAdd.hAdd, Add.add, epicsFloat64.add]
    · simp [epicsFloat64.isZero, h, HAdd.hAdd, Add.add, HMul.hMul, Mul.mul, epicsFloat64.add,
        epicsFloat64.mul]
  rw [hv] at hval
  constructor
  · intro h
    rw [hval, if_pos]
    rcases h with h | h | h
    · left; simp [hsmoo, epicsFloat64.isZero, h]
    · right; left; exact h
    · right; right; simp [h, epicsFloat64.isfinite]
  · intro old h1 h2 h3
    rw [hval, if_neg, h3, hsmoo]
    · simp [HAdd.hAdd, Add.add, HMul.hMul, Mul.mul, HSub.hSub, Sub.sub, epicsFloat64.add,
        epicsFloat64.mul, epicsFloat64.sub]
    · simp [hsmoo, epicsFloat64.isZero, h1, h2, h3, epicsFloat64.isfinite]

/-- Witness for C27: x = 3, ASLO 2, AOFF 1 give value 7; with SMOO 1/2 and the
old VAL 10 the new VAL is 10 * 1/2 + 7 * 1/2 = 17/2. -/
theorem read_analog_scaling_smoothing_witness :
    exFloatOps.readFloat64 (exConnector ProcessReason.incomingData (some 3)).elem
        = Except.ok (epicsFloat64.finite 3)
    ∧ (7 : ℚ) = (if (2 : ℚ) ≠ 0 then 3 * 2 + 1 else 3 + 1)
    ∧ (opcua_read_analog byteLeafOps exFloatOps exNow
        (exAiWorld 0 (1 / 2) ProcessReason.incomingData (some 3))).2.prec.val
        = epicsFloat64.finite (10 * (1 / 2) + 7 * (1 - 1 / 2)) :=
  ⟨rfl, by norm_num,
    (read_analog_scaling_smoothing byteLeafOps exFloatOps exNow
      (exAiWorld 0 (1 / 2) ProcessReason.incomingData (some 3))
      (exConnector ProcessReason.incomingData (some 3)) 3 2 1 (1 / 2) 7 rfl (Or.inl rfl) rfl rfl
      rfl rfl rfl (by norm_num)).2 10 (by norm_num) rfl rfl⟩

/-! ## Records without a connector -/

theorem TRY_CATCH_unbound {R σ : Type} [DbRecord R] (recName : R → String) (w : World R σ)
    (body : Body (Frame R σ) Int) (h : w.dpvt = none) :
    TRY_CATCH recName w body = (Except.ok 0, w) := by
  simp [TRY_CATCH, h]

/-- C28: when `dpvt` is null, every processing routine returns 0 and leaves the
world as it is (no record field is changed, no call is made, nothing is
printed), and opcua_get_ioint returns 0 without writing the scan handle; when
`dpvt` is set, opcua_get_ioint sets isIoIntrScanned to (cmd == 0), writes the
scan handle of the connector and returns 0, leaving the rest as it is. -/
theorem unbound_record_is_not_processed {σ β : Type} (ops : ConnectorOps σ)
    (sops : ConnectorStringOps σ) (aops : ConnectorArrayOps σ β) (fops : ConnectorFloatOps σ)
    (undef : Nat) (now : epicsTimeStamp) :
    (∀ w, w.dpvt = none → opcua_read_int32_val ops now w = (Except.ok 0, w))
    ∧ (∀ w, w.dpvt = none → opcua_write_int32_val ops now w = (Except.ok 0, w))
    ∧ (∀ w, w.dpvt = none → opcua_read_int64_val ops now w = (Except.ok 0, w))
    ∧ (∀ w, w.dpvt = none → opcua_write_int64_val ops now w = (Except.ok 0, w))
    ∧ (∀ w, w.dpvt = none → opcua_read_uint32_rval ops now w = (Except.ok 0, w))
    ∧ (∀ w, w.dpvt = none → opcua_write_uint32_rval ops now w = (Except.ok 0, w))
    ∧ (∀ w, w.dpvt = none → opcua_read_analog ops fops now w = (Except.ok 0, w))
    ∧ (∀ w, w.dpvt = none → opcua_write_enum ops undef now w = (Except.ok 0, w))
    ∧ (∀ w, w.dpvt = none → opcua_read_lstring_val ops sops now w = (Except.ok 0, w))
    ∧ (∀ w, w.dpvt = none → opcua_read_array ops aops now w = (Except.ok 0, w))
    ∧ (∀ (R : Type) (inst : DbRecord R) (recName : R → String) (w : World R σ)
        (body : Body (Frame R σ) Int), w.dpvt = none →
        @TRY_CATCH R σ inst recName w body = (Except.ok 0, w))
    ∧ (∀ (R : Type) (cmd : Int) (w : World R σ) (ppvt : Nat), w.dpvt = none →
        opcua_get_ioint cmd w ppvt = (0, w, ppvt))
    ∧ (∀ (R : Type) (cmd : Int) (w : World R σ) (ppvt : Nat) (pvt : RecordConnector σ),
        w.dpvt = some pvt →
        opcua_get_ioint cmd w ppvt
          = (0, { w with dpvt := some { pvt with isIoIntrScanned := decide (cmd = 0) } },
              pvt.ioscanpvt)) := by
  refine ⟨?_, ?_, ?_, ?_, ?_, ?_, ?_, ?_, ?_, ?_, ?_, ?_, ?_⟩
  · exact fun w h => TRY_CATCH_unbound _ w _ h
  · exact fun w h => TRY_CATCH_unbound _ w _ h
  · exact fun w h => TRY_CATCH_unbound _ w _ h
  · exact fun w h => TRY_CATCH_unbound _ w _ h
  · exact fun w h => TRY_CATCH_unbound _ w _ h
  · exact fun w h => TRY_CATCH_unbound _ w _ h
  · exact fun w h => TRY_CATCH_unbound _ w _ h
  · exact fun w h => TRY_CATCH_unbound _ w _ h
  · exact fun w h => TRY_CATCH_unbound _ w _ h
  · exact fun w h => TRY_CATCH_unbound _ w _ h
  · intro R inst recName w body h
    exact @TRY_CATCH_unbound R σ inst recName w body h
  · intro R cmd w ppvt h
    simp [opcua_get_ioint, h]
  · intro R cmd w ppvt pvt h
    by_cases hc : cmd = 0 <;> simp [opcua_get_ioint, h, hc]

/-- Witness for C28: a longin record with a null `dpvt` is handed to
opcua_read_int32_val and to opcua_get_ioint; a bound one is handed to
opcua_get_ioint with cmd 0. -/
theorem unbound_record_is_not_processed_witness :
    exUnbound.dpvt = none
    ∧ opcua_read_int32_val byteLeafOps exNow exUnbound = (Except.ok 0, exUnbound)
    ∧ opcua_get_ioint 0 exUnbound 42 = (0, exUnbound, 42)
    ∧ (opcua_get_ioint 0 (exLongin ProcessReason.none none) 42).2.2 = 0
    ∧ ((opcua_get_ioint 0 (exLongin ProcessReason.none none) 42).2.1.dpvt.map
        fun c => c.isIoIntrScanned) = some true :=
  ⟨rfl,
    (unbound_record_is_not_processed byteLeafOps exStringOps exArrayOps exFloatOps 0 exNow).1
      exUnbound rfl,
    (unbound_record_is_not_processed byteLeafOps exStringOps exArrayOps exFloatOps 0
      exNow).2.2.2.2.2.2.2.2.2.2.2.1 longinRecord 0 exUnbound 42 rfl,
    rfl, rfl⟩

/-! ## The opcuaItem record -/

theorem readValue_pact (env : RecordSupportCalls) (prec : opcuaItemRecord) :
    (readValue env prec).2.pact = prec.pact := by
  have hne : ¬ menuYesNoYES = menuYesNoNO := by decide
  unfold readValue
  by_cases h0 : prec.pact = true
  · simp [h0]
  · by_cases h1 : (env.dbGetLink prec.siml prec.simm).1 = 0
    · by_cases h2 : (env.dbGetLink prec.siml prec.simm).2 = menuYesNoNO
      · simp [h0, h1, h2]
      · by_cases h3 : (env.dbGetLink prec.siml prec.simm).2 = menuYesNoYES
        · by_cases h4 : prec.nsev < prec.sims <;>
          simp [h0, h1, h2, h3, h4, hne, recGblSetSevr, dbCommon.recGblSetSevr, DbRecord.common,
            DbRecord.setCommon]
        · by_cases h4 : prec.nsev < INVALID_ALARM <;>
          simp [h0, h1, h2, h3, h4, hne, recGblSetSevr, dbCommon.recGblSetSevr, DbRecord.common,
            DbRecord.setCommon]
    · simp [h0, h1]

/-- C30: for every record state and every behaviour of the EPICS base functions,
process returns with PACT false and returns the status of readValue. readValue
returns 0 and clears UDF when the record was already active (PACT), and, after
reading SIML with status 0, when SIMM is NO or YES (for YES after
recGblSetSevr with SIMM_ALARM and the severity SIMS); it returns -1 after
recGblSetSevr with SOFT_ALARM and INVALID_ALARM, UDF unchanged, for any other
SIMM; it returns the status of dbGetLink, UDF unchanged, when that is not 0. -/
theorem item_process_is_synchronous (env : RecordSupportCalls) (w : ItemWorld) :
    (process env w).2.prec.pact = false
    ∧ (process env w).1 = (readValue env w.prec).1
    ∧ (w.prec.pact = true → readValue env w.prec = (0, { w.prec with udf := false }))
    ∧ (w.prec.pact = false → (env.dbGetLink w.prec.siml w.prec.simm).1 ≠ 0 →
        readValue env w.prec
          = ((env.dbGetLink w.prec.siml w.prec.simm).1,
              { w.prec with simm := (env.dbGetLink w.prec.siml w.prec.simm).2 }))
    ∧ (w.prec.pact = false → (env.dbGetLink w.prec.siml w.prec.simm).1 = 0 →
        (env.dbGetLink w.prec.siml w.prec.simm).2 = menuYesNoNO →
        readValue env w.prec
          = (0, { w.prec with simm := (env.dbGetLink w.prec.siml w.prec.simm).2, udf := false }))
    ∧ (w.prec.pact = false → (env.dbGetLink w.prec.siml w.prec.simm).1 = 0 →
        (env.dbGetLink w.prec.siml w.prec.simm).2 = menuYesNoYES →
        readValue env w.prec
          = (0, { recGblSetSevr
                    { w.prec with simm := (env.dbGetLink w.prec.siml w.prec.simm).2 }
                    SIMM_ALARM w.prec.sims with udf := false }))
    ∧ (w.prec.pact = false → (env.dbGetLink w.prec.siml w.prec.simm).1 = 0 →
        (env.dbGetLink w.prec.siml w.prec.simm).2 ≠ menuYesNoNO →
        (env.dbGetLink w.prec.siml w.prec.simm).2 ≠ menuYesNoYES →
        readValue env w.prec
          = (-1, recGblSetSevr
                    { w.prec with simm := (env.dbGetLink w.prec.siml w.prec.simm).2 }
                    SOFT_ALARM INVALID_ALARM)
        ∧ (readValue env w.prec).2.udf = w.prec.udf) := by
  have hp := readValue_pact env w.prec
  refine ⟨?_, ?_, ?_, ?_, ?_, ?_, ?_⟩
  · unfold process
    by_cases h : ((!w.prec.pact && (readValue env w.prec).2.pact) = true)
    · rw [hp] at h
      simp at h
    · simp [h]
  · unfold process
    by_cases h : ((!w.prec.pact && (readValue env w.prec).2.pact) = true)
    · rw [hp] at h
      simp at h
    · simp [h]
  · intro h0
    simp [readValue, h0]
  · intro h0 h1
    simp [readValue, h0, h1]
  · intro h0 h1 h2
    simp [readValue, h0, h1, h2]
  · intro h0 h1 h3
    have hne : ¬ menuYesNoYES = menuYesNoNO := by decide
    simp [readValue, h0, h1, h3, hne]
  · intro h0 h1 h2 h3
    have h5 : readValue env w.prec
        = (-1, recGblSetSevr
                  { w.prec with simm := (env.dbGetLink w.prec.siml w.prec.simm).2 }
                  SOFT_ALARM INVALID_ALARM) := by
      simp [readValue, h0, h1, h2, h3]
    refine ⟨h5, ?_⟩
    rw [h5]
    by_cases h4 : w.prec.nsev < INVALID_ALARM <;>
    simp [h4, recGblSetSevr, dbCommon.recGblSetSevr, DbRecord.common, DbRecord.setCommon]

/-- Witness for C30: a record in simulation mode YES is processed: status 0, PACT
false at the end, UDF cleared, and the alarm raised by readValue has been posted
by monitor; a record whose SIML cannot be read returns the link status 7. -/
theorem item_process_is_synchronous_witness :
    (process exRecordSupport { prec := exItemRecord 0 1, posted := [] }).1 = 0
    ∧ (process exRecordSupport { prec := exItemRecord 0 1, posted := [] }).2.prec.pact = false
    ∧ (process exRecordSupport { prec := exItemRecord 0 1, posted := [] }).2.prec.udf = false
    ∧ (process exRecordSupport { prec := exItemRecord 0 1, posted := [] }).2.posted = [1]
    ∧ readValue exRecordSupport (exItemRecord 0 1)
        = (0, { exItemRecord 0 1 with nsta := SIMM_ALARM, nsev := 2, udf := false })
    ∧ (process exRecordSupport { prec := exItemRecord 1 0, posted := [] }).1 = 7
    ∧ (process exRecordSupport { prec := exItemRecord 1 0, posted := [] }).2.prec.udf = true :=
  ⟨rfl, (item_process_is_synchronous exRecordSupport
      { prec := exItemRecord 0 1, posted := [] }).1, rfl, rfl,
    (item_process_is_synchronous exRecordSupport
      { prec := exItemRecord 0 1, posted := [] }).2.2.2.2.2.1 rfl rfl rfl, rfl, rfl⟩

/-! ## The lock -/

section KeepsLock

variable {R σ : Type}

theorem keepsLock_pure {α : Type} (a : α) : KeepsLock (pure a : Body (Frame R σ) α) :=
  fun f => ⟨⟨[], by simp [pure], by simp, by simp⟩, rfl, rfl⟩

theorem keepsLock_bind {α β : Type} (x : Body (Frame R σ) α) (g : α → Body (Frame R σ) β)
    (hx : KeepsLock x) (hg : ∀ a, KeepsLock (g a)) : KeepsLock (x >>= g) := by
  intro f
  obtain ⟨⟨cs, h1, h2, h3⟩, h4, h5⟩ := hx f
  simp only [bind, Body.bind]
  rcases hr : x f with ⟨_ | a, f1⟩
  · rw [hr] at h1 h4 h5
    exact ⟨⟨cs, h1, h2, h3⟩, h4, h5⟩
  · rw [hr] at h1 h4 h5
    obtain ⟨⟨ds, k1, k2, k3⟩, k4, k5⟩ := hg a f1
    simp only at h1 h4 h5 ⊢
    refine ⟨⟨cs ++ ds, ?_, ?_, ?_⟩, ?_, ?_⟩
    · rw [k1, h1, List.append_assoc]
    · simp [h2, k2]
    · simp [h3, k3]
    · rw [k4, h4]
    · rw [k5, h5]

theorem keepsLock_ite {α : Type} (c : Prop) [Decidable c] (a b : Body (Frame R σ) α)
    (ha : KeepsLock a) (hb : KeepsLock b) : KeepsLock (if c then a else b) := by
  by_cases h : c
  · simpa [h] using ha
  · simpa [h] using hb

theorem keepsLock_getRec : KeepsLock (getRec : Body (Frame R σ) R) :=
  fun f => ⟨⟨[], by simp [getRec], by simp, by simp⟩, rfl, rfl⟩

theorem keepsLock_setRec (prec : R) : KeepsLock (setRec prec : Body (Frame R σ) Unit) :=
  fun f => ⟨⟨[], by simp [setRec], by simp, by simp⟩, rfl, rfl⟩

theorem keepsLock_errlogPrintf (d : Diag) : KeepsLock (errlogPrintf d : Body (Frame R σ) Unit) :=
  fun f => ⟨⟨[], by simp [errlogPrintf], by simp, by simp⟩, rfl, rfl⟩

theorem keepsLock_logCall (c : Call) (h1 : c ≠ Call.lock) (h2 : c ≠ Call.unlock) :
    KeepsLock (logCall c : Body (Frame R σ) Unit) :=
  fun f => ⟨⟨[c], by simp [logCall], by simpa using h1.symm, by simpa using h2.symm⟩, rfl, rfl⟩

theorem keepsLock_callRead {α : Type} (c : Call) (op : σ → Except Thrown α) (h1 : c ≠ Call.lock)
    (h2 : c ≠ Call.unlock) : KeepsLock (callRead c op : Body (Frame R σ) α) :=
  fun f => ⟨⟨[c], by simp [callRead], by simpa using h1.symm, by simpa using h2.symm⟩, rfl, rfl⟩

theorem keepsLock_callUpdate (c : Call) (op : σ → Except Thrown σ) (h1 : c ≠ Call.lock)
    (h2 : c ≠ Call.unlock) : KeepsLock (callUpdate c op : Body (Frame R σ) Unit) := by
  intro f
  cases h : op f.pvt.elem <;>
  exact ⟨⟨[c], by simp [callUpdate, h], by simpa using h1.symm, by simpa using h2.symm⟩,
    by simp [callUpdate, h], by simp [callUpdate, h]⟩

theorem keepsLock_callTotal (c : Call) (op : σ → σ) (h1 : c ≠ Call.lock)
    (h2 : c ≠ Call.unlock) : KeepsLock (callTotal c op : Body (Frame R σ) Unit) :=
  fun f => ⟨⟨[c], by simp [callTotal], by simpa using h1.symm, by simpa using h2.symm⟩, rfl, rfl⟩

theorem readsReason_pvtReason_bind {α : Type} (g : ProcessReason → Body (Frame R σ) α)
    (hg : ∀ a, KeepsLock (g a)) : ReadsReason (pvtReason >>= g) := by
  intro f
  obtain ⟨⟨ds, k1, k2, k3⟩, k4, k5⟩ :=
    hg f.pvt.reason { f with reasonReads := f.reasonReads ++ [f.pvt.lock] }
  simp only [bind, Body.bind, pvtReason]
  exact ⟨⟨ds, k1, k2, k3⟩, k4, k5⟩

theorem readsReason_getRec_bind {α : Type} (g : R → Body (Frame R σ) α)
    (hg : ∀ a, ReadsReason (g a)) : ReadsReason (getRec >>= g) := by
  intro f
  simp only [bind, Body.bind, getRec]
  exact hg f.prec f

theorem lockDiscipline_of_readsReason [DbRecord R] (recName : R → String) (w : World R σ)
    (pvt : RecordConnector σ) (body : Body (Frame R σ) Int) (hb : w.dpvt = some pvt)
    (hk : ReadsReason body) : lockDiscipline w pvt (TRY_CATCH recName w (Guard body)) := by
  obtain ⟨f0, hf0⟩ : ∃ f0 : Frame R σ, f0 = ⟨w.prec,
      ⟨pvt.reason, pvt.lock + 1, pvt.isIoIntrScanned, pvt.ioscanpvt, pvt.elem⟩,
      w.calls ++ [Call.lock], w.console, []⟩ := ⟨_, rfl⟩
  obtain ⟨⟨cs, h1, h2, h3⟩, h4, h5⟩ := hk f0
  have hcalls : ∀ r : Except Thrown Int × World R σ,
      r.2.calls = w.calls ++ Call.lock :: (cs ++ [Call.unlock]) →
      (r.2.dpvt.map fun c => c.lock) = some pvt.lock →
      r.2.reasonReads = [pvt.lock + 1] → lockDiscipline w pvt r := by
    intro r hr hl hrr
    have hn : newCalls w r = Call.lock :: (cs ++ [Call.unlock]) := by
      simp [newCalls, hr]
    refine ⟨by rw [hn]; rfl, ?_, ?_, ?_, hl, hrr⟩
    · rw [hn, List.getLast?_cons, List.getLast?_append]
      rfl
    · rw [hn]
      simp [List.count_cons, List.count_append, List.count_eq_zero_of_not_mem h2]
    · rw [hn]
      simp [List.count_cons, List.count_append, List.count_eq_zero_of_not_mem h3]
  have hrun : TRY_CATCH recName w (Guard body)
      = match body f0 with
        | (Except.ok ret, f) =>
          (Except.ok ret, ⟨f.prec, some ⟨f.pvt.reason, f.pvt.lock - 1, f.pvt.isIoIntrScanned,
            f.pvt.ioscanpvt, f.pvt.elem⟩, f.calls ++ [Call.unlock], f.console, f.reasonReads⟩)
        | (Except.error (Thrown.stdException what), f) =>
          (Except.ok 1, ⟨recGblSetSevr f.prec COMM_ALARM INVALID_ALARM,
            some ⟨f.pvt.reason, f.pvt.lock - 1, f.pvt.isIoIntrScanned, f.pvt.ioscanpvt, f.pvt.elem⟩,
            f.calls ++ [Call.unlock], f.console ++ [Diag.error (recName f.prec) what],
            f.reasonReads⟩)
        | (Except.error Thrown.other, f) =>
          (Except.error Thrown.other, ⟨f.prec, some ⟨f.pvt.reason, f.pvt.lock - 1,
            f.pvt.isIoIntrScanned, f.pvt.ioscanpvt, f.pvt.elem⟩, f.calls ++ [Call.unlock],
            f.console, f.reasonReads⟩) := by
    subst hf0
    simp only [TRY_CATCH, Guard, hb]
    rcases body _ with ⟨(_ | _) | a, f1⟩ <;> rfl
  rw [hrun]
  have h1a : (body f0).2.calls = w.calls ++ [Call.lock] ++ cs := by rw [h1, hf0]
  have h4a : (body f0).2.pvt.lock = pvt.lock + 1 := by rw [h4, hf0]
  have h5a : (body f0).2.reasonReads = [pvt.lock + 1] := by rw [h5, hf0]; rfl
  clear h1 h4 h5 hrun hf0
  rcases hr : body f0 with ⟨(_ | _) | a, f1⟩ <;>
  (rw [hr] at h1a h4a h5a
   simp only at h1a h4a h5a
   apply hcalls
   · simp [h1a]
   · simp [h4a]
   · simp [h5a])

end KeepsLock

theorem opcua_read_int32_val_locked {σ : Type} (ops : ConnectorOps σ) (now : epicsTimeStamp)
    (w : World longinRecord σ) (pvt : RecordConnector σ) (hb : w.dpvt = some pvt) :
    lockDiscipline w pvt (opcua_read_int32_val ops now w) := by
  refine lockDiscipline_of_readsReason _ _ _ _ hb ?_
  dsimp only
  refine readsReason_pvtReason_bind _ (fun _ => ?_)
  repeat' first
    | with_reducible exact keepsLock_getRec
    | with_reducible exact keepsLock_setRec _
    | with_reducible exact keepsLock_pure _
    | with_reducible exact keepsLock_errlogPrintf _
    | with_reducible exact keepsLock_callRead _ _ Call.noConfusion Call.noConfusion
    | with_reducible exact keepsLock_callUpdate _ _ Call.noConfusion Call.noConfusion
    | with_reducible exact keepsLock_callTotal _ _ Call.noConfusion Call.noConfusion
    | with_reducible exact keepsLock_logCall _ Call.noConfusion Call.noConfusion
    | with_reducible refine keepsLock_bind _ _ ?_ (fun _ => ?_)
    | with_reducible refine keepsLock_ite _ _ _ ?_ ?_

theorem opcua_write_int32_val_locked {σ : Type} (ops : ConnectorOps σ) (now : epicsTimeStamp)
    (w : World longoutRecord σ) (pvt : RecordConnector σ) (hb : w.dpvt = some pvt) :
    lockDiscipline w pvt (opcua_write_int32_val ops now w) := by
  refine lockDiscipline_of_readsReason _ _ _ _ hb ?_
  dsimp only
  refine readsReason_pvtReason_bind _ (fun _ => ?_)
  repeat' first
    | with_reducible exact keepsLock_getRec
    | with_reducible exact keepsLock_setRec _
    | with_reducible exact keepsLock_pure _
    | with_reducible exact keepsLock_errlogPrintf _
    | with_reducible exact keepsLock_callRead _ _ Call.noConfusion Call.noConfusion
    | with_reducible exact keepsLock_callUpdate _ _ Call.noConfusion Call.noConfusion
    | with_reducible exact keepsLock_callTotal _ _ Call.noConfusion Call.noConfusion
    | with_reducible exact keepsLock_logCall _ Call.noConfusion Call.noConfusion
    | with_reducible refine keepsLock_bind _ _ ?_ (fun _ => ?_)
    | with_reducible refine keepsLock_ite _ _ _ ?_ ?_

theorem opcua_read_int64_val_locked {σ : Type} (ops : ConnectorOps σ) (now : epicsTimeStamp)
    (w : World int64inRecord σ) (pvt : RecordConnector σ) (hb : w.dpvt = some pvt) :
    lockDiscipline w pvt (opcua_read_int64_val ops now w) := by
  refine lockDiscipline_of_readsReason _ _ _ _ hb ?_
  dsimp only
  refine readsReason_pvtReason_bind _ (fun _ => ?_)
  repeat' first
    | with_reducible exact keepsLock_getRec
    | with_reducible exact keepsLock_setRec _
    | with_reducible exact keepsLock_pure _
    | with_reducible exact keepsLock_errlogPrintf _
    | with_reducible exact keepsLock_callRead _ _ Call.noConfusion Call.noConfusion
    | with_reducible exact keepsLock_callUpdate _ _ Call.noConfusion Call.noConfusion
    | with_reducible exact keepsLock_callTotal _ _ Call.noConfusion Call.noConfusion
    | with_reducible exact keepsLock_logCall _ Call.noConfusion Call.noConfusion
    | with_reducible refine keepsLock_bind _ _ ?_ (fun _ => ?_)
    | with_reducible refine keepsLock_ite _ _ _ ?_ ?_

theorem opcua_write_int64_val_locked {σ : Type} (ops : ConnectorOps σ) (now : epicsTimeStamp)
    (w : World int64outRecord σ) (pvt : RecordConnector σ) (hb : w.dpvt = some pvt) :
    lockDiscipline w pvt (opcua_write_int64_val ops now w) := by
  refine lockDiscipline_of_readsReason _ _ _ _ hb ?_
  dsimp only
  refine readsReason_pvtReason_bind _ (fun _ => ?_)
  repeat' first
    | with_reducible exact keepsLock_getRec
    | with_reducible exact keepsLock_setRec _
    | with_reducible exact keepsLock_pure _
    | with_reducible exact keepsLock_errlogPrintf _
    | with_reducible exact keepsLock_callRead _ _ Call.noConfusion Call.noConfusion
    | with_reducible exact keepsLock_callUpdate _ _ Call.noConfusion Call.noConfusion
    | with_reducible exact keepsLock_callTotal _ _ Call.noConfusion Call.noConfusion
    | with_reducible exact keepsLock_logCall _ Call.noConfusion Call.noConfusion
    | with_reducible refine keepsLock_bind _ _ ?_ (fun _ => ?_)
    | with_reducible refine keepsLock_ite _ _ _ ?_ ?_

theorem opcua_read_uint32_rval_locked {σ : Type} (ops : ConnectorOps σ) (now : epicsTimeStamp)
    (w : World biRecord σ) (pvt : RecordConnector σ) (hb : w.dpvt = some pvt) :
    lockDiscipline w pvt (opcua_read_uint32_rval ops now w) := by
  refine lockDiscipline_of_readsReason _ _ _ _ hb ?_
  dsimp only
  refine readsReason_pvtReason_bind _ (fun _ => ?_)
  repeat' first
    | with_reducible exact keepsLock_getRec
    | with_reducible exact keepsLock_setRec _
    | with_reducible exact keepsLock_pure _
    | with_reducible exact keepsLock_errlogPrintf _
    | with_reducible exact keepsLock_callRead _ _ Call.noConfusion Call.noConfusion
    | with_reducible exact keepsLock_callUpdate _ _ Call.noConfusion Call.noConfusion
    | with_reducible exact keepsLock_callTotal _ _ Call.noConfusion Call.noConfusion
    | with_reducible exact keepsLock_logCall _ Call.noConfusion Call.noConfusion
    | with_reducible refine keepsLock_bind _ _ ?_ (fun _ => ?_)
    | with_reducible refine keepsLock_ite _ _ _ ?_ ?_

theorem opcua_write_uint32_rval_locked {σ : Type} (ops : ConnectorOps σ) (now : epicsTimeStamp)
    (w : World boRecord σ) (pvt : RecordConnector σ) (hb : w.dpvt = some pvt) :
    lockDiscipline w pvt (opcua_write_uint32_rval ops now w) := by
  refine lockDiscipline_of_readsReason _ _ _ _ hb ?_
  dsimp only
  refine readsReason_pvtReason_bind _ (fun _ => ?_)
  repeat' first
    | with_reducible exact keepsLock_getRec
    | with_reducible exact keepsLock_setRec _
    | with_reducible exact keepsLock_pure _
    | with_reducible exact keepsLock_errlogPrintf _
    | with_reducible exact keepsLock_callRead _ _ Call.noConfusion Call.noConfusion
    | with_reducible exact keepsLock_callUpdate _ _ Call.noConfusion Call.noConfusion
    | with_reducible exact keepsLock_callTotal _ _ Call.noConfusion Call.noConfusion
    | with_reducible exact keepsLock_logCall _ Call.noConfusion Call.noConfusion
    | with_reducible refine keepsLock_bind _ _ ?_ (fun _ => ?_)
    | with_reducible refine keepsLock_ite _ _ _ ?_ ?_

theorem opcua_read_analog_locked {σ : Type} (ops : ConnectorOps σ) (fops : ConnectorFloatOps σ)
    (now : epicsTimeStamp)
    (w : World aiRecord σ) (pvt : RecordConnector σ) (hb : w.dpvt = some pvt) :
    lockDiscipline w pvt (opcua_read_analog ops fops now w) := by
  refine lockDiscipline_of_readsReason _ _ _ _ hb ?_
  dsimp only
  refine readsReason_pvtReason_bind _ (fun _ => ?_)
  repeat' first
    | with_reducible exact keepsLock_getRec
    | with_reducible exact keepsLock_setRec _
    | with_reducible exact keepsLock_pure _
    | with_reducible exact keepsLock_errlogPrintf _
    | with_reducible exact keepsLock_callRead _ _ Call.noConfusion Call.noConfusion
    | with_reducible exact keepsLock_callUpdate _ _ Call.noConfusion Call.noConfusion
    | with_reducible exact keepsLock_callTotal _ _ Call.noConfusion Call.noConfusion
    | with_reducible exact keepsLock_logCall _ Call.noConfusion Call.noConfusion
    | with_reducible refine keepsLock_bind _ _ ?_ (fun _ => ?_)
    | with_reducible refine keepsLock_ite _ _ _ ?_ ?_

theorem opcua_write_analog_locked {σ β : Type} (ops : ConnectorOps σ) (fops : ConnectorFloatOps σ)
    (wops : ConnectorWriteOps σ β) (cl : AnalogCalls) (now : epicsTimeStamp)
    (w : World aoRecord σ) (pvt : RecordConnector σ) (hb : w.dpvt = some pvt) :
    lockDiscipline w pvt (opcua_write_analog ops fops wops cl now w) := by
  refine lockDiscipline_of_readsReason _ _ _ _ hb ?_
  dsimp only
  refine readsReason_pvtReason_bind _ (fun _ => ?_)
  repeat' first
    | with_reducible exact keepsLock_getRec
    | with_reducible exact keepsLock_setRec _
    | with_reducible exact keepsLock_pure _
    | with_reducible exact keepsLock_errlogPrintf _
    | with_reducible exact keepsLock_callRead _ _ Call.noConfusion Call.noConfusion
    | with_reducible exact keepsLock_callUpdate _ _ Call.noConfusion Call.noConfusion
    | with_reducible exact keepsLock_callTotal _ _ Call.noConfusion Call.noConfusion
    | with_reducible exact keepsLock_logCall _ Call.noConfusion Call.noConfusion
    | with_reducible refine keepsLock_bind _ _ ?_ (fun _ => ?_)
    | with_reducible refine keepsLock_ite _ _ _ ?_ ?_
    | split

theorem opcua_write_enum_locked {σ : Type} (ops : ConnectorOps σ) (undef : Nat) (now : epicsTimeStamp)
    (w : World mbboRecord σ) (pvt : RecordConnector σ) (hb : w.dpvt = some pvt) :
    lockDiscipline w pvt (opcua_write_enum ops undef now w) := by
  refine lockDiscipline_of_readsReason _ _ _ _ hb ?_
  dsimp only
  refine readsReason_pvtReason_bind _ (fun _ => ?_)
  repeat' first
    | with_reducible exact keepsLock_getRec
    | with_reducible exact keepsLock_setRec _
    | with_reducible exact keepsLock_pure _
    | with_reducible exact keepsLock_errlogPrintf _
    | with_reducible exact keepsLock_callRead _ _ Call.noConfusion Call.noConfusion
    | with_reducible exact keepsLock_callUpdate _ _ Call.noConfusion Call.noConfusion
    | with_reducible exact keepsLock_callTotal _ _ Call.noConfusion Call.noConfusion
    | with_reducible exact keepsLock_logCall _ Call.noConfusion Call.noConfusion
    | with_reducible refine keepsLock_bind _ _ ?_ (fun _ => ?_)
    | with_reducible refine keepsLock_ite _ _ _ ?_ ?_

theorem opcua_read_string_val_locked {σ : Type} (ops : ConnectorOps σ) (sops : ConnectorStringOps σ)
    (now : epicsTimeStamp)
    (w : World stringinRecord σ) (pvt : RecordConnector σ) (hb : w.dpvt = some pvt) :
    lockDiscipline w pvt (opcua_read_string_val ops sops now w) := by
  refine lockDiscipline_of_readsReason _ _ _ _ hb ?_
  dsimp only
  refine readsReason_pvtReason_bind _ (fun _ => ?_)
  repeat' first
    | with_reducible exact keepsLock_getRec
    | with_reducible exact keepsLock_setRec _
    | with_reducible exact keepsLock_pure _
    | with_reducible exact keepsLock_errlogPrintf _
    | with_reducible exact keepsLock_callRead _ _ Call.noConfusion Call.noConfusion
    | with_reducible exact keepsLock_callUpdate _ _ Call.noConfusion Call.noConfusion
    | with_reducible exact keepsLock_callTotal _ _ Call.noConfusion Call.noConfusion
    | with_reducible exact keepsLock_logCall _ Call.noConfusion Call.noConfusion
    | with_reducible refine keepsLock_bind _ _ ?_ (fun _ => ?_)
    | with_reducible refine keepsLock_ite _ _ _ ?_ ?_

theorem opcua_write_string_val_locked {σ β : Type} (ops : ConnectorOps σ) (sops : ConnectorStringOps σ)
    (wops : ConnectorWriteOps σ β) (now : epicsTimeStamp)
    (w : World stringoutRecord σ) (pvt : RecordConnector σ) (hb : w.dpvt = some pvt) :
    lockDiscipline w pvt (opcua_write_string_val ops sops wops now w) := by
  refine lockDiscipline_of_readsReason _ _ _ _ hb ?_
  dsimp only
  refine readsReason_pvtReason_bind _ (fun _ => ?_)
  repeat' first
    | with_reducible exact keepsLock_getRec
    | with_reducible exact keepsLock_setRec _
    | with_reducible exact keepsLock_pure _
    | with_reducible exact keepsLock_errlogPrintf _
    | with_reducible exact keepsLock_callRead _ _ Call.noConfusion Call.noConfusion
    | with_reducible exact keepsLock_callUpdate _ _ Call.noConfusion Call.noConfusion
    | with_reducible exact keepsLock_callTotal _ _ Call.noConfusion Call.noConfusion
    | with_reducible exact keepsLock_logCall _ Call.noConfusion Call.noConfusion
    | with_reducible refine keepsLock_bind _ _ ?_ (fun _ => ?_)
    | with_reducible refine keepsLock_ite _ _ _ ?_ ?_

theorem opcua_read_lstring_val_locked {σ : Type} (ops : ConnectorOps σ) (sops : ConnectorStringOps σ)
    (now : epicsTimeStamp)
    (w : World lsiRecord σ) (pvt : RecordConnector σ) (hb : w.dpvt = some pvt) :
    lockDiscipline w pvt (opcua_read_lstring_val ops sops now w) := by
  refine lockDiscipline_of_readsReason _ _ _ _ hb ?_
  dsimp only
  refine readsReason_pvtReason_bind _ (fun _ => ?_)
  repeat' first
    | with_reducible exact keepsLock_getRec
    | with_reducible exact keepsLock_setRec _
    | with_reducible exact keepsLock_pure _
    | with_reducible exact keepsLock_errlogPrintf _
    | with_reducible exact keepsLock_callRead _ _ Call.noConfusion Call.noConfusion
    | with_reducible exact keepsLock_callUpdate _ _ Call.noConfusion Call.noConfusion
    | with_reducible exact keepsLock_callTotal _ _ Call.noConfusion Call.noConfusion
    | with_reducible exact keepsLock_logCall _ Call.noConfusion Call.noConfusion
    | with_reducible refine keepsLock_bind _ _ ?_ (fun _ => ?_)
    | with_reducible refine keepsLock_ite _ _ _ ?_ ?_

theorem opcua_write_lstring_val_locked {σ β : Type} (ops : ConnectorOps σ) (sops : ConnectorStringOps σ)
    (wops : ConnectorWriteOps σ β) (now : epicsTimeStamp)
    (w : World lsoRecord σ) (pvt : RecordConnector σ) (hb : w.dpvt = some pvt) :
    lockDiscipline w pvt (opcua_write_lstring_val ops sops wops now w) := by
  refine lockDiscipline_of_readsReason _ _ _ _ hb ?_
  dsimp only
  refine readsReason_pvtReason_bind _ (fun _ => ?_)
  repeat' first
    | with_reducible exact keepsLock_getRec
    | with_reducible exact keepsLock_setRec _
    | with_reducible exact keepsLock_pure _
    | with_reducible exact keepsLock_errlogPrintf _
    | with_reducible exact keepsLock_callRead _ _ Call.noConfusion Call.noConfusion
    | with_reducible exact keepsLock_callUpdate _ _ Call.noConfusion Call.noConfusion
    | with_reducible exact keepsLock_callTotal _ _ Call.noConfusion Call.noConfusion
    | with_reducible exact keepsLock_logCall _ Call.noConfusion Call.noConfusion
    | with_reducible refine keepsLock_bind _ _ ?_ (fun _ => ?_)
    | with_reducible refine keepsLock_ite _ _ _ ?_ ?_

theorem opcua_read_array_locked {σ β : Type} (ops : ConnectorOps σ) (aops : ConnectorArrayOps σ β)
    (now : epicsTimeStamp)
    (w : World (waveformRecord β) σ) (pvt : RecordConnector σ) (hb : w.dpvt = some pvt) :
    lockDiscipline w pvt (opcua_read_array ops aops now w) := by
  refine lockDiscipline_of_readsReason _ _ _ _ hb ?_
  dsimp only
  refine readsReason_getRec_bind _ (fun _ => ?_)
  refine readsReason_pvtReason_bind _ (fun _ => ?_)
  repeat' first
    | with_reducible exact keepsLock_getRec
    | with_reducible exact keepsLock_setRec _
    | with_reducible exact keepsLock_pure _
    | with_reducible exact keepsLock_errlogPrintf _
    | with_reducible exact keepsLock_callRead _ _ Call.noConfusion Call.noConfusion
    | with_reducible exact keepsLock_callUpdate _ _ Call.noConfusion Call.noConfusion
    | with_reducible exact keepsLock_callTotal _ _ Call.noConfusion Call.noConfusion
    | with_reducible exact keepsLock_logCall _ Call.noConfusion Call.noConfusion
    | with_reducible refine keepsLock_bind _ _ ?_ (fun _ => ?_)
    | with_reducible refine keepsLock_ite _ _ _ ?_ ?_
    | split

theorem opcua_write_array_locked {σ β : Type} (ops : ConnectorOps σ) (aops : ConnectorArrayOps σ β)
    (wops : ConnectorWriteOps σ β) (now : epicsTimeStamp)
    (w : World (aaoRecord β) σ) (pvt : RecordConnector σ) (hb : w.dpvt = some pvt) :
    lockDiscipline w pvt (opcua_write_array ops aops wops now w) := by
  refine lockDiscipline_of_readsReason _ _ _ _ hb ?_
  dsimp only
  refine readsReason_getRec_bind _ (fun _ => ?_)
  refine readsReason_pvtReason_bind _ (fun _ => ?_)
  repeat' first
    | with_reducible exact keepsLock_getRec
    | with_reducible exact keepsLock_setRec _
    | with_reducible exact keepsLock_pure _
    | with_reducible exact keepsLock_errlogPrintf _
    | with_reducible exact keepsLock_callRead _ _ Call.noConfusion Call.noConfusion
    | with_reducible exact keepsLock_callUpdate _ _ Call.noConfusion Call.noConfusion
    | with_reducible exact keepsLock_callTotal _ _ Call.noConfusion Call.noConfusion
    | with_reducible exact keepsLock_logCall _ Call.noConfusion Call.noConfusion
    | with_reducible refine keepsLock_bind _ _ ?_ (fun _ => ?_)
    | with_reducible refine keepsLock_ite _ _ _ ?_ ?_
    | split

theorem unguardedRead_reads_unlocked {σ : Type} (ops : ConnectorOps σ)
    (w : World longinRecord σ) (pvt : RecordConnector σ) (hb : w.dpvt = some pvt) :
    (unguardedRead ops w).2.reasonReads = [pvt.lock]
    ∧ newCalls w (unguardedRead ops w) = [Call.lock, Call.requestOpcuaRead, Call.unlock]
    ∧ ¬ lockDiscipline w pvt (unguardedRead ops w) := by
  obtain ⟨reason, lock, scanned, scanpvt, elem⟩ := pvt
  obtain ⟨prec, dpvt, calls, console, reads⟩ := w
  simp only at hb
  subst hb
  have h1 : (unguardedRead ops ⟨prec, some ⟨reason, lock, scanned, scanpvt, elem⟩, calls,
      console, reads⟩).2.reasonReads = [lock] := by
    simp [unguardedRead, TRY_CATCH, Guard, bind, Body.bind, pure, pvtReason, getRec, setRec,
      callTotal, Frame.toWorld]
  refine ⟨h1, ?_, ?_⟩
  · simp [newCalls, unguardedRead, TRY_CATCH, Guard, bind, Body.bind, pure, pvtReason, getRec,
      setRec, callTotal, Frame.toWorld]
  · intro h
    have h2 := h.2.2.2.2.2
    rw [h1] at h2
    simp at h2

/-- C14: in each of the fifteen processing routines of `devOpcua.cpp`
(`opcua_read_int32_val`, `opcua_write_int32_val`, `opcua_read_int64_val`,
`opcua_write_int64_val`, `opcua_read_uint32_rval`, `opcua_write_uint32_rval`,
`opcua_read_analog`, `opcua_write_analog`, `opcua_write_enum`,
`opcua_read_string_val`, `opcua_write_string_val`, `opcua_read_lstring_val`,
`opcua_write_lstring_val`, `opcua_read_array`, `opcua_write_array`), run on a
record with a connector, whatever the connector's operations do and however the
run ends (return, `std::exception` caught, other exception passed on): the first
call added to the trace takes the connector's lock and the last releases it, the
lock is taken once and released once, so that every call into the leaf lies
between the two, the lock is held as often after the run as before, and the
reason is read while the lock is held once more than before the run. -/
theorem processing_routines_hold_lock {σ β : Type} (ops : ConnectorOps σ)
    (sops : ConnectorStringOps σ) (aops : ConnectorArrayOps σ β) (fops : ConnectorFloatOps σ)
    (wops : ConnectorWriteOps σ β) (cl : AnalogCalls) (undef : Nat) (now : epicsTimeStamp) :
    (∀ w pvt, w.dpvt = some pvt → lockDiscipline w pvt (opcua_read_int32_val ops now w))
    ∧ (∀ w pvt, w.dpvt = some pvt → lockDiscipline w pvt (opcua_write_int32_val ops now w))
    ∧ (∀ w pvt, w.dpvt = some pvt → lockDiscipline w pvt (opcua_read_int64_val ops now w))
    ∧ (∀ w pvt, w.dpvt = some pvt → lockDiscipline w pvt (opcua_write_int64_val ops now w))
    ∧ (∀ w pvt, w.dpvt = some pvt → lockDiscipline w pvt (opcua_read_uint32_rval ops now w))
    ∧ (∀ w pvt, w.dpvt = some pvt → lockDiscipline w pvt (opcua_write_uint32_rval ops now w))
    ∧ (∀ w pvt, w.dpvt = some pvt → lockDiscipline w pvt (opcua_read_analog ops fops now w))
    ∧ (∀ w pvt, w.dpvt = some pvt →
        lockDiscipline w pvt (opcua_write_analog ops fops wops cl now w))
    ∧ (∀ w pvt, w.dpvt = some pvt → lockDiscipline w pvt (opcua_write_enum ops undef now w))
    ∧ (∀ w pvt, w.dpvt = some pvt → lockDiscipline w pvt (opcua_read_string_val ops sops now w))
    ∧ (∀ w pvt, w.dpvt = some pvt →
        lockDiscipline w pvt (opcua_write_string_val ops sops wops now w))
    ∧ (∀ w pvt, w.dpvt = some pvt → lockDiscipline w pvt (opcua_read_lstring_val ops sops now w))
    ∧ (∀ w pvt, w.dpvt = some pvt →
        lockDiscipline w pvt (opcua_write_lstring_val ops sops wops now w))
    ∧ (∀ w pvt, w.dpvt = some pvt → lockDiscipline w pvt (opcua_read_array ops aops now w))
    ∧ (∀ w pvt, w.dpvt = some pvt →
        lockDiscipline w pvt (opcua_write_array ops aops wops now w)) :=
  ⟨opcua_read_int32_val_locked ops now, opcua_write_int32_val_locked ops now,
    opcua_read_int64_val_locked ops now, opcua_write_int64_val_locked ops now,
    opcua_read_uint32_rval_locked ops now, opcua_write_uint32_rval_locked ops now,
    opcua_read_analog_locked ops fops now, opcua_write_analog_locked ops fops wops cl now,
    opcua_write_enum_locked ops undef now, opcua_read_string_val_locked ops sops now,
    opcua_write_string_val_locked ops sops wops now, opcua_read_lstring_val_locked ops sops now,
    opcua_write_lstring_val_locked ops sops wops now, opcua_read_array_locked ops aops now,
    opcua_write_array_locked ops aops wops now⟩

/-- Witness for C14: a longin record whose leaf has no incoming data, so that
`readInt32` throws: the routine returns 1, its calls are taking the lock, the
read, and releasing the lock, and the reason is read with the lock held once;
and an ao record without conversion on a write request: the calls are taking
the lock, the write of VAL, the request, and releasing the lock. -/
theorem processing_routines_hold_lock_witness :
    ((exLongin ProcessReason.incomingData none).dpvt
        = some (exConnector ProcessReason.incomingData none)
      ∧ (opcua_read_int32_val byteLeafOps exNow (exLongin ProcessReason.incomingData none)).1
        = Except.ok 1
      ∧ newCalls (exLongin ProcessReason.incomingData none)
        (opcua_read_int32_val byteLeafOps exNow (exLongin ProcessReason.incomingData none))
        = [Call.lock, Call.readInt32, Call.unlock]
      ∧ (opcua_read_int32_val byteLeafOps exNow
          (exLongin ProcessReason.incomingData none)).2.reasonReads = [1]
      ∧ lockDiscipline (exLongin ProcessReason.incomingData none)
        (exConnector ProcessReason.incomingData none)
        (opcua_read_int32_val byteLeafOps exNow (exLongin ProcessReason.incomingData none)))
    ∧ ((exAo ProcessReason.none none).dpvt = some (exConnector ProcessReason.none none)
      ∧ newCalls (exAo ProcessReason.none none)
        (opcua_write_analog byteLeafOps exFloatOps exWriteOps exAnalogCalls exNow
          (exAo ProcessReason.none none))
        = [Call.lock, Call.writeFloat64 (epicsFloat64.finite 10), Call.requestOpcuaWrite,
            Call.unlock]
      ∧ (opcua_write_analog byteLeafOps exFloatOps exWriteOps exAnalogCalls exNow
          (exAo ProcessReason.none none)).2.reasonReads = [1]
      ∧ lockDiscipline (exAo ProcessReason.none none) (exConnector ProcessReason.none none)
        (opcua_write_analog byteLeafOps exFloatOps exWriteOps exAnalogCalls exNow
          (exAo ProcessReason.none none))) :=
  ⟨⟨rfl, rfl, rfl, rfl,
      (processing_routines_hold_lock byteLeafOps exStringOps exArrayOps exFloatOps exWriteOps
        exAnalogCalls 0 exNow).1 _ _ rfl⟩,
    ⟨rfl, rfl, rfl,
      (processing_routines_hold_lock byteLeafOps exStringOps exArrayOps exFloatOps exWriteOps
        exAnalogCalls 0 exNow).2.2.2.2.2.2.2.1 _ _ rfl⟩⟩

end DevOpcua
